import Mathlib

/-!
# rck-go-sdk: request/response translation layer

A shallow embedding of the Go packages `sdkerrors`, `internal/apimodels`,
`internal/httpclient`, `compute` and `image`, followed by theorems about them.

Modelling conventions

* A Go `interface{}` holding JSON-like data is a `Value` tree.  A number is kept as
  the literal `encoding/json` prints for it, so no floating-point arithmetic is needed.
* A Go `map[string]V` is an association list `GoMap V` kept sorted by key without
  duplicates; `GoMap.set` is the assignment `m[k] = v`, `GoMap.get` the lookup `m[k]`.
  A map whose nil-ness the code observes is an `Option (GoMap V)`, `none` being nil.
* `json.Marshal` followed by `json.Unmarshal` works on the JSON document (`JsonText`);
  the byte-level spelling is only produced where the code turns it into a string.
* A slice is the list of its elements; a nil slice, and a nil map that the code only
  ranges over, are not distinguished from empty ones.  A slice that `json.Unmarshal`
  decodes into is a `json.Slice`, which also keeps what its array holds beyond its length.
* `json.Marshal` followed by `json.Unmarshal` is modelled on the document: `Marshal`
  writes map keys in sorted order, which is the order of the entries of a `GoMap`;
  `Unmarshal` into a struct hands each member to the field its key selects.
* Stateful code passes its state explicitly: `Client.Post` returns the client with the
  call appended to `postCalls`.
-/

deriving instance DecidableEq for Except

namespace RckSdk

/-! ## Go values -/

/-- Go dynamic values as they appear behind `interface{}` in this SDK. -/
inductive Value where
  | null
  | bool (b : Bool)
  | num (lit : String)
  | str (s : String)
  | arr (xs : List Value)
  | obj (kvs : List (String × Value))
  | nonJson
  deriving Repr, Inhabited

mutual
/-- Decidable equality of values (structural). -/
def Value.decEq : (a b : Value) → Decidable (a = b)
  | .null, .null => isTrue rfl
  | .nonJson, .nonJson => isTrue rfl
  | .bool a, .bool b =>
    if h : a = b then isTrue (by rw [h]) else isFalse (by intro e; cases e; exact h rfl)
  | .num a, .num b =>
    if h : a = b then isTrue (by rw [h]) else isFalse (by intro e; cases e; exact h rfl)
  | .str a, .str b =>
    if h : a = b then isTrue (by rw [h]) else isFalse (by intro e; cases e; exact h rfl)
  | .arr a, .arr b =>
    match Value.decEqList a b with
    | isTrue h => isTrue (by rw [h])
    | isFalse h => isFalse (by intro e; cases e; exact h rfl)
  | .obj a, .obj b =>
    match Value.decEqEntries a b with
    | isTrue h => isTrue (by rw [h])
    | isFalse h => isFalse (by intro e; cases e; exact h rfl)
  | .null, .bool _ => isFalse nofun
  | .null, .num _ => isFalse nofun
  | .null, .str _ => isFalse nofun
  | .null, .arr _ => isFalse nofun
  | .null, .obj _ => isFalse nofun
  | .null, .nonJson => isFalse nofun
  | .bool _, .null => isFalse nofun
  | .bool _, .num _ => isFalse nofun
  | .bool _, .str _ => isFalse nofun
  | .bool _, .arr _ => isFalse nofun
  | .bool _, .obj _ => isFalse nofun
  | .bool _, .nonJson => isFalse nofun
  | .num _, .null => isFalse nofun
  | .num _, .bool _ => isFalse nofun
  | .num _, .str _ => isFalse nofun
  | .num _, .arr _ => isFalse nofun
  | .num _, .obj _ => isFalse nofun
  | .num _, .nonJson => isFalse nofun
  | .str _, .null => isFalse nofun
  | .str _, .bool _ => isFalse nofun
  | .str _, .num _ => isFalse nofun
  | .str _, .arr _ => isFalse nofun
  | .str _, .obj _ => isFalse nofun
  | .str _, .nonJson => isFalse nofun
  | .arr _, .null => isFalse nofun
  | .arr _, .bool _ => isFalse nofun
  | .arr _, .num _ => isFalse nofun
  | .arr _, .str _ => isFalse nofun
  | .arr _, .obj _ => isFalse nofun
  | .arr _, .nonJson => isFalse nofun
  | .obj _, .null => isFalse nofun
  | .obj _, .bool _ => isFalse nofun
  | .obj _, .num _ => isFalse nofun
  | .obj _, .str _ => isFalse nofun
  | .obj _, .arr _ => isFalse nofun
  | .obj _, .nonJson => isFalse nofun
  | .nonJson, .null => isFalse nofun
  | .nonJson, .bool _ => isFalse nofun
  | .nonJson, .num _ => isFalse nofun
  | .nonJson, .str _ => isFalse nofun
  | .nonJson, .arr _ => isFalse nofun
  | .nonJson, .obj _ => isFalse nofun
/-- Decidable equality of value lists. -/
def Value.decEqList : (a b : List Value) → Decidable (a = b)
  | [], [] => isTrue rfl
  | [], _ :: _ => isFalse nofun
  | _ :: _, [] => isFalse nofun
  | x :: xs, y :: ys =>
    match Value.decEq x y, Value.decEqList xs ys with
    | isTrue h, isTrue h2 => isTrue (by rw [h, h2])
    | isFalse h, _ => isFalse (by intro e; cases e; exact h rfl)
    | _, isFalse h => isFalse (by intro e; cases e; exact h rfl)
/-- Decidable equality of object entries. -/
def Value.decEqEntries : (a b : List (String × Value)) → Decidable (a = b)
  | [], [] => isTrue rfl
  | [], _ :: _ => isFalse nofun
  | _ :: _, [] => isFalse nofun
  | (k, x) :: xs, (l, y) :: ys =>
    if hk : k = l then
      match Value.decEq x y, Value.decEqEntries xs ys with
      | isTrue h, isTrue h2 => isTrue (by rw [hk, h, h2])
      | isFalse h, _ => isFalse (by intro e; cases e; exact h rfl)
      | _, isFalse h => isFalse (by intro e; cases e; exact h rfl)
    else isFalse (by intro e; cases e; exact hk rfl)
end

instance : DecidableEq Value := Value.decEq

/-- A Go map with string keys: entries sorted by key, no key twice. -/
abbrev GoMap (V : Type) := List (String × V)

namespace GoMap

/-- Go's string order `a < b` (code point by code point, as bytewise UTF-8 order). -/
def keyLt (a b : String) : Bool := decide (a.toList < b.toList)

/-- The lookup `m[k]` with its presence flag: `none` when the key is absent. -/
def get {V : Type} : GoMap V → String → Option V
  | [], _ => none
  | (k', v) :: rest, k => if k' = k then some v else get rest k

/-- The assignment `m[k] = v`: replaces the entry of `k` or inserts it in key order. -/
def set {V : Type} : GoMap V → String → V → GoMap V
  | [], k, v => [(k, v)]
  | (k', v') :: rest, k, v =>
    if keyLt k k' then (k, v) :: (k', v') :: rest
    else if k = k' then (k, v) :: rest
    else (k', v') :: set rest k v

/-- A map literal: the entries assigned one after the other to an empty map. -/
def ofList {V : Type} (entries : List (String × V)) : GoMap V :=
  entries.foldl (fun m kv => set m kv.1 kv.2) []

/-- The keys of the map, in key order. -/
def keys {V : Type} (m : GoMap V) : List String := m.map Prod.fst

/-- The representation invariant: keys strictly increasing. -/
def Sorted {V : Type} (m : GoMap V) : Prop := (keys m).Pairwise (fun a b => keyLt a b = true)

instance {V : Type} (m : GoMap V) : Decidable (Sorted m) := by
  unfold Sorted
  infer_instance

end GoMap

/-! ## Package sdkerrors -/

namespace sdkerrors

/-- An error returned from the RCK API (`sdkerrors.APIError`). -/
structure APIError where
  Message : String
  StatusCode : Int
  ResponseData : Option (GoMap Value)
  deriving DecidableEq, Repr

/-- A parameter validation error (`sdkerrors.ValidationError`). -/
structure ValidationError where
  Message : String
  Field : String
  deriving DecidableEq, Repr

end sdkerrors

/-- Go `error` values that this SDK creates or passes on. -/
inductive GoError where
  | errorString (msg : String)
  | wrapError (msg : String) (err : GoError)
  | apiError (e : sdkerrors.APIError)
  | validationError (e : sdkerrors.ValidationError)
  | networkError (err : GoError)
  deriving DecidableEq, Repr

namespace GoError

/-- The `Error()` method of each error type. -/
def Error : GoError → String
  | errorString msg => msg
  | wrapError msg _ => msg
  | apiError e =>
    "API error: " ++ e.Message ++ " (status code: " ++ toString e.StatusCode ++ ")"
  | validationError e =>
    if e.Field ≠ "" then
      "validation error on field \x27" ++ e.Field ++ "\x27: " ++ e.Message
    else "validation error: " ++ e.Message
  | networkError err => "network error: " ++ Error err

/-- The call `fmt.Errorf(format + "%w", err)`, format being a literal text. -/
def errorfW (format : String) (err : GoError) : GoError :=
  wrapError (format ++ Error err) err

/-- The call `fmt.Errorf(format + "%s", arg)`. -/
def errorfS (format : String) (arg : String) : GoError :=
  errorString (format ++ arg)

end GoError

namespace sdkerrors

/-- The sentinel `ErrAuthentication`. -/
def ErrAuthentication : GoError :=
  GoError.errorString "authentication failed, please check API key"

/-- The sentinel `ErrAPIKeyRequired`. -/
def ErrAPIKeyRequired : GoError := GoError.errorString "API key is required"

end sdkerrors

/-! ## Package encoding/json, as far as the SDK uses it -/

namespace json

mutual
/-- Whether `json.Marshal` accepts the value: it holds no channel, function or NaN. -/
def serialisable : Value → Bool
  | .nonJson => false
  | .arr xs => serialisableList xs
  | .obj kvs => serialisableEntries kvs
  | .null => true
  | .bool _ => true
  | .num _ => true
  | .str _ => true
/-- All elements are serialisable. -/
def serialisableList : List Value → Bool
  | [] => true
  | x :: xs => serialisable x && serialisableList xs
/-- All entry values are serialisable. -/
def serialisableEntries : List (String × Value) → Bool
  | [] => true
  | (_, x) :: xs => serialisable x && serialisableEntries xs
end

/-- The bytes `json.Marshal` returns, identified with the JSON document they spell. -/
structure JsonText where
  doc : Value
  deriving DecidableEq, Repr

/-- The function `json.Marshal` on a value. -/
def Marshal (v : Value) : Except GoError JsonText :=
  if serialisable v then .ok ⟨v⟩ else .error (GoError.errorString "json: unsupported type")

/-- A hexadecimal digit in lower case. -/
def hexDigit (n : Nat) : Char :=
  if n < 10 then Char.ofNat (48 + n) else Char.ofNat (87 + n)

/-- The escape `\u` followed by four hexadecimal digits. -/
def unicodeEscape (n : Nat) : List Char :=
  ['\\', 'u', hexDigit (n / 4096 % 16), hexDigit (n / 256 % 16), hexDigit (n / 16 % 16),
    hexDigit (n % 16)]

/-- How the encoder writes one character of a string (HTML escaping on, as in
`json.Marshal` of Go 1.18). -/
def escapeChar (c : Char) : List Char :=
  if c = '"' then ['\\', '"']
  else if c = '\\' then ['\\', '\\']
  else if c = '\n' then ['\\', 'n']
  else if c = '\r' then ['\\', 'r']
  else if c = '\t' then ['\\', 't']
  else if c.toNat < 32 ∨ c = '<' ∨ c = '>' ∨ c = '&' ∨ c.toNat = 8232 ∨ c.toNat = 8233 then
    unicodeEscape c.toNat
  else [c]

/-- A string literal of the JSON text. -/
def quote (s : String) : List Char :=
  '"' :: (s.toList.flatMap escapeChar ++ ['"'])

mutual
/-- The compact JSON spelling of a document, entries in document order. -/
def render : Value → List Char
  | .null => "null".toList
  | .bool true => "true".toList
  | .bool false => "false".toList
  | .num lit => lit.toList
  | .str s => quote s
  | .arr xs => '[' :: (renderElems xs ++ [']'])
  | .obj kvs => '\x7b' :: (renderMembers kvs ++ ['\x7d'])
  | .nonJson => []
/-- Array elements separated by commas. -/
def renderElems : List Value → List Char
  | [] => []
  | [x] => render x
  | x :: y :: rest => render x ++ (',' :: renderElems (y :: rest))
/-- Object members separated by commas. -/
def renderMembers : List (String × Value) → List Char
  | [] => []
  | [(k, x)] => quote k ++ (':' :: render x)
  | (k, x) :: kv :: rest => quote k ++ (':' :: render x) ++ (',' :: renderMembers (kv :: rest))
end

/-- The conversion `string(b)` of marshalled bytes. -/
def JsonText.toString (b : JsonText) : String := String.mk (render b.doc)

/-- The fold of one character that `encoding/json` applies before comparing an object key
with a struct field name: ASCII letters in upper case, and the two non-ASCII characters
that fold to an ASCII letter (U+017F to `S`, U+212A to `K`).  It agrees with the
library whenever the field name is ASCII, which every tag of this SDK is. -/
def foldRune (c : Char) : Char :=
  if 97 ≤ c.toNat ∧ c.toNat ≤ 122 then Char.ofNat (c.toNat - 32)
  else if c.toNat = 383 then 'S'
  else if c.toNat = 8490 then 'K'
  else c

/-- The folded form of a name. -/
def foldName (s : String) : List Char := s.toList.map foldRune

/-- Whether an object key selects the struct field tagged `field`.  The documentation of
`json.Unmarshal`: "To unmarshal JSON into a struct, Unmarshal matches incoming object
keys to the keys used by Marshal (either the struct field name or its tag), preferring
an exact match but also accepting a case-insensitive match."  No two fields of a struct
of this SDK have tags that are equal up to case, so the preference never matters. -/
def keyMatches (field key : String) : Bool :=
  key = field || foldName key = foldName field

/-- The word an `UnmarshalTypeError` uses for the JSON value it met. -/
def typeName : Value → String
  | .null => "null"
  | .bool _ => "bool"
  | .num _ => "number"
  | .str _ => "string"
  | .arr _ => "array"
  | .obj _ => "object"
  | .nonJson => "value"

/-- The error `UnmarshalTypeError` for a struct field (`path` is `Struct.field`) or, with
an empty path, for the top-level target. -/
def typeError (value goType path : String) : GoError :=
  if path = "" then
    GoError.errorString ("json: cannot unmarshal " ++ value ++ " into Go value of type " ++ goType)
  else
    GoError.errorString
      ("json: cannot unmarshal " ++ value ++ " into Go struct field " ++ path ++ " of type "
        ++ goType)

/-- The value of a run of decimal digits, most significant first; `none` for another
character. -/
def digitsValue : List Char → Nat → Option Nat
  | [], acc => some acc
  | c :: cs, acc =>
    if 48 ≤ c.toNat ∧ c.toNat ≤ 57 then digitsValue cs (10 * acc + (c.toNat - 48)) else none

/-- The call `strconv.ParseInt(lit, 10, 64)`: an optional sign, at least one digit, and a
value that fits the 64-bit `int`. -/
def ParseInt (lit : String) : Option Int :=
  let signed : Option Int :=
    match lit.toList with
    | [] => none
    | ['-'] => none
    | ['+'] => none
    | '-' :: ds => (digitsValue ds 0).map (fun n => -(n : Int))
    | '+' :: ds => (digitsValue ds 0).map (fun n => (n : Int))
    | ds => (digitsValue ds 0).map (fun n => (n : Int))
  match signed with
  | some n => if -9223372036854775808 ≤ n ∧ n ≤ 9223372036854775807 then some n else none
  | none => none

/-- Unmarshal into a `map[string]interface{}` that currently holds `cur`: null makes it
nil, an object is merged entry by entry into the existing map or into a new one.  The
documentation of `json.Unmarshal`: "If the map is nil, Unmarshal allocates a new map.
Otherwise Unmarshal reuses the existing map, keeping existing entries." -/
def decodeMap (path : String) (cur : Option (GoMap Value)) : Value →
    Except GoError (Option (GoMap Value))
  | .null => .ok none
  | .obj kvs => .ok (some (kvs.foldl (fun m kv => GoMap.set m kv.1 kv.2) (cur.getD [])))
  | v => .error (typeError (typeName v) "map[string]interface {}" path)

/-- Unmarshal into a `string` field: null leaves it as it is. -/
def decodeString (path : String) (cur : String) : Value → Except GoError String
  | .null => .ok cur
  | .str s => .ok s
  | v => .error (typeError (typeName v) "string" path)

/-- Unmarshal into an `int` field: null leaves it as it is, a number must be an integer
literal in range. -/
def decodeInt (path : String) (cur : Int) : Value → Except GoError Int
  | .null => .ok cur
  | .num lit =>
    match ParseInt lit with
    | some n => .ok n
    | none => .error (typeError ("number " ++ lit) "int" path)
  | v => .error (typeError (typeName v) "int" path)

/-- Unmarshal an object into a struct: the members in document order, each handed to the
field its key selects (`field cur key v`), the first error ending the decoding. -/
def decodeMembers {α : Type} (field : α → String → Value → Except GoError α) :
    List (String × Value) → α → Except GoError α
  | [], cur => .ok cur
  | (k, v) :: rest, cur =>
    match field cur k v with
    | .error e => .error e
    | .ok next => decodeMembers field rest next

/-- Unmarshal into a struct that currently holds `cur`: null leaves it as it is. -/
def decodeStruct {α : Type} (goType path : String)
    (field : α → String → Value → Except GoError α) (cur : α) : Value → Except GoError α
  | .null => .ok cur
  | .obj kvs => decodeMembers field kvs cur
  | v => .error (typeError (typeName v) goType path)

/-- A Go slice that `json.Unmarshal` decodes into: its elements, and the elements that
its array still holds beyond its length (what an earlier, longer content left there; the
rest of the array, and any array grown later, holds zero values). -/
structure Slice (α : Type) where
  elems : List α
  beyond : List α
  deriving DecidableEq, Repr

/-- The nil slice, which is also what a new empty slice is taken for. -/
def Slice.nil {α : Type} : Slice α := { elems := [], beyond := [] }

/-- Unmarshal the elements of an array into the array of a slice: the element at index
`i` is decoded into what that array holds at index `i` (`old` lists it from the current
index on), into a zero value where the array ends; the decoder does not clear an element
before it decodes into it. -/
def decodeElems {α : Type} (zero : α) (elem : α → Value → Except GoError α) :
    List α → List Value → Except GoError (List α)
  | _, [] => .ok []
  | old, x :: xs =>
    match elem (old.headD zero) x with
    | .error e => .error e
    | .ok a =>
      match decodeElems zero elem old.tail xs with
      | .error e => .error e
      | .ok rest => .ok (a :: rest)

/-- Unmarshal into a slice that currently is `cur`: null makes it nil and an empty array
makes it a new empty slice; the elements of any other array are decoded one after the
other into the elements that the array of the slice holds, the length is set to their
number, and what the array holds beyond it stays. -/
def decodeSlice {α : Type} (goType path : String) (zero : α)
    (elem : α → Value → Except GoError α) (cur : Slice α) : Value → Except GoError (Slice α)
  | .null => .ok Slice.nil
  | .arr xs =>
    if xs.isEmpty then .ok Slice.nil
    else
      match decodeElems zero elem (cur.elems ++ cur.beyond) xs with
      | .error e => .error e
      | .ok out => .ok { elems := out, beyond := (cur.elems ++ cur.beyond).drop xs.length }
  | v => .error (typeError (typeName v) goType path)

/-- A Go type that `json.Unmarshal` can fill: `unmarshal b cur` is the target after
`json.Unmarshal(b, &target)` when it held `cur` before, or the error returned. -/
class Unmarshaler (α : Type) where
  unmarshal : JsonText → α → Except GoError α

/-- The function `json.Unmarshal(b, &v)` on marshalled bytes. -/
def Unmarshal {α : Type} [Unmarshaler α] (b : JsonText) (v : α) : Except GoError α :=
  Unmarshaler.unmarshal b v

instance : Unmarshaler (Option (GoMap Value)) where
  unmarshal b cur := decodeMap "" cur b.doc

end json

/-! ## Package internal/apimodels -/

namespace apimodels

/-- The response of `/compute/execute` (`EndPoint` is tagged `end_point`). -/
structure APIComputeResponse where
  EndPoint : Option (GoMap Value)
  deriving DecidableEq, Repr

/-- One image of a render response. -/
structure APIImageInfo where
  URL : String
  ImageData : String
  Index : Int
  Size : Int
  MimeType : String
  deriving DecidableEq, Repr

/-- The detailed results of image generation. -/
structure APIImageEndPoint where
  Images : json.Slice APIImageInfo
  Count : Int
  Status : String
  deriving DecidableEq, Repr

/-- The response of `/sd2is/render` (`EndPoint` is tagged `end_point`). -/
structure APIImageResponse where
  EndPoint : APIImageEndPoint
  deriving DecidableEq, Repr

/-- The `start_point` portion of a compute request. -/
structure APIStartPoint where
  StartPoint : String
  Resource : List (GoMap String)
  deriving DecidableEq, Repr

/-- The request of `/compute/execute`. -/
structure APIComputeRequest where
  StartPoint : APIStartPoint
  Path : GoMap Value
  deriving DecidableEq, Repr

/-- The anonymous struct `StartPoint` of `APIImageRequest`. -/
structure APIImageStartPoint where
  StartPoint : String
  deriving DecidableEq, Repr

/-- The anonymous struct `Path` of `APIImageRequest`. -/
structure APIImagePath where
  Composition : String
  Lighting : String
  Style : String
  deriving DecidableEq, Repr

/-- The request of `/sd2is/render`. -/
structure APIImageRequest where
  StartPoint : APIImageStartPoint
  Path : APIImagePath
  deriving DecidableEq, Repr

/-- A `map[string]string` as a JSON object. -/
def stringMapValue (m : GoMap String) : Value :=
  Value.obj (m.map (fun kv => (kv.1, Value.str kv.2)))

/-- The JSON form of `APIStartPoint`: `resource` carries `omitempty`. -/
def APIStartPoint.toValue (p : APIStartPoint) : Value :=
  Value.obj
    (("startPoint", Value.str p.StartPoint) ::
      (if p.Resource.isEmpty then []
       else [("resource", Value.arr (p.Resource.map stringMapValue))]))

/-- The JSON form of `APIComputeRequest`, fields in declaration order under their tags. -/
def APIComputeRequest.toValue (r : APIComputeRequest) : Value :=
  Value.obj [("start_point", r.StartPoint.toValue), ("path", Value.obj r.Path)]

/-- The JSON form of `APIImageRequest`, fields in declaration order under their tags. -/
def APIImageRequest.toValue (r : APIImageRequest) : Value :=
  Value.obj
    [("start_point", Value.obj [("startPoint", Value.str r.StartPoint.StartPoint)]),
     ("path", Value.obj
        [("frame_Composition", Value.str r.Path.Composition),
         ("lighting", Value.str r.Path.Lighting),
         ("style", Value.str r.Path.Style)])]

/-- The field of `APIComputeResponse` that an object key selects, decoded. -/
def APIComputeResponse.decodeField (cur : APIComputeResponse) (key : String) (v : Value) :
    Except GoError APIComputeResponse :=
  if json.keyMatches "end_point" key then
    match json.decodeMap "APIComputeResponse.end_point" cur.EndPoint v with
    | .error e => .error e
    | .ok m => .ok { EndPoint := m }
  else .ok cur

instance : json.Unmarshaler APIComputeResponse where
  unmarshal b cur :=
    json.decodeStruct "apimodels.APIComputeResponse" "" APIComputeResponse.decodeField cur b.doc

/-- The field of `APIImageInfo` that an object key selects, decoded. -/
def APIImageInfo.decodeField (cur : APIImageInfo) (key : String) (v : Value) :
    Except GoError APIImageInfo :=
  if json.keyMatches "url" key then
    match json.decodeString "APIImageInfo.url" cur.URL v with
    | .error e => .error e
    | .ok s => .ok { cur with URL := s }
  else if json.keyMatches "imageData" key then
    match json.decodeString "APIImageInfo.imageData" cur.ImageData v with
    | .error e => .error e
    | .ok s => .ok { cur with ImageData := s }
  else if json.keyMatches "index" key then
    match json.decodeInt "APIImageInfo.index" cur.Index v with
    | .error e => .error e
    | .ok n => .ok { cur with Index := n }
  else if json.keyMatches "size" key then
    match json.decodeInt "APIImageInfo.size" cur.Size v with
    | .error e => .error e
    | .ok n => .ok { cur with Size := n }
  else if json.keyMatches "mimeType" key then
    match json.decodeString "APIImageInfo.mimeType" cur.MimeType v with
    | .error e => .error e
    | .ok s => .ok { cur with MimeType := s }
  else .ok cur

/-- The zero value of `APIImageInfo`. -/
def APIImageInfo.zero : APIImageInfo :=
  { URL := "", ImageData := "", Index := 0, Size := 0, MimeType := "" }

/-- The field of `APIImageEndPoint` that an object key selects, decoded. -/
def APIImageEndPoint.decodeField (cur : APIImageEndPoint) (key : String) (v : Value) :
    Except GoError APIImageEndPoint :=
  if json.keyMatches "images" key then
    match json.decodeSlice "[]apimodels.APIImageInfo" "APIImageEndPoint.images"
        APIImageInfo.zero
        (json.decodeStruct "apimodels.APIImageInfo" "APIImageEndPoint.images"
          APIImageInfo.decodeField) cur.Images v with
    | .error e => .error e
    | .ok imgs => .ok { cur with Images := imgs }
  else if json.keyMatches "count" key then
    match json.decodeInt "APIImageEndPoint.count" cur.Count v with
    | .error e => .error e
    | .ok n => .ok { cur with Count := n }
  else if json.keyMatches "status" key then
    match json.decodeString "APIImageEndPoint.status" cur.Status v with
    | .error e => .error e
    | .ok s => .ok { cur with Status := s }
  else .ok cur

/-- The field of `APIImageResponse` that an object key selects, decoded. -/
def APIImageResponse.decodeField (cur : APIImageResponse) (key : String) (v : Value) :
    Except GoError APIImageResponse :=
  if json.keyMatches "end_point" key then
    match json.decodeStruct "apimodels.APIImageEndPoint" "APIImageResponse.end_point"
        APIImageEndPoint.decodeField cur.EndPoint v with
    | .error e => .error e
    | .ok ep => .ok { EndPoint := ep }
  else .ok cur

/-- The zero value of `APIImageEndPoint`. -/
def APIImageEndPoint.zero : APIImageEndPoint :=
  { Images := json.Slice.nil, Count := 0, Status := "" }

/-- The zero value of `APIImageResponse`, as `var apiResponse` declares it. -/
def APIImageResponse.zero : APIImageResponse :=
  { EndPoint := APIImageEndPoint.zero }

instance : json.Unmarshaler APIImageResponse where
  unmarshal b cur :=
    json.decodeStruct "apimodels.APIImageResponse" "" APIImageResponse.decodeField cur b.doc

end apimodels

/-! ## Package internal/httpclient -/

namespace httpclient

/-- A `context.Context`; the SDK only hands it on to `net/http`. -/
structure Context where
  cancelled : Bool
  deadline : Option Nat
  deriving DecidableEq, Repr

/-- What the SDK passes to `Post` as `payload interface{}`. -/
inductive Payload where
  | compute (r : apimodels.APIComputeRequest)
  | image (r : apimodels.APIImageRequest)
  deriving DecidableEq, Repr

/-- The JSON form `json.Marshal` derives from the payload's struct tags. -/
def Payload.toValue : Payload → Value
  | .compute r => r.toValue
  | .image r => r.toValue

/-- A response body as `encoding/json` reads it: valid JSON, given by the Go value
`json.Unmarshal` builds from it for an `interface{}` target, or invalid JSON. -/
inductive RespBody where
  | json (v : Value)
  | invalid
  deriving DecidableEq, Repr

/-- The request handed to `(*http.Client).Do`. -/
structure HttpRequest where
  ctx : Context
  method : String
  url : String
  header : List (String × String)
  body : String
  deriving DecidableEq, Repr

/-- The response of `(*http.Client).Do`; reading the body with `io.ReadAll` may fail. -/
structure HttpResponse where
  StatusCode : Int
  Body : Except GoError RespBody

/-- The `*http.Client` with the network behind it: whether `net/url` accepts a URL, and
the outcome of a round trip (timeouts and cancellation included). -/
structure HttpStack where
  validURL : String → Bool
  Do : HttpRequest → Except GoError HttpResponse

/-- The internal HTTP client; `postCalls` records every invocation of `Post`. -/
structure Client where
  apiKey : String
  baseURL : String
  httpClient : HttpStack
  postCalls : List (String × Payload)

/-- The call `http.NewRequestWithContext(ctx, method, url, body)`; a nil context is
`none`. -/
def NewRequestWithContext (stack : HttpStack) (ctx : Option Context) (method url : String)
    (body : String) : Except GoError HttpRequest :=
  match ctx with
  | none => .error (GoError.errorString "net/http: nil Context")
  | some c =>
    if stack.validURL url then
      .ok { ctx := c, method := method, url := url, header := [], body := body }
    else .error (GoError.errorString ("parse " ++ url ++ ": invalid URL"))

/-- The call `json.Unmarshal(body, &v)` on a received body. -/
def unmarshalBody {α : Type} [json.Unmarshaler α] (body : RespBody) (v : α) :
    Except GoError α :=
  match body with
  | .invalid => .error (GoError.errorString "invalid character looking for beginning of value")
  | .json d => json.Unmarshal ⟨d⟩ v

/-- Converts HTTP error responses to sdkerrors (`handleErrorResponse`). -/
def Client.handleErrorResponse (_c : Client) (statusCode : Int) (body : RespBody) : GoError :=
  if statusCode = 401 ∨ statusCode = 403 then sdkerrors.ErrAuthentication
  else
    match unmarshalBody body (none : Option (GoMap Value)) with
    | .ok errorData =>
      GoError.apiError
        { StatusCode := statusCode
          ResponseData := errorData
          Message :=
            match errorData.bind (fun m => GoMap.get m "error") with
            | some (Value.str msg) => msg
            | _ => "API request failed" }
    | .error _ =>
      GoError.apiError
        { StatusCode := statusCode
          ResponseData := none
          Message := "API request failed with unparseable error response" }

/-- Sends a POST request to the specified endpoint (`Post`); returns the decoded mapping
or the error, and the client with this call recorded. -/
def Client.Post (c : Client) (ctx : Option Context) (endpoint : String) (payload : Payload) :
    Except GoError (Option (GoMap Value)) × Client :=
  let called : Client := { c with postCalls := c.postCalls ++ [(endpoint, payload)] }
  match json.Marshal payload.toValue with
  | .error err => (.error (GoError.errorfW "failed to marshal request payload: " err), called)
  | .ok body =>
    match NewRequestWithContext c.httpClient ctx "POST" (c.baseURL ++ endpoint)
        body.toString with
    | .error err => (.error (GoError.errorfW "failed to create request: " err), called)
    | .ok req =>
      match c.httpClient.Do
          { req with
            header :=
              [("Content-Type", "application/json"), ("topos-api-key", c.apiKey),
               ("User-Agent", "RCK-Go-SDK/1.0.0")] } with
      | .error err => (.error (GoError.networkError err), called)
      | .ok resp =>
        match resp.Body with
        | .error err => (.error (GoError.errorfW "failed to read response body: " err), called)
        | .ok respBody =>
          if resp.StatusCode ≥ 400 then
            (.error (c.handleErrorResponse resp.StatusCode respBody), called)
          else
            match unmarshalBody respBody (none : Option (GoMap Value)) with
            | .error err =>
              (.error (GoError.errorfW "failed to unmarshal successful response: " err), called)
            | .ok result => (.ok result, called)

end httpclient

namespace json

/-- How `json.Marshal` sees a `map[string]interface{}`: a nil map is `null`. -/
def mapValue : Option (GoMap Value) → Value
  | none => Value.null
  | some m => Value.obj m

end json

/-! ## Package compute -/

namespace compute

open httpclient

/-- The parameters of `CustomCompute`. -/
structure CustomComputeParams where
  Text : String
  Task : String
  OutputSchema : Option (GoMap Value)
  CustomFields : GoMap String
  Resources : List (GoMap String)
  deriving DecidableEq, Repr

/-- Checks if the parameters are valid. -/
def CustomComputeParams.Validate (p : CustomComputeParams) : Option GoError :=
  if p.Text = "" then
    some (GoError.validationError { Field := "Text", Message := "is required" })
  else if p.Task = "" then
    some (GoError.validationError { Field := "Task", Message := "is required" })
  else none

/-- The parameters of `Analyze`. -/
structure AnalyzeParams where
  Text : String
  Task : String
  OutputFormat : String
  CustomFields : GoMap String
  deriving DecidableEq, Repr

/-- Checks if the parameters are valid. -/
def AnalyzeParams.Validate (p : AnalyzeParams) : Option GoError :=
  if p.Text = "" then
    some (GoError.validationError { Field := "Text", Message := "is required" })
  else if p.Task = "" then
    some (GoError.validationError { Field := "Task", Message := "is required" })
  else if p.OutputFormat = "" then
    some (GoError.validationError { Field := "OutputFormat", Message := "is required" })
  else none

/-- The parameters of `Translate`. -/
structure TranslateParams where
  Text : String
  TargetLanguage : String
  IncludeCulturalNotes : Bool
  deriving DecidableEq, Repr

/-- Checks if the parameters are valid. -/
def TranslateParams.Validate (p : TranslateParams) : Option GoError :=
  if p.Text = "" then
    some (GoError.validationError { Field := "Text", Message := "is required" })
  else if p.TargetLanguage = "" then
    some (GoError.validationError { Field := "TargetLanguage", Message := "is required" })
  else none

/-- A literal `map[string]interface{}{...}` as a value. -/
def mapLit (entries : List (String × Value)) : Value := Value.obj (GoMap.ofList entries)

/-- A literal `map[string]string{...}` as a value. -/
def stringMapLit (entries : List (String × String)) : Value :=
  apimodels.stringMapValue (GoMap.ofList entries)

/-- A literal `[]string{...}` as a value. -/
def stringSliceLit (xs : List String) : Value := Value.arr (xs.map Value.str)

/-- All predefined output formats. -/
def PREDEFINED_SCHEMAS : GoMap (GoMap Value) :=
  GoMap.ofList
    [("basic_analysis", GoMap.ofList
        [("type", Value.str "object"),
         ("properties", mapLit
            [("emotion", stringMapLit
                [("type", "string"), ("description", "Emotion analysis result")]),
             ("theme", stringMapLit [("type", "string"), ("description", "Theme analysis")]),
             ("analysis", stringMapLit
                [("type", "string"), ("description", "Detailed analysis")])]),
         ("required", stringSliceLit ["emotion", "theme", "analysis"])]),
     ("poem_creation", GoMap.ofList
        [("type", Value.str "object"),
         ("properties", mapLit
            [("poem", stringMapLit [("type", "string"), ("description", "Created poem")]),
             ("creative_process", stringMapLit
                [("type", "string"), ("description", "Creative process")]),
             ("style_notes", stringMapLit
                [("type", "string"), ("description", "Style notes")])]),
         ("required", stringSliceLit ["poem"])]),
     ("scene_description", GoMap.ofList
        [("type", Value.str "object"),
         ("properties", mapLit
            [("scene_description", mapLit
                [("type", Value.str "object"),
                 ("properties", mapLit
                    [("main_subjects", stringMapLit
                        [("type", "string"),
                         ("description", "Main objects and spatial relationships")]),
                     ("lighting", stringMapLit
                        [("type", "string"),
                         ("description", "Lighting conditions and atmosphere")]),
                     ("composition", stringMapLit
                        [("type", "string"), ("description", "Picture composition")]),
                     ("style", stringMapLit
                        [("type", "string"), ("description", "Artistic style")])]),
                 ("required", stringSliceLit
                    ["main_subjects", "lighting", "composition", "style"])])]),
         ("required", stringSliceLit ["scene_description"])]),
     ("translation", GoMap.ofList
        [("type", Value.str "object"),
         ("properties", mapLit
            [("translation", stringMapLit
                [("type", "string"), ("description", "Translation result")]),
             ("original_language", stringMapLit
                [("type", "string"), ("description", "Source language")]),
             ("target_language", stringMapLit
                [("type", "string"), ("description", "Target language")]),
             ("cultural_notes", stringMapLit
                [("type", "string"), ("description", "Cultural background notes")])]),
         ("required", stringSliceLit ["translation"])])]

/-- Gets a deep copy of a predefined schema (`GetPredefinedSchema`). -/
def GetPredefinedSchema (schemaName : String) : Except GoError (Option (GoMap Value)) :=
  match GoMap.get PREDEFINED_SCHEMAS schemaName with
  | none => .error (GoError.errorfS "unknown schema name: " schemaName)
  | some schema =>
    match json.Marshal (Value.obj schema) with
    | .error err =>
      .error (GoError.errorfW
        ("internal error: failed to marshal predefined schema \x27" ++ schemaName ++ "\x27: ")
        err)
    | .ok b =>
      match json.Unmarshal b (none : Option (GoMap Value)) with
      | .error err =>
        .error (GoError.errorfW
          ("internal error: failed to unmarshal predefined schema \x27" ++ schemaName
            ++ "\x27: ") err)
      | .ok clone => .ok clone

/-- The standard response of all text computation calls. -/
structure ComputeResponse where
  Data : Option (GoMap Value)
  deriving DecidableEq, Repr

/-- Decodes the `Data` portion of the response into the target `v` (`Decode`); the
result is the target after the call. -/
def ComputeResponse.Decode {α : Type} [json.Unmarshaler α] (r : ComputeResponse) (v : α) :
    Except GoError α :=
  match r.Data with
  | none => .error (GoError.errorString "response data is nil")
  | some data =>
    match json.Marshal (Value.obj data) with
    | .error err => .error (GoError.errorfW "failed to marshal internal response data: " err)
    | .ok b =>
      match json.Unmarshal b v with
      | .error err =>
        .error (GoError.errorfW "failed to unmarshal response data into target struct: " err)
      | .ok out => .ok out

/-- The endpoint of the compute requests. -/
def computeEndpoint : String := "/compute/execute"

/-- The compute kernel: it holds the internal HTTP client. -/
structure Kernel where
  client : Client

/-- Decodes a `map[string]interface{}` into a struct (`decodeMapToStruct`). -/
def decodeMapToStruct {α : Type} [json.Unmarshaler α] (data : Option (GoMap Value)) (v : α) :
    Except GoError α :=
  match json.Marshal (json.mapValue data) with
  | .error err => .error (GoError.errorfW "failed to marshal map: " err)
  | .ok b =>
    match json.Unmarshal b v with
    | .error err => .error (GoError.errorfW "failed to unmarshal into struct: " err)
    | .ok out => .ok out

/-- Creates the request sent to the API (`buildComputePayload`). -/
def Kernel.buildComputePayload (_k : Kernel) (text task : String)
    (schema : Option (GoMap Value)) (customFields : GoMap String)
    (resources : List (GoMap String)) : Except GoError apimodels.APIComputeRequest :=
  let startPoint : apimodels.APIStartPoint := { StartPoint := text, Resource := resources }
  let path : GoMap Value := GoMap.set [] "expectPath" (Value.str task)
  let withSchema : Except GoError (GoMap Value) :=
    match schema with
    | some sch =>
      match json.Marshal (Value.obj sch) with
      | .error err => .error (GoError.errorfW "failed to marshal output schema: " err)
      | .ok schemaBytes => .ok (GoMap.set path "endpointClass" (Value.str schemaBytes.toString))
    | none => .ok path
  match withSchema with
  | .error err => .error err
  | .ok path =>
    .ok
      { StartPoint := startPoint
        Path := customFields.foldl (fun p kv => GoMap.set p kv.1 (Value.str kv.2)) path }

/-- The block that ends `CustomCompute`, `Analyze` and `Translate` alike: send the
request, then extract and return the result. -/
def Kernel.sendAndExtract (k : Kernel) (ctx : Option Context)
    (payload : apimodels.APIComputeRequest) : Except GoError ComputeResponse × Kernel :=
  match k.client.Post ctx computeEndpoint (Payload.compute payload) with
  | (.error err, c) => (.error err, { client := c })
  | (.ok rawResp, c) =>
    match decodeMapToStruct rawResp ({ EndPoint := none } : apimodels.APIComputeResponse) with
    | .error err =>
      (.error (GoError.apiError
        { Message := "failed to parse API response: " ++ err.Error
          StatusCode := 0
          ResponseData := none }), { client := c })
    | .ok apiResponse =>
      match apiResponse.EndPoint with
      | none =>
        (.error (GoError.apiError
          { Message := "API response missing \x27end_point\x27 field"
            StatusCode := 0
            ResponseData := none }), { client := c })
      | some endPoint => (.ok { Data := some endPoint }, { client := c })

/-- Executes a fully customized computation task (`CustomCompute`). -/
def Kernel.CustomCompute (k : Kernel) (ctx : Option Context) (params : CustomComputeParams) :
    Except GoError ComputeResponse × Kernel :=
  match params.Validate with
  | some err => (.error err, k)
  | none =>
    match k.buildComputePayload params.Text params.Task params.OutputSchema
        params.CustomFields params.Resources with
    | .error err => (.error err, k)
    | .ok payload => k.sendAndExtract ctx payload

/-- Performs text analysis (`Analyze`). -/
def Kernel.Analyze (k : Kernel) (ctx : Option Context) (params : AnalyzeParams) :
    Except GoError ComputeResponse × Kernel :=
  match params.Validate with
  | some err => (.error err, k)
  | none =>
    match GetPredefinedSchema params.OutputFormat with
    | .error err =>
      (.error (GoError.validationError
        { Field := "OutputFormat"
          Message := "invalid predefined schema name: " ++ err.Error }), k)
    | .ok schema =>
      match k.buildComputePayload params.Text params.Task schema params.CustomFields [] with
      | .error err => (.error err, k)
      | .ok payload => k.sendAndExtract ctx payload

/-- Performs text translation (`Translate`). -/
def Kernel.Translate (k : Kernel) (ctx : Option Context) (params : TranslateParams) :
    Except GoError ComputeResponse × Kernel :=
  match params.Validate with
  | some err => (.error err, k)
  | none =>
    let task : String :=
      if params.IncludeCulturalNotes then
        "Translate text to " ++ params.TargetLanguage ++ " and provide cultural background notes"
      else "Translate text to " ++ params.TargetLanguage
    match GetPredefinedSchema "translation" with
    | .error err =>
      (.error (GoError.errorfW "internal error: failed to get \x27translation\x27 schema: " err),
        k)
    | .ok schema =>
      let customFields : GoMap String :=
        GoMap.ofList
          [("target_language", params.TargetLanguage),
           ("include_cultural_notes",
              if params.IncludeCulturalNotes then "true" else "false")]
      match k.buildComputePayload params.Text task schema customFields [] with
      | .error err => (.error err, k)
      | .ok payload => k.sendAndExtract ctx payload

end compute

/-! ## Package image -/

namespace image

open httpclient

/-- The parameters of `Generate`. -/
structure GenerateParams where
  Prompt : String
  Composition : String
  Lighting : String
  Style : String
  deriving DecidableEq, Repr

/-- Checks if the parameters are valid. -/
def GenerateParams.Validate (p : GenerateParams) : Option GoError :=
  if p.Prompt = "" then
    some (GoError.validationError { Field := "Prompt", Message := "is required" })
  else if p.Composition = "" then
    some (GoError.validationError { Field := "Composition", Message := "is required" })
  else if p.Lighting = "" then
    some (GoError.validationError { Field := "Lighting", Message := "is required" })
  else if p.Style = "" then
    some (GoError.validationError { Field := "Style", Message := "is required" })
  else none

/-- Information about a single generated image. -/
structure ImageInfo where
  URL : String
  ImageData : String
  Index : Int
  Size : Int
  MimeType : String
  deriving DecidableEq, Repr

/-- The response of image generation calls. -/
structure ImageResponse where
  Images : List ImageInfo
  Count : Int
  Status : String
  RawData : Option (GoMap Value)
  deriving DecidableEq, Repr

/-- Checks if the request was successful and at least one image was generated. -/
def ImageResponse.Success (r : ImageResponse) : Bool :=
  r.Status = "success" && decide (r.Count > 0)

/-- Checks if the image info contains usable data (URL or Base64 data). -/
def ImageInfo.HasData (i : ImageInfo) : Bool :=
  i.URL ≠ "" || i.ImageData ≠ ""

/-- Decodes a `map[string]interface{}` into a struct (`decodeMapToStruct`). -/
def decodeMapToStruct {α : Type} [json.Unmarshaler α] (data : Option (GoMap Value)) (v : α) :
    Except GoError α :=
  match json.Marshal (json.mapValue data) with
  | .error err => .error (GoError.errorfW "failed to marshal map: " err)
  | .ok b =>
    match json.Unmarshal b v with
    | .error err => .error (GoError.errorfW "failed to unmarshal into struct: " err)
    | .ok out => .ok out

/-- The endpoint of the image requests. -/
def imageEndpoint : String := "/sd2is/render"

/-- The image generator: it holds the internal HTTP client. -/
structure Generator where
  client : Client

/-- Generates images based on the provided parameters (`Generate`). -/
def Generator.Generate (g : Generator) (ctx : Option Context) (params : GenerateParams) :
    Except GoError ImageResponse × Generator :=
  match params.Validate with
  | some err => (.error err, g)
  | none =>
    let payload : apimodels.APIImageRequest :=
      { StartPoint := { StartPoint := params.Prompt }
        Path :=
          { Composition := params.Composition
            Lighting := params.Lighting
            Style := params.Style } }
    match g.client.Post ctx imageEndpoint (Payload.image payload) with
    | (.error err, c) => (.error err, { client := c })
    | (.ok rawResp, c) =>
      match decodeMapToStruct rawResp apimodels.APIImageResponse.zero with
      | .error _ =>
        (.error (GoError.apiError
          { Message := "failed to parse API response into ImageResponse"
            StatusCode := 0
            ResponseData := none }), { client := c })
      | .ok apiResponse =>
        (.ok
          { Count := apiResponse.EndPoint.Count
            Status := apiResponse.EndPoint.Status
            RawData := rawResp
            Images :=
              apiResponse.EndPoint.Images.elems.map (fun imgData =>
                { URL := imgData.URL
                  ImageData := imgData.ImageData
                  Index := imgData.Index
                  Size := imgData.Size
                  MimeType := imgData.MimeType }) }, { client := c })

end image

/-! ## Maps and slices as heap objects

Values are immutable in the definitions above; to speak about copies that a caller
mutates, the maps and slices of a schema are placed in a heap and addressed by
reference, and `GetPredefinedSchema` is run on that heap. -/

namespace heap

/-- A Go value whose maps and slices are references to heap objects. -/
inductive Ref where
  | null
  | bool (b : Bool)
  | num (lit : String)
  | str (s : String)
  | slice (addr : Nat)
  | map (addr : Nat)
  | nonJson
  deriving DecidableEq, Repr

/-- A heap object: the entries of a map or the elements of a slice. -/
inductive Object where
  | map (entries : GoMap Ref)
  | slice (elems : List Ref)
  deriving DecidableEq, Repr

/-- The heap: the object at address `a` is the `a`-th element; allocation appends. -/
abbrev Heap := List Object

mutual
/-- Builds the maps and slices of a value as new heap objects. -/
def store : Value → Heap → Ref × Heap
  | .null, h => (Ref.null, h)
  | .bool b, h => (Ref.bool b, h)
  | .num lit, h => (Ref.num lit, h)
  | .str s, h => (Ref.str s, h)
  | .nonJson, h => (Ref.nonJson, h)
  | .arr xs, h =>
    (Ref.slice (storeList xs h).2.length, (storeList xs h).2 ++ [Object.slice (storeList xs h).1])
  | .obj kvs, h =>
    (Ref.map (storeEntries kvs h).2.length,
      (storeEntries kvs h).2 ++ [Object.map (storeEntries kvs h).1])
/-- Builds the elements of a slice one after the other. -/
def storeList : List Value → Heap → List Ref × Heap
  | [], h => ([], h)
  | x :: xs, h =>
    ((store x h).1 :: (storeList xs (store x h).2).1, (storeList xs (store x h).2).2)
/-- Builds the entry values of a map one after the other. -/
def storeEntries : List (String × Value) → Heap → GoMap Ref × Heap
  | [], h => ([], h)
  | (k, x) :: rest, h =>
    ((k, (store x h).1) :: (storeEntries rest (store x h).2).1,
      (storeEntries rest (store x h).2).2)
end

/-- All the values, if each one is present. -/
def allSome {α : Type} : List (Option α) → Option (List α)
  | [] => some []
  | none :: _ => none
  | some a :: rest => (allSome rest).map (fun l => a :: l)

/-- Reads the value a reference stands for, following at most `fuel` nested references. -/
def load (h : Heap) : Nat → Ref → Option Value
  | _, Ref.null => some Value.null
  | _, Ref.bool b => some (Value.bool b)
  | _, Ref.num lit => some (Value.num lit)
  | _, Ref.str s => some (Value.str s)
  | _, Ref.nonJson => some Value.nonJson
  | 0, Ref.slice _ => none
  | 0, Ref.map _ => none
  | fuel + 1, Ref.slice a =>
    match h[a]? with
    | some (Object.slice elems) => (allSome (elems.map (load h fuel))).map Value.arr
    | _ => none
  | fuel + 1, Ref.map a =>
    match h[a]? with
    | some (Object.map entries) =>
      (allSome (entries.map (fun kv => (load h fuel kv.2).map (fun v => (kv.1, v))))).map
        Value.obj
    | _ => none

/-- The value a reference stands for in a heap; a path through the objects that does not
repeat an object is shorter than the heap, so more steps mean a cycle. -/
def view (h : Heap) (r : Ref) : Option Value := load h (h.length + 1) r

mutual
/-- The nesting depth of maps and slices in a value. -/
def depth : Value → Nat
  | .arr xs => depthList xs + 1
  | .obj kvs => depthEntries kvs + 1
  | .null => 0
  | .bool _ => 0
  | .num _ => 0
  | .str _ => 0
  | .nonJson => 0
/-- The largest depth among the elements. -/
def depthList : List Value → Nat
  | [] => 0
  | x :: xs => max (depth x) (depthList xs)
/-- The largest depth among the entry values. -/
def depthEntries : List (String × Value) → Nat
  | [] => 0
  | (_, x) :: rest => max (depth x) (depthEntries rest)
end

/-- The memory of the running program: the heap, and the package variable
`PREDEFINED_SCHEMAS` as a map from names to references to the schema maps. -/
structure Program where
  heap : Heap
  PREDEFINED_SCHEMAS : GoMap Ref
  deriving DecidableEq, Repr

/-- The memory after package initialisation: the literal of `PREDEFINED_SCHEMAS` built. -/
def initial : Program :=
  { heap :=
      (storeEntries (compute.PREDEFINED_SCHEMAS.map (fun e => (e.1, Value.obj e.2))) []).2
    PREDEFINED_SCHEMAS :=
      (storeEntries (compute.PREDEFINED_SCHEMAS.map (fun e => (e.1, Value.obj e.2))) []).1 }

/-- The call `json.Marshal(schema)` on a heap: reads the object graph, failing on a
cycle, and marshals the value read. -/
def Marshal (h : Heap) (r : Ref) : Except GoError json.JsonText :=
  match view h r with
  | none => .error (GoError.errorString "json: unsupported value: encountered a cycle")
  | some v => json.Marshal v

/-- Gets a deep copy of a predefined schema (`GetPredefinedSchema`), on the heap: the
copy that `json.Unmarshal` builds consists of new objects. -/
def GetPredefinedSchema (st : Program) (schemaName : String) : Except GoError Ref × Program :=
  match GoMap.get st.PREDEFINED_SCHEMAS schemaName with
  | none => (.error (GoError.errorfS "unknown schema name: " schemaName), st)
  | some schema =>
    match Marshal st.heap schema with
    | .error err =>
      (.error (GoError.errorfW
        ("internal error: failed to marshal predefined schema \x27" ++ schemaName ++ "\x27: ")
        err), st)
    | .ok b =>
      match json.Unmarshal b (none : Option (GoMap Value)) with
      | .error err =>
        (.error (GoError.errorfW
          ("internal error: failed to unmarshal predefined schema \x27" ++ schemaName
            ++ "\x27: ") err), st)
      | .ok clone =>
        (.ok (store (json.mapValue clone) st.heap).1,
          { st with heap := (store (json.mapValue clone) st.heap).2 })

/-- Two heaps hold the same objects at the addresses from `lo` up to `hi`. -/
def Agree (h1 h2 : Heap) (lo hi : Nat) : Prop :=
  ∀ a, lo ≤ a → a < hi → h1[a]? = h2[a]?

/-- The registry is as package initialisation left it: the variable is unchanged and so
are the objects of its templates. -/
def Intact (st : Program) : Prop :=
  st.PREDEFINED_SCHEMAS = initial.PREDEFINED_SCHEMAS ∧
    Agree st.heap initial.heap 0 initial.heap.length

/-- The memory `after` differs from `before` at most in the objects at the addresses
from `lo` up to `hi` (any mutation of those objects) and in objects allocated since. -/
def MutatedOnly (before after : Program) (lo hi : Nat) : Prop :=
  after.PREDEFINED_SCHEMAS = before.PREDEFINED_SCHEMAS ∧
    Agree after.heap before.heap 0 lo ∧
    Agree after.heap before.heap hi before.heap.length

/-- The object at the address `b` is part of what the reference `r` stands for in the
heap `h`: it is the map or slice that `r` refers to, or it is part of one of the entry
values or elements of that map or slice, at any nesting depth. -/
inductive Reaches (h : Heap) : Ref → Nat → Prop where
  | slice (a : Nat) : Reaches h (Ref.slice a) a
  | map (a : Nat) : Reaches h (Ref.map a) a
  | elem (a : Nat) (elems : List Ref) (r : Ref) (b : Nat) :
      h[a]? = some (Object.slice elems) → r ∈ elems → Reaches h r b →
      Reaches h (Ref.slice a) b
  | entry (a : Nat) (entries : GoMap Ref) (k : String) (r : Ref) (b : Nat) :
      h[a]? = some (Object.map entries) → (k, r) ∈ entries → Reaches h r b →
      Reaches h (Ref.map a) b

/-- The memory `after` results from `before` by mutating what `r` stands for: it differs
from `before` at most in objects that are part of `r` in `before` (entries added, removed
or replaced in any of them) and in objects allocated since; the package variable is not
assigned. -/
def MutatedThrough (before after : Program) (r : Ref) : Prop :=
  after.PREDEFINED_SCHEMAS = before.PREDEFINED_SCHEMAS ∧
    ∀ a, a < before.heap.length → ¬ Reaches before.heap r a →
      after.heap[a]? = before.heap[a]?

end heap

/-! ## Reference notions of the specification -/

/-- The name of the first field whose value is empty, in the listed order. -/
def firstEmptyField : List (String × String) → Option String
  | [] => none
  | (name, value) :: rest => if value = "" then some name else firstEmptyField rest

/-- The `ValidationError` that reports a missing required field. -/
def requiredError (field : String) : GoError :=
  GoError.validationError { Field := field, Message := "is required" }

/-- A mapping in the mathematical sense: each key has a value or none. -/
abbrev Mapping := String → Option Value

/-- The mapping that agrees with `f` except that `k` has the value `v`. -/
def Mapping.extend (f : Mapping) (k : String) (v : Value) : Mapping :=
  fun key => if key = k then some v else f key

/-- The path object the specification prescribes: the map with `expectPath` set to the
task, extended with `endpointClass` set to the schema text exactly when a schema is
present, and then extended with every custom field under its own key. -/
def referencePath (task : String) (schemaText : Option String) (customFields : GoMap String) :
    Mapping :=
  let base : Mapping := Mapping.extend (fun _ => none) "expectPath" (Value.str task)
  let withSchema : Mapping :=
    match schemaText with
    | some text => Mapping.extend base "endpointClass" (Value.str text)
    | none => base
  fun key =>
    match GoMap.get customFields key with
    | some v => some (Value.str v)
    | none => withSchema key

/-- The path of `buildComputePayload` before the custom fields are merged in, given the
text of the marshalled schema when there is one. -/
def basePath (task : String) (schemaText : Option String) : GoMap Value :=
  match schemaText with
  | some text =>
    GoMap.set (GoMap.set [] "expectPath" (Value.str task)) "endpointClass" (Value.str text)
  | none => GoMap.set [] "expectPath" (Value.str task)

/-- The JSON serialisation, as a string, of a schema that is present. -/
def schemaText (schema : Option (GoMap Value)) : Option String :=
  schema.map (fun sch => json.JsonText.toString { doc := Value.obj sch })

/-- The lookup `m[key]` on a map that may be nil. -/
def lookupNil (m : Option (GoMap Value)) (key : String) : Option Value :=
  m.bind (fun entries => GoMap.get entries key)

/-- The error of the compute path for a response without end point. -/
def missingEndPoint : GoError :=
  GoError.apiError
    { Message := "API response missing \x27end_point\x27 field"
      StatusCode := 0
      ResponseData := none }

/-- What the specification requires of a compute call whose transport returned `m`: an
absent or null `end_point` gives the missing-field `APIError` and no result; an
`end_point` that is an object `e` gives a result whose `Data` is `e`. -/
def extractsEndPoint (m : Option (GoMap Value)) (r : Except GoError compute.ComputeResponse) :
    Prop :=
  ((lookupNil m "end_point" = none ∨ lookupNil m "end_point" = some Value.null) →
      r = .error missingEndPoint) ∧
  (∀ e, lookupNil m "end_point" = some (Value.obj e) → GoMap.Sorted e →
      r = .ok { Data := some e })

/-- The mapping a response body parses as, if it is a JSON object. -/
def parsesAsMapping : httpclient.RespBody → Option (GoMap Value)
  | .json (.obj kvs) => some (GoMap.ofList kvs)
  | _ => none

/-- The names of the catalog of predefined schemas. -/
def catalogNames : List String :=
  ["basic_analysis", "poem_creation", "scene_description", "translation"]

/-- A template property: type "string" with a description. -/
def stringProperty (description : String) : Value :=
  Value.obj [("description", Value.str description), ("type", Value.str "string")]

/-- A template: type "object" with the given properties and required list. -/
def objectTemplate (properties : List (String × Value)) (required : List String) :
    GoMap Value :=
  [("properties", Value.obj properties), ("required", Value.arr (required.map Value.str)),
   ("type", Value.str "object")]

/-- The structure of each catalog template, written out. -/
def templateOf (name : String) : Option (GoMap Value) :=
  if name = "basic_analysis" then
    some (objectTemplate
      [("analysis", stringProperty "Detailed analysis"),
       ("emotion", stringProperty "Emotion analysis result"),
       ("theme", stringProperty "Theme analysis")]
      ["emotion", "theme", "analysis"])
  else if name = "poem_creation" then
    some (objectTemplate
      [("creative_process", stringProperty "Creative process"),
       ("poem", stringProperty "Created poem"),
       ("style_notes", stringProperty "Style notes")]
      ["poem"])
  else if name = "scene_description" then
    some (objectTemplate
      [("scene_description", Value.obj (objectTemplate
          [("composition", stringProperty "Picture composition"),
           ("lighting", stringProperty "Lighting conditions and atmosphere"),
           ("main_subjects", stringProperty "Main objects and spatial relationships"),
           ("style", stringProperty "Artistic style")]
          ["main_subjects", "lighting", "composition", "style"]))]
      ["scene_description"])
  else if name = "translation" then
    some (objectTemplate
      [("cultural_notes", stringProperty "Cultural background notes"),
       ("original_language", stringProperty "Source language"),
       ("target_language", stringProperty "Target language"),
       ("translation", stringProperty "Translation result")]
      ["translation"])
  else none

/-- The cultural-notes phrase of the translation task. -/
def culturalNotesPhrase : String := "provide cultural background notes"

/-- The wire payload of `/sd2is/render` that the specification prescribes. -/
def referenceImagePayload (prompt composition lighting style : String) : Value :=
  Value.obj
    [("start_point", Value.obj [("startPoint", Value.str prompt)]),
     ("path", Value.obj
        [("frame_Composition", Value.str composition), ("lighting", Value.str lighting),
         ("style", Value.str style)])]

/-- The request that `Generate` builds from its parameters before it posts. -/
def generateRequest (p : image.GenerateParams) : apimodels.APIImageRequest :=
  { StartPoint := { StartPoint := p.Prompt }
    Path := { Composition := p.Composition, Lighting := p.Lighting, Style := p.Style } }

/-- The public record that `Generate` makes of one image of the wire response. -/
def imageRecord (w : apimodels.APIImageInfo) : image.ImageInfo :=
  { URL := w.URL, ImageData := w.ImageData, Index := w.Index, Size := w.Size,
    MimeType := w.MimeType }

/-! ## Fake backends for concrete runs -/

/-- A backend that answers every request with the given status and body. -/
def fixedStack (status : Int) (body : httpclient.RespBody) : httpclient.HttpStack :=
  { validURL := fun _ => true
    Do := fun _ => .ok { StatusCode := status, Body := .ok body } }

/-- A client on `fixedStack` that has not posted anything yet. -/
def fixedClient (status : Int) (body : httpclient.RespBody) : httpclient.Client :=
  { apiKey := "key"
    baseURL := "https://rck.example"
    httpClient := fixedStack status body
    postCalls := [] }

/-- The context `context.Background()`. -/
def background : Option httpclient.Context := some { cancelled := false, deadline := none }

/-- A backend that fails every round trip and reports the request it was handed. -/
def spyStack : httpclient.HttpStack :=
  { validURL := fun _ => true
    Do := fun req => .error (GoError.errorString (req.method ++ " " ++ req.url ++ " " ++ req.body)) }

/-- A client on `spyStack` that has not posted anything yet. -/
def spyClient : httpclient.Client :=
  { apiKey := "key"
    baseURL := "https://rck.example"
    httpClient := spyStack
    postCalls := [] }

/-- A caller-defined target of `Decode`: a struct with the string fields `Emotion`,
`Theme` and `Analysis`, tagged `emotion`, `theme` and `analysis`. -/
structure AnalysisResult where
  Emotion : String
  Theme : String
  Analysis : String
  deriving DecidableEq, Repr

/-- The field of `AnalysisResult` that an object key selects, decoded. -/
def AnalysisResult.decodeField (cur : AnalysisResult) (key : String) (v : Value) :
    Except GoError AnalysisResult :=
  if json.keyMatches "emotion" key then
    match json.decodeString "AnalysisResult.emotion" cur.Emotion v with
    | .error e => .error e
    | .ok s => .ok { cur with Emotion := s }
  else if json.keyMatches "theme" key then
    match json.decodeString "AnalysisResult.theme" cur.Theme v with
    | .error e => .error e
    | .ok s => .ok { cur with Theme := s }
  else if json.keyMatches "analysis" key then
    match json.decodeString "AnalysisResult.analysis" cur.Analysis v with
    | .error e => .error e
    | .ok s => .ok { cur with Analysis := s }
  else .ok cur

instance : json.Unmarshaler AnalysisResult where
  unmarshal b cur := json.decodeStruct "AnalysisResult" "" AnalysisResult.decodeField cur b.doc

/-! ## Theorems -/

/-! ### Go maps -/

/-- The key order is the order of strings. -/
theorem GoMap.keyLt_iff (a b : String) : GoMap.keyLt a b = true ↔ a < b := by
  unfold GoMap.keyLt
  rw [decide_eq_true_iff, String.lt_iff_toList_lt]

/-- A key is not below itself. -/
theorem GoMap.keyLt_irrefl (a : String) : GoMap.keyLt a a = false := by
  cases h : GoMap.keyLt a a
  · rfl
  · exact absurd ((GoMap.keyLt_iff a a).1 h) (lt_irrefl a)

/-- After `m[k] = v` the lookup of `k` finds `v`. -/
theorem GoMap.get_set_eq {V : Type} (m : GoMap V) (k : String) (v : V) :
    GoMap.get (GoMap.set m k v) k = some v := by
  induction m with
  | nil => simp [GoMap.set, GoMap.get]
  | cons e rest ih =>
    obtain ⟨k', v'⟩ := e
    unfold GoMap.set
    by_cases h1 : GoMap.keyLt k k' = true
    · simp [h1, GoMap.get]
    · by_cases h2 : k = k'
      · subst h2
        simp [h1, GoMap.get]
      · have h3 : ¬ k' = k := fun h => h2 h.symm
        simp [h1, h2, h3, GoMap.get, ih]

/-- The assignment `m[k] = v` leaves the lookup of every other key as it was. -/
theorem GoMap.get_set_ne {V : Type} (m : GoMap V) (k k' : String) (v : V) (hne : k' ≠ k) :
    GoMap.get (GoMap.set m k v) k' = GoMap.get m k' := by
  induction m with
  | nil =>
    have h : ¬ k = k' := fun h => hne h.symm
    simp [GoMap.set, GoMap.get, h]
  | cons e rest ih =>
    obtain ⟨k1, v1⟩ := e
    have h : ¬ k = k' := fun h => hne h.symm
    unfold GoMap.set
    by_cases h1 : GoMap.keyLt k k1 = true
    · simp [h1, GoMap.get, h]
    · by_cases h2 : k = k1
      · subst h2
        simp [h1, GoMap.get, h]
      · simp [h1, h2, GoMap.get, ih]

/-- A key is among the keys exactly when its lookup finds a value. -/
theorem GoMap.mem_keys_iff {V : Type} (m : GoMap V) (k : String) :
    k ∈ GoMap.keys m ↔ ∃ v, GoMap.get m k = some v := by
  induction m with
  | nil => simp [GoMap.keys, GoMap.get]
  | cons e rest ih =>
    obtain ⟨k1, v1⟩ := e
    by_cases h : k1 = k
    · simp [GoMap.keys, GoMap.get, h]
    · have h2 : ¬ k = k1 := fun e => h e.symm
      have ih2 : k ∈ List.map Prod.fst rest ↔ ∃ v, GoMap.get rest k = some v := ih
      simp only [GoMap.keys, List.map_cons, List.mem_cons, GoMap.get, h, if_false, h2,
        false_or]
      exact ih2

/-- A key absent from the keys has no value. -/
theorem GoMap.get_eq_none_of_not_mem {V : Type} (m : GoMap V) (k : String)
    (h : k ∉ GoMap.keys m) : GoMap.get m k = none := by
  cases hg : GoMap.get m k with
  | none => rfl
  | some v => exact absurd ((GoMap.mem_keys_iff m k).2 ⟨v, hg⟩) h

/-- With pairwise distinct keys, the lookup of an entry's key finds that entry's value. -/
theorem GoMap.get_of_mem {V : Type} (m : GoMap V) (hnd : (GoMap.keys m).Nodup)
    (k : String) (v : V) (hmem : (k, v) ∈ m) : GoMap.get m k = some v := by
  induction m with
  | nil => simp at hmem
  | cons e rest ih =>
    obtain ⟨k1, v1⟩ := e
    simp only [GoMap.keys, List.map_cons, List.nodup_cons] at hnd
    rcases List.mem_cons.1 hmem with heq | htail
    · cases heq
      simp [GoMap.get]
    · have hk : k ∈ List.map Prod.fst rest := List.mem_map.2 ⟨(k, v), htail, rfl⟩
      have hne : ¬ k1 = k := fun e => hnd.1 (e ▸ hk)
      simp only [GoMap.get, hne, if_false]
      exact ih hnd.2 htail

/-! ### Parameter validation -/

/-- C1: each `Validate` returns no error exactly when all its required fields are
non-empty, and otherwise the `ValidationError` ("is required") whose `Field` is the first
empty required field in the order Text, Task / Text, Task, OutputFormat /
Text, TargetLanguage / Prompt, Composition, Lighting, Style; the optional fields
(OutputSchema, CustomFields, Resources, IncludeCulturalNotes) do not influence the
outcome. -/
theorem validate_reports_first_empty_required_field :
    (∀ p : compute.CustomComputeParams,
      (p.Validate = none ↔ p.Text ≠ "" ∧ p.Task ≠ "") ∧
      p.Validate = (firstEmptyField [("Text", p.Text), ("Task", p.Task)]).map requiredError) ∧
    (∀ p : compute.AnalyzeParams,
      (p.Validate = none ↔ p.Text ≠ "" ∧ p.Task ≠ "" ∧ p.OutputFormat ≠ "") ∧
      p.Validate =
        (firstEmptyField [("Text", p.Text), ("Task", p.Task),
          ("OutputFormat", p.OutputFormat)]).map requiredError) ∧
    (∀ p : compute.TranslateParams,
      (p.Validate = none ↔ p.Text ≠ "" ∧ p.TargetLanguage ≠ "") ∧
      p.Validate =
        (firstEmptyField [("Text", p.Text), ("TargetLanguage", p.TargetLanguage)]).map
          requiredError) ∧
    (∀ p : image.GenerateParams,
      (p.Validate = none ↔
        p.Prompt ≠ "" ∧ p.Composition ≠ "" ∧ p.Lighting ≠ "" ∧ p.Style ≠ "") ∧
      p.Validate =
        (firstEmptyField [("Prompt", p.Prompt), ("Composition", p.Composition),
          ("Lighting", p.Lighting), ("Style", p.Style)]).map requiredError) ∧
    (∀ (text task : String) (s1 s2 : Option (GoMap Value)) (cf1 cf2 : GoMap String)
        (r1 r2 : List (GoMap String)),
      compute.CustomComputeParams.Validate
          { Text := text, Task := task, OutputSchema := s1, CustomFields := cf1,
            Resources := r1 } =
        compute.CustomComputeParams.Validate
          { Text := text, Task := task, OutputSchema := s2, CustomFields := cf2,
            Resources := r2 }) ∧
    (∀ (text task format : String) (cf1 cf2 : GoMap String),
      compute.AnalyzeParams.Validate
          { Text := text, Task := task, OutputFormat := format, CustomFields := cf1 } =
        compute.AnalyzeParams.Validate
          { Text := text, Task := task, OutputFormat := format, CustomFields := cf2 }) ∧
    (∀ (text language : String) (n1 n2 : Bool),
      compute.TranslateParams.Validate
          { Text := text, TargetLanguage := language, IncludeCulturalNotes := n1 } =
        compute.TranslateParams.Validate
          { Text := text, TargetLanguage := language, IncludeCulturalNotes := n2 }) := by
  refine ⟨?_, ?_, ?_, ?_, ?_, ?_, ?_⟩
  · intro p
    unfold compute.CustomComputeParams.Validate
    by_cases h1 : p.Text = "" <;> by_cases h2 : p.Task = "" <;>
      simp [h1, h2, firstEmptyField, requiredError]
  · intro p
    unfold compute.AnalyzeParams.Validate
    by_cases h1 : p.Text = "" <;> by_cases h2 : p.Task = "" <;>
      by_cases h3 : p.OutputFormat = "" <;> simp [h1, h2, h3, firstEmptyField, requiredError]
  · intro p
    unfold compute.TranslateParams.Validate
    by_cases h1 : p.Text = "" <;> by_cases h2 : p.TargetLanguage = "" <;>
      simp [h1, h2, firstEmptyField, requiredError]
  · intro p
    unfold image.GenerateParams.Validate
    by_cases h1 : p.Prompt = "" <;> by_cases h2 : p.Composition = "" <;>
      by_cases h3 : p.Lighting = "" <;> by_cases h4 : p.Style = "" <;>
      simp [h1, h2, h3, h4, firstEmptyField, requiredError]
  · intros; rfl
  · intros; rfl
  · intros; rfl

/-! ### Validation happens before any network call -/

/-- Every invocation of `Post` is recorded, whatever its outcome. -/
theorem Post_records_call (c : httpclient.Client) (ctx : Option httpclient.Context)
    (endpoint : String) (payload : httpclient.Payload) :
    (c.Post ctx endpoint payload).2.postCalls = c.postCalls ++ [(endpoint, payload)] := by
  unfold httpclient.Client.Post
  simp only []
  split
  · rfl
  · split
    · rfl
    · split
      · rfl
      · split
        · rfl
        · split
          · rfl
          · split <;> rfl

/-- The error classification of the transport never yields a `ValidationError`. -/
theorem handleErrorResponse_not_validation (c : httpclient.Client) (statusCode : Int)
    (body : httpclient.RespBody) (e : sdkerrors.ValidationError) :
    c.handleErrorResponse statusCode body ≠ GoError.validationError e := by
  unfold httpclient.Client.handleErrorResponse
  split
  · simp [sdkerrors.ErrAuthentication]
  · split <;> simp

/-- The transport never returns a `ValidationError`. -/
theorem Post_not_validation (c : httpclient.Client) (ctx : Option httpclient.Context)
    (endpoint : String) (payload : httpclient.Payload) (e : sdkerrors.ValidationError) :
    (c.Post ctx endpoint payload).1 ≠ .error (GoError.validationError e) := by
  unfold httpclient.Client.Post
  simp only []
  split
  · simp [GoError.errorfW]
  · split
    · simp [GoError.errorfW]
    · split
      · simp
      · split
        · simp [GoError.errorfW]
        · split
          · intro h
            injection h with h
            exact handleErrorResponse_not_validation _ _ _ _ h
          · split <;> simp [GoError.errorfW]

/-- The shared block of the compute entry points posts exactly once. -/
theorem sendAndExtract_records_call (k : compute.Kernel) (ctx : Option httpclient.Context)
    (payload : apimodels.APIComputeRequest) :
    (k.sendAndExtract ctx payload).2.client.postCalls =
      k.client.postCalls ++ [(compute.computeEndpoint, httpclient.Payload.compute payload)] := by
  have hp := Post_records_call k.client ctx compute.computeEndpoint
    (httpclient.Payload.compute payload)
  unfold compute.Kernel.sendAndExtract
  rcases hpost : k.client.Post ctx compute.computeEndpoint
    (httpclient.Payload.compute payload) with ⟨r, c⟩
  rw [hpost] at hp
  cases r with
  | error err => exact hp
  | ok rawResp =>
    simp only []
    split
    · exact hp
    · split <;> exact hp

/-- The shared block of the compute entry points never returns a `ValidationError`. -/
theorem sendAndExtract_not_validation (k : compute.Kernel) (ctx : Option httpclient.Context)
    (payload : apimodels.APIComputeRequest) (e : sdkerrors.ValidationError) :
    (k.sendAndExtract ctx payload).1 ≠ .error (GoError.validationError e) := by
  have hp := Post_not_validation k.client ctx compute.computeEndpoint
    (httpclient.Payload.compute payload) e
  unfold compute.Kernel.sendAndExtract
  rcases hpost : k.client.Post ctx compute.computeEndpoint
    (httpclient.Payload.compute payload) with ⟨r, c⟩
  rw [hpost] at hp
  cases r with
  | error err => simpa using hp
  | ok rawResp =>
    simp only []
    split
    · simp
    · split <;> simp

/-- A failure of `buildComputePayload` is a wrapped marshalling error. -/
theorem buildComputePayload_error (k : compute.Kernel) (text task : String)
    (schema : Option (GoMap Value)) (customFields : GoMap String)
    (resources : List (GoMap String)) (err : GoError)
    (h : k.buildComputePayload text task schema customFields resources = .error err) :
    ∃ msg inner, err = GoError.wrapError msg inner := by
  unfold compute.Kernel.buildComputePayload at h
  simp only [] at h
  cases schema with
  | none => simp at h
  | some sch =>
    simp only [] at h
    cases hm : json.Marshal (Value.obj sch) with
    | error e1 =>
      rw [hm] at h
      simp only [Except.error.injEq] at h
      exact ⟨_, _, h.symm⟩
    | ok b =>
      rw [hm] at h
      simp at h

/-- C2: whenever CustomCompute, Analyze, Translate or Generate returns a
`ValidationError`, `Post` has not been invoked during the call (the record of calls is
unchanged) and the error is the one `Validate` produced (for Analyze possibly the wrapped
schema-resolution failure on OutputFormat); and whenever `Validate` fails, the call
returns exactly that error, no result, and leaves the client untouched. -/
theorem validation_error_precedes_any_post :
    (∀ (k : compute.Kernel) (ctx : Option httpclient.Context)
        (p : compute.CustomComputeParams) (e : sdkerrors.ValidationError),
      (k.CustomCompute ctx p).1 = .error (GoError.validationError e) →
        (k.CustomCompute ctx p).2.client.postCalls = k.client.postCalls ∧
        p.Validate = some (GoError.validationError e)) ∧
    (∀ (k : compute.Kernel) (ctx : Option httpclient.Context)
        (p : compute.AnalyzeParams) (e : sdkerrors.ValidationError),
      (k.Analyze ctx p).1 = .error (GoError.validationError e) →
        (k.Analyze ctx p).2.client.postCalls = k.client.postCalls ∧
        (p.Validate = some (GoError.validationError e) ∨
          (p.Validate = none ∧ e.Field = "OutputFormat" ∧
            ∃ err, compute.GetPredefinedSchema p.OutputFormat = .error err))) ∧
    (∀ (k : compute.Kernel) (ctx : Option httpclient.Context)
        (p : compute.TranslateParams) (e : sdkerrors.ValidationError),
      (k.Translate ctx p).1 = .error (GoError.validationError e) →
        (k.Translate ctx p).2.client.postCalls = k.client.postCalls ∧
        p.Validate = some (GoError.validationError e)) ∧
    (∀ (g : image.Generator) (ctx : Option httpclient.Context)
        (p : image.GenerateParams) (e : sdkerrors.ValidationError),
      (g.Generate ctx p).1 = .error (GoError.validationError e) →
        (g.Generate ctx p).2.client.postCalls = g.client.postCalls ∧
        p.Validate = some (GoError.validationError e)) ∧
    (∀ (k : compute.Kernel) (ctx : Option httpclient.Context)
        (p : compute.CustomComputeParams) (err : GoError),
      p.Validate = some err → k.CustomCompute ctx p = (.error err, k)) ∧
    (∀ (k : compute.Kernel) (ctx : Option httpclient.Context)
        (p : compute.AnalyzeParams) (err : GoError),
      p.Validate = some err → k.Analyze ctx p = (.error err, k)) ∧
    (∀ (k : compute.Kernel) (ctx : Option httpclient.Context)
        (p : compute.TranslateParams) (err : GoError),
      p.Validate = some err → k.Translate ctx p = (.error err, k)) ∧
    (∀ (g : image.Generator) (ctx : Option httpclient.Context)
        (p : image.GenerateParams) (err : GoError),
      p.Validate = some err → g.Generate ctx p = (.error err, g)) := by
  refine ⟨?_, ?_, ?_, ?_, ?_, ?_, ?_, ?_⟩
  · intro k ctx p e h
    unfold compute.Kernel.CustomCompute at h ⊢
    cases hv : p.Validate with
    | some err =>
      rw [hv] at h
      simp only [Except.error.injEq] at h
      simp [h]
    | none =>
      rw [hv] at h
      simp only [] at h ⊢
      cases hb : k.buildComputePayload p.Text p.Task p.OutputSchema p.CustomFields
          p.Resources with
      | error err =>
        rw [hb] at h
        simp only [Except.error.injEq] at h
        obtain ⟨msg, inner, hw⟩ := buildComputePayload_error _ _ _ _ _ _ _ hb
        rw [hw] at h
        cases h
      | ok payload =>
        rw [hb] at h
        exact absurd h (sendAndExtract_not_validation k ctx payload e)
  · intro k ctx p e h
    unfold compute.Kernel.Analyze at h ⊢
    cases hv : p.Validate with
    | some err =>
      rw [hv] at h
      simp only [Except.error.injEq] at h
      simp [h]
    | none =>
      rw [hv] at h
      simp only [] at h ⊢
      cases hs : compute.GetPredefinedSchema p.OutputFormat with
      | error err =>
        rw [hs] at h
        simp only [Except.error.injEq, GoError.validationError.injEq] at h
        refine ⟨?_, Or.inr ⟨?_, ?_, err, ?_⟩⟩
        · trivial
        · trivial
        · rw [← h]
        · trivial
      | ok schema =>
        rw [hs] at h
        simp only [] at h ⊢
        cases hb : k.buildComputePayload p.Text p.Task schema p.CustomFields [] with
        | error err =>
          rw [hb] at h
          simp only [Except.error.injEq] at h
          obtain ⟨msg, inner, hw⟩ := buildComputePayload_error _ _ _ _ _ _ _ hb
          rw [hw] at h
          cases h
        | ok payload =>
          rw [hb] at h
          exact absurd h (sendAndExtract_not_validation k ctx payload e)
  · intro k ctx p e h
    unfold compute.Kernel.Translate at h ⊢
    cases hv : p.Validate with
    | some err =>
      rw [hv] at h
      simp only [Except.error.injEq] at h
      simp [h]
    | none =>
      rw [hv] at h
      simp only [] at h ⊢
      cases hs : compute.GetPredefinedSchema "translation" with
      | error err =>
        rw [hs] at h
        simp [GoError.errorfW] at h
      | ok schema =>
        rw [hs] at h
        simp only [] at h ⊢
        split at h
        · rename_i err hb
          simp only [Except.error.injEq] at h
          obtain ⟨msg, inner, hw⟩ := buildComputePayload_error _ _ _ _ _ _ _ hb
          rw [hw] at h
          cases h
        · rename_i payload hb
          exact absurd h (sendAndExtract_not_validation k ctx payload e)
  · intro g ctx p e h
    unfold image.Generator.Generate at h ⊢
    cases hv : p.Validate with
    | some err =>
      rw [hv] at h
      simp only [Except.error.injEq] at h
      simp [h]
    | none =>
      rw [hv] at h
      simp only [] at h ⊢
      have hp := Post_not_validation g.client ctx image.imageEndpoint
        (httpclient.Payload.image
          { StartPoint := { StartPoint := p.Prompt }
            Path := { Composition := p.Composition, Lighting := p.Lighting,
                      Style := p.Style } }) e
      rcases hpost : g.client.Post ctx image.imageEndpoint
        (httpclient.Payload.image
          { StartPoint := { StartPoint := p.Prompt }
            Path := { Composition := p.Composition, Lighting := p.Lighting,
                      Style := p.Style } }) with ⟨r, c⟩
      rw [hpost] at h hp
      cases r with
      | error err =>
        simp only [Except.error.injEq] at h
        exact absurd (congrArg Except.error h) hp
      | ok rawResp =>
        simp only [] at h
        split at h <;> simp at h
  · intro k ctx p err hv
    simp [compute.Kernel.CustomCompute, hv]
  · intro k ctx p err hv
    simp [compute.Kernel.Analyze, hv]
  · intro k ctx p err hv
    simp [compute.Kernel.Translate, hv]
  · intro g ctx p err hv
    simp [image.Generator.Generate, hv]

/-- Witness of C2: Analyze with an empty Text on a client that has posted nothing
returns the `ValidationError` on "Text" and still has posted nothing. -/
theorem validation_error_precedes_any_post_witness :
    (compute.Kernel.Analyze { client := fixedClient 200 httpclient.RespBody.invalid } background
        { Text := "", Task := "simple analysis", OutputFormat := "basic_analysis",
          CustomFields := [] }).1 = .error (requiredError "Text") ∧
    (compute.Kernel.Analyze { client := fixedClient 200 httpclient.RespBody.invalid } background
        { Text := "", Task := "simple analysis", OutputFormat := "basic_analysis",
          CustomFields := [] }).2.client.postCalls = [] :=
  ⟨by decide,
    (validation_error_precedes_any_post.2.1
      { client := fixedClient 200 httpclient.RespBody.invalid } background
      { Text := "", Task := "simple analysis", OutputFormat := "basic_analysis",
        CustomFields := [] }
      { Field := "Text", Message := "is required" } (by decide)).1⟩

/-! ### Payload assembly -/

/-- A lookup that finds a value finds an entry of the map. -/
theorem GoMap.mem_of_get {V : Type} (m : GoMap V) (k : String) (v : V)
    (h : GoMap.get m k = some v) : (k, v) ∈ m := by
  induction m with
  | nil => simp [GoMap.get] at h
  | cons e rest ih =>
    obtain ⟨k1, v1⟩ := e
    by_cases hk : k1 = k
    · simp only [GoMap.get, hk, if_true, Option.some.injEq] at h
      simp [hk, h]
    · simp only [GoMap.get, hk, if_false] at h
      exact List.mem_cons_of_mem _ (ih h)

/-- With pairwise distinct keys the lookup does not depend on the order of the entries. -/
theorem GoMap.get_reverse {V : Type} (m : GoMap V) (hnd : (GoMap.keys m).Nodup) (k : String) :
    GoMap.get m.reverse k = GoMap.get m k := by
  have hnd2 : (GoMap.keys m.reverse).Nodup := by
    simp only [GoMap.keys, List.map_reverse, List.nodup_reverse]
    exact hnd
  cases hg : GoMap.get m k with
  | some v =>
    exact GoMap.get_of_mem _ hnd2 k v (List.mem_reverse.2 (GoMap.mem_of_get m k v hg))
  | none =>
    apply GoMap.get_eq_none_of_not_mem
    intro hmem
    have hmem2 : k ∈ GoMap.keys m := by
      simp only [GoMap.keys, List.map_reverse, List.mem_reverse] at hmem
      exact hmem
    obtain ⟨v, hv⟩ := (GoMap.mem_keys_iff m k).1 hmem2
    rw [hg] at hv
    cases hv

/-- The loop `for key, value := range customFields` of `buildComputePayload`: afterwards a
key holds the value of the last custom field of that name, or else what `path` held. -/
theorem get_merge_customFields (customFields : GoMap String) (path : GoMap Value)
    (k : String) :
    GoMap.get (customFields.foldl (fun p kv => GoMap.set p kv.1 (Value.str kv.2)) path) k =
      match GoMap.get customFields.reverse k with
      | some v => some (Value.str v)
      | none => GoMap.get path k := by
  induction customFields using List.reverseRecOn with
  | nil => simp [GoMap.get]
  | append_singleton init last ih =>
    obtain ⟨k1, v1⟩ := last
    rw [List.foldl_append, List.reverse_append]
    simp only [List.foldl_cons, List.foldl_nil, List.reverse_cons, List.reverse_nil,
      List.nil_append, List.singleton_append]
    by_cases hk : k1 = k
    · subst hk
      rw [GoMap.get_set_eq]
      simp [GoMap.get]
    · have hk2 : k ≠ k1 := fun e => hk e.symm
      rw [GoMap.get_set_ne _ _ _ _ hk2, ih]
      simp [GoMap.get, hk]

/-- The path that `buildComputePayload` assembles, when marshalling the schema succeeds. -/
theorem buildComputePayload_ok (k : compute.Kernel) (text task : String)
    (schema : Option (GoMap Value)) (customFields : GoMap String)
    (resources : List (GoMap String))
    (hser : ∀ sch, schema = some sch → json.serialisable (Value.obj sch) = true) :
    k.buildComputePayload text task schema customFields resources =
      .ok
        { StartPoint := { StartPoint := text, Resource := resources }
          Path :=
            customFields.foldl (fun p kv => GoMap.set p kv.1 (Value.str kv.2))
              (basePath task (schemaText schema)) } := by
  unfold compute.Kernel.buildComputePayload basePath schemaText
  cases schema with
  | none => rfl
  | some sch =>
    have h := hser sch rfl
    simp [json.Marshal, h]

/-- The lookups of the path before the custom fields are merged in. -/
theorem get_basePath (task : String) (text : Option String) (key : String) :
    GoMap.get (basePath task text) key =
      match text with
      | some t =>
        Mapping.extend (Mapping.extend (fun _ => none) "expectPath" (Value.str task))
          "endpointClass" (Value.str t) key
      | none => Mapping.extend (fun _ => none) "expectPath" (Value.str task) key := by
  unfold basePath Mapping.extend
  cases text with
  | none =>
    by_cases h1 : key = "expectPath"
    · subst h1
      simp [GoMap.get_set_eq]
    · have h1s : ¬ "expectPath" = key := fun e => h1 e.symm
      simp [GoMap.get_set_ne _ _ _ _ h1, GoMap.get, h1, h1s]
  | some t =>
    by_cases h2 : key = "endpointClass"
    · subst h2
      simp [GoMap.get_set_eq]
    · by_cases h1 : key = "expectPath"
      · subst h1
        simp [GoMap.get_set_ne _ _ _ _ h2, GoMap.get_set_eq]
      · have h1s : ¬ "expectPath" = key := fun e => h1 e.symm
        have h2s : ¬ "endpointClass" = key := fun e => h2 e.symm
        simp [GoMap.get_set_ne _ _ _ _ h2, GoMap.get_set_ne _ _ _ _ h1, GoMap.get, h1, h2,
          h1s, h2s]

/-- C3, as stated, fails: with the custom field `expectPath` set to "hijacked" the payload
carries "hijacked" under `expectPath`, not the task "summarise". -/
theorem expectPath_overridden_by_custom_field :
    compute.Kernel.buildComputePayload { client := fixedClient 200 httpclient.RespBody.invalid }
        "some text" "summarise" none [("expectPath", "hijacked")] [] =
      .ok
        { StartPoint := { StartPoint := "some text", Resource := [] }
          Path := [("expectPath", Value.str "hijacked")] } ∧
    GoMap.get [("expectPath", Value.str "hijacked")] "expectPath" ≠
      some (Value.str "summarise") := by
  decide

/-- C3, amended: for a serialisable (or absent) schema `buildComputePayload` succeeds, and
`path["expectPath"]` is the task string whenever no custom field is named `expectPath`
(custom fields named `endpointClass` or anything else do not matter); a custom field
named `expectPath` replaces the task by its own value. -/
theorem expectPath_is_task_unless_custom_field (k : compute.Kernel) (text task : String)
    (schema : Option (GoMap Value)) (customFields : GoMap String)
    (resources : List (GoMap String))
    (hser : ∀ sch, schema = some sch → json.serialisable (Value.obj sch) = true) :
    ∃ payload, k.buildComputePayload text task schema customFields resources = .ok payload ∧
      ("expectPath" ∉ GoMap.keys customFields →
        GoMap.get payload.Path "expectPath" = some (Value.str task)) ∧
      (∀ v, (GoMap.keys customFields).Nodup → ("expectPath", v) ∈ customFields →
        GoMap.get payload.Path "expectPath" = some (Value.str v)) := by
  refine ⟨_, buildComputePayload_ok k text task schema customFields resources hser, ?_, ?_⟩
  · intro hno
    have hnone : GoMap.get customFields.reverse "expectPath" = none := by
      apply GoMap.get_eq_none_of_not_mem
      simpa [GoMap.keys] using hno
    simp only [get_merge_customFields, hnone, get_basePath]
    cases schemaText schema <;> simp [Mapping.extend]
  · intro v hnd hmem
    have hsome : GoMap.get customFields.reverse "expectPath" = some v := by
      rw [GoMap.get_reverse _ hnd]
      exact GoMap.get_of_mem _ hnd _ _ hmem
    simp only [get_merge_customFields, hsome]

/-- Witness of the amended C3: the schema `{"type": "object"}` and the custom field
`tone`. -/
theorem expectPath_is_task_unless_custom_field_witness :
    json.serialisable (Value.obj [("type", Value.str "object")]) = true ∧
    ∃ payload,
      compute.Kernel.buildComputePayload
          { client := fixedClient 200 httpclient.RespBody.invalid }
          "some text" "summarise" (some [("type", Value.str "object")]) [("tone", "formal")]
          [] = .ok payload ∧
      ("expectPath" ∉ GoMap.keys [("tone", "formal")] →
        GoMap.get payload.Path "expectPath" = some (Value.str "summarise")) ∧
      (∀ v, (GoMap.keys [("tone", "formal")]).Nodup →
        ("expectPath", v) ∈ ([("tone", "formal")] : GoMap String) →
        GoMap.get payload.Path "expectPath" = some (Value.str v)) :=
  ⟨by decide,
    expectPath_is_task_unless_custom_field _ "some text" "summarise"
      (some [("type", Value.str "object")]) [("tone", "formal")] []
      (by intro sch h; cases h; decide)⟩

/-- C4: for a serialisable (or absent) schema and custom fields with pairwise distinct
keys, `buildComputePayload` succeeds with `start_point.startPoint` the text,
`start_point.resource` the resource list unchanged, and a path equal, key by key, to the
reference path of the specification; so every custom field is in the path with its own
value, and the keys of the path are `expectPath`, `endpointClass` exactly when a schema
is present, and the custom keys. -/
theorem buildComputePayload_matches_reference (k : compute.Kernel) (text task : String)
    (schema : Option (GoMap Value)) (customFields : GoMap String)
    (resources : List (GoMap String))
    (hser : ∀ sch, schema = some sch → json.serialisable (Value.obj sch) = true)
    (hkeys : (GoMap.keys customFields).Nodup) :
    ∃ payload, k.buildComputePayload text task schema customFields resources = .ok payload ∧
      payload.StartPoint.StartPoint = text ∧
      payload.StartPoint.Resource = resources ∧
      (∀ key, GoMap.get payload.Path key =
        referencePath task (schemaText schema) customFields key) ∧
      (∀ key v, (key, v) ∈ customFields →
        GoMap.get payload.Path key = some (Value.str v)) ∧
      (∀ key, key ∈ GoMap.keys payload.Path ↔
        key = "expectPath" ∨ (key = "endpointClass" ∧ schema.isSome = true) ∨
          key ∈ GoMap.keys customFields) := by
  have href : ∀ key,
      GoMap.get
          (customFields.foldl (fun p kv => GoMap.set p kv.1 (Value.str kv.2))
            (basePath task (schemaText schema))) key =
        referencePath task (schemaText schema) customFields key := by
    intro key
    rw [get_merge_customFields, GoMap.get_reverse _ hkeys, get_basePath]
    unfold referencePath
    cases hg : GoMap.get customFields key with
    | some v => rfl
    | none => cases schemaText schema <;> rfl
  refine ⟨_, buildComputePayload_ok k text task schema customFields resources hser, rfl, rfl,
    href, ?_, ?_⟩
  · intro key v hmem
    rw [href]
    unfold referencePath
    simp only [GoMap.get_of_mem _ hkeys _ _ hmem]
  · intro key
    rw [GoMap.mem_keys_iff, href]
    unfold referencePath schemaText Mapping.extend
    cases hg : GoMap.get customFields key with
    | some v =>
      have hmem : key ∈ GoMap.keys customFields := (GoMap.mem_keys_iff _ _).2 ⟨v, hg⟩
      simp [hmem]
    | none =>
      have hmem : key ∉ GoMap.keys customFields := by
        intro hm
        obtain ⟨v, hv⟩ := (GoMap.mem_keys_iff _ _).1 hm
        rw [hg] at hv
        cases hv
      cases schema with
      | none =>
        by_cases h1 : key = "expectPath" <;> simp [h1, hmem]
      | some sch =>
        by_cases h2 : key = "endpointClass"
        · simp [h2]
        · by_cases h1 : key = "expectPath" <;> simp [h1, h2, hmem]

/-- Witness of C4: a schema, two custom fields, one resource. -/
theorem buildComputePayload_matches_reference_witness :
    json.serialisable (Value.obj [("type", Value.str "object")]) = true ∧
    (GoMap.keys [("audience", "kids"), ("tone", "formal")]).Nodup ∧
    ∃ payload,
      compute.Kernel.buildComputePayload
          { client := fixedClient 200 httpclient.RespBody.invalid }
          "some text" "summarise" (some [("type", Value.str "object")])
          [("audience", "kids"), ("tone", "formal")] [[("name", "doc.txt")]] = .ok payload ∧
      payload.StartPoint.StartPoint = "some text" ∧
      payload.StartPoint.Resource = [[("name", "doc.txt")]] ∧
      (∀ key, GoMap.get payload.Path key =
        referencePath "summarise" (schemaText (some [("type", Value.str "object")]))
          [("audience", "kids"), ("tone", "formal")] key) ∧
      (∀ key v, (key, v) ∈ ([("audience", "kids"), ("tone", "formal")] : GoMap String) →
        GoMap.get payload.Path key = some (Value.str v)) ∧
      (∀ key, key ∈ GoMap.keys payload.Path ↔
        key = "expectPath" ∨
          (key = "endpointClass" ∧
            (some [("type", Value.str "object")] : Option (GoMap Value)).isSome = true) ∨
          key ∈ GoMap.keys [("audience", "kids"), ("tone", "formal")]) :=
  ⟨by decide, by decide,
    buildComputePayload_matches_reference _ "some text" "summarise"
      (some [("type", Value.str "object")]) [("audience", "kids"), ("tone", "formal")]
      [[("name", "doc.txt")]] (by intro sch h; cases h; decide) (by decide)⟩

/-! ### Response handling of the compute path -/

/-- Assigning a key above all keys of the map appends the entry. -/
theorem GoMap.set_above {V : Type} (m : GoMap V) (k : String) (v : V)
    (h : ∀ key ∈ GoMap.keys m, GoMap.keyLt key k = true) :
    GoMap.set m k v = m ++ [(k, v)] := by
  induction m with
  | nil => rfl
  | cons e rest ih =>
    obtain ⟨k1, v1⟩ := e
    have h1 : k1 < k := (GoMap.keyLt_iff k1 k).1 (h k1 (by simp [GoMap.keys]))
    have h2 : ¬ GoMap.keyLt k k1 = true := fun hlt =>
      lt_asymm h1 ((GoMap.keyLt_iff k k1).1 hlt)
    have h3 : ¬ k = k1 := fun e => (ne_of_lt h1) e.symm
    have h4 : ∀ key ∈ GoMap.keys rest, GoMap.keyLt key k = true := fun key hk =>
      h key (by simp only [GoMap.keys, List.map_cons, List.mem_cons]; exact Or.inr hk)
    simp [GoMap.set, h2, h3, ih h4]

/-- Assigning the entries of a sorted map one after the other rebuilds the map. -/
theorem GoMap.foldl_set_sorted {V : Type} (rest acc : GoMap V)
    (h : GoMap.Sorted (acc ++ rest)) :
    rest.foldl (fun m kv => GoMap.set m kv.1 kv.2) acc = acc ++ rest := by
  induction rest generalizing acc with
  | nil => simp
  | cons x xs ih =>
    have hp : List.Pairwise (fun a b => GoMap.keyLt a b = true)
        (GoMap.keys acc ++ x.1 :: GoMap.keys xs) := by
      simpa [GoMap.Sorted, GoMap.keys] using h
    have habove : ∀ key ∈ GoMap.keys acc, GoMap.keyLt key x.1 = true := fun key hk =>
      (List.pairwise_append.1 hp).2.2 key hk x.1 (by simp)
    have hset : GoMap.set acc x.1 x.2 = acc ++ [x] := GoMap.set_above acc x.1 x.2 habove
    have hs2 : GoMap.Sorted ((acc ++ [x]) ++ xs) := by simpa using h
    simp only [List.foldl_cons, hset]
    rw [ih (acc ++ [x]) hs2]
    simp

/-- A sorted map has pairwise distinct keys. -/
theorem GoMap.nodup_of_sorted {V : Type} (m : GoMap V) (h : GoMap.Sorted m) :
    (GoMap.keys m).Nodup := by
  unfold GoMap.Sorted at h
  exact h.imp (fun {a b} hab => ne_of_lt ((GoMap.keyLt_iff a b).1 hab))

/-- Members whose keys select no field leave the struct as it is. -/
theorem decodeMembers_no_match (kvs : List (String × Value))
    (cur : apimodels.APIComputeResponse)
    (h : ∀ key ∈ GoMap.keys kvs, json.keyMatches "end_point" key = false) :
    json.decodeMembers apimodels.APIComputeResponse.decodeField kvs cur = .ok cur := by
  induction kvs with
  | nil => rfl
  | cons e rest ih =>
    obtain ⟨k1, v1⟩ := e
    have h1 : json.keyMatches "end_point" k1 = false := h k1 (by simp [GoMap.keys])
    have h2 : ∀ key ∈ GoMap.keys rest, json.keyMatches "end_point" key = false :=
      fun key hk =>
        h key (by simp only [GoMap.keys, List.map_cons, List.mem_cons]; exact Or.inr hk)
    simp [json.decodeMembers, apimodels.APIComputeResponse.decodeField, h1, ih h2]

/-- When `end_point` is the only key that selects the field, decoding the members is
decoding that one member. -/
theorem decodeMembers_only_end_point (kvs : List (String × Value))
    (cur : apimodels.APIComputeResponse) (v : Value)
    (hnd : (GoMap.keys kvs).Nodup)
    (honly : ∀ key ∈ GoMap.keys kvs, json.keyMatches "end_point" key = true →
      key = "end_point")
    (hget : GoMap.get kvs "end_point" = some v) :
    json.decodeMembers apimodels.APIComputeResponse.decodeField kvs cur =
      apimodels.APIComputeResponse.decodeField cur "end_point" v := by
  induction kvs with
  | nil => simp [GoMap.get] at hget
  | cons e rest ih =>
    obtain ⟨k1, v1⟩ := e
    simp only [GoMap.keys, List.map_cons, List.nodup_cons] at hnd
    have honly2 : ∀ key ∈ GoMap.keys rest, json.keyMatches "end_point" key = true →
        key = "end_point" := fun key hk =>
      honly key (by simp only [GoMap.keys, List.map_cons, List.mem_cons]; exact Or.inr hk)
    by_cases hk : k1 = "end_point"
    · subst hk
      simp only [GoMap.get, if_true, Option.some.injEq] at hget
      subst hget
      have hrest : ∀ key ∈ GoMap.keys rest, json.keyMatches "end_point" key = false := by
        intro key hmem
        cases hm : json.keyMatches "end_point" key with
        | false => rfl
        | true =>
          have := honly2 key hmem hm
          subst this
          exact absurd hmem hnd.1
      unfold json.decodeMembers
      cases hd : apimodels.APIComputeResponse.decodeField cur "end_point" v1 with
      | error err => rfl
      | ok next => exact decodeMembers_no_match rest next hrest
    · have hno : json.keyMatches "end_point" k1 = false := by
        cases hm : json.keyMatches "end_point" k1 with
        | false => rfl
        | true => exact absurd (honly k1 (by simp [GoMap.keys]) hm) hk
      simp only [GoMap.get, hk, if_false] at hget
      unfold json.decodeMembers
      simp only [apimodels.APIComputeResponse.decodeField, hno]
      exact ih hnd.2 honly2 hget

/-- The struct that `decodeMapToStruct` fills from a mapping in which `end_point` is the
only key that selects the field `EndPoint`. -/
theorem decodeMapToStruct_compute (m : Option (GoMap Value))
    (hjson : json.serialisable (json.mapValue m) = true)
    (hsorted : GoMap.Sorted (m.getD []))
    (honly : ∀ key ∈ GoMap.keys (m.getD []), json.keyMatches "end_point" key = true →
      key = "end_point") :
    compute.decodeMapToStruct m ({ EndPoint := none } : apimodels.APIComputeResponse) =
      match lookupNil m "end_point" with
      | none => .ok { EndPoint := none }
      | some v =>
        match json.decodeMap "APIComputeResponse.end_point" none v with
        | .error err => .error (GoError.errorfW "failed to unmarshal into struct: " err)
        | .ok r => .ok { EndPoint := r } := by
  unfold compute.decodeMapToStruct json.Marshal
  simp only [hjson, if_true, json.Unmarshal, json.Unmarshaler.unmarshal]
  cases m with
  | none => simp [json.mapValue, json.decodeStruct, lookupNil]
  | some kvs =>
    have hlook : lookupNil (some kvs) "end_point" = GoMap.get kvs "end_point" := rfl
    simp only [json.mapValue, json.decodeStruct, hlook]
    simp only [Option.getD_some] at hsorted honly
    cases hget : GoMap.get kvs "end_point" with
    | none =>
      have hno : ∀ key ∈ GoMap.keys kvs, json.keyMatches "end_point" key = false := by
        intro key hmem
        cases hm : json.keyMatches "end_point" key with
        | false => rfl
        | true =>
          have hk := honly key hmem hm
          subst hk
          obtain ⟨v, hv⟩ := (GoMap.mem_keys_iff kvs "end_point").1 hmem
          rw [hget] at hv
          cases hv
      rw [decodeMembers_no_match kvs _ hno]
    | some v =>
      rw [decodeMembers_only_end_point kvs _ v (GoMap.nodup_of_sorted kvs hsorted) honly hget]
      have hself : json.keyMatches "end_point" "end_point" = true := by decide
      simp only [apimodels.APIComputeResponse.decodeField, hself, if_true]
      cases json.decodeMap "APIComputeResponse.end_point" none v <;> rfl

/-- The shared block of the compute entry points turns the mapping `m` returned by the
transport into the result the specification describes. -/
theorem sendAndExtract_extractsEndPoint (k : compute.Kernel)
    (ctx : Option httpclient.Context) (payload : apimodels.APIComputeRequest)
    (m : Option (GoMap Value))
    (hpost : (k.client.Post ctx compute.computeEndpoint
      (httpclient.Payload.compute payload)).1 = .ok m)
    (hjson : json.serialisable (json.mapValue m) = true)
    (hsorted : GoMap.Sorted (m.getD []))
    (honly : ∀ key ∈ GoMap.keys (m.getD []), json.keyMatches "end_point" key = true →
      key = "end_point") :
    extractsEndPoint m (k.sendAndExtract ctx payload).1 := by
  have hdec := decodeMapToStruct_compute m hjson hsorted honly
  unfold compute.Kernel.sendAndExtract
  rcases hp : k.client.Post ctx compute.computeEndpoint
    (httpclient.Payload.compute payload) with ⟨r, c⟩
  rw [hp] at hpost
  simp only [] at hpost
  subst hpost
  simp only [hdec]
  constructor
  · intro habsent
    rcases habsent with h | h
    · simp [h, missingEndPoint]
    · simp [h, json.decodeMap, missingEndPoint]
  · intro e he hse
    have hfold : e.foldl (fun m kv => GoMap.set m kv.1 kv.2) [] = e := by
      have := GoMap.foldl_set_sorted e [] (by simpa using hse)
      simpa using this
    simp [he, json.decodeMap, hfold]

/-- The two ways `CustomCompute` can end: before any request, or in the shared block with
the payload it assembled. -/
theorem CustomCompute_cases (k : compute.Kernel) (ctx : Option httpclient.Context)
    (p : compute.CustomComputeParams) :
    (k.CustomCompute ctx p).2 = k ∨
      ∃ payload, p.Validate = none ∧
        k.buildComputePayload p.Text p.Task p.OutputSchema p.CustomFields p.Resources =
          .ok payload ∧
        k.CustomCompute ctx p = k.sendAndExtract ctx payload := by
  unfold compute.Kernel.CustomCompute
  cases hv : p.Validate with
  | some err => exact Or.inl rfl
  | none =>
    simp only []
    cases hb : k.buildComputePayload p.Text p.Task p.OutputSchema p.CustomFields
        p.Resources with
    | error err => exact Or.inl rfl
    | ok payload =>
      refine Or.inr ⟨payload, ?_, ?_, ?_⟩ <;> first | rfl | trivial

/-- The two ways `Analyze` can end: before any request, or in the shared block with the
payload it assembled from the resolved schema. -/
theorem Analyze_cases (k : compute.Kernel) (ctx : Option httpclient.Context)
    (p : compute.AnalyzeParams) :
    (k.Analyze ctx p).2 = k ∨
      ∃ schema payload, p.Validate = none ∧
        compute.GetPredefinedSchema p.OutputFormat = .ok schema ∧
        k.buildComputePayload p.Text p.Task schema p.CustomFields [] = .ok payload ∧
        k.Analyze ctx p = k.sendAndExtract ctx payload := by
  unfold compute.Kernel.Analyze
  cases hv : p.Validate with
  | some err => exact Or.inl rfl
  | none =>
    simp only []
    cases hs : compute.GetPredefinedSchema p.OutputFormat with
    | error err => exact Or.inl rfl
    | ok schema =>
      simp only []
      cases hb : k.buildComputePayload p.Text p.Task schema p.CustomFields [] with
      | error err => exact Or.inl rfl
      | ok payload =>
        refine Or.inr ⟨schema, payload, ?_, ?_, ?_, ?_⟩ <;> first | rfl | trivial

/-- The two ways `Translate` can end: before any request, or in the shared block with the
payload it assembled from its task string, the "translation" schema and its two custom
fields. -/
theorem Translate_cases (k : compute.Kernel) (ctx : Option httpclient.Context)
    (p : compute.TranslateParams) :
    (k.Translate ctx p).2 = k ∨
      ∃ schema payload, p.Validate = none ∧
        compute.GetPredefinedSchema "translation" = .ok schema ∧
        k.buildComputePayload p.Text
            (if p.IncludeCulturalNotes then
              "Translate text to " ++ p.TargetLanguage
                ++ " and provide cultural background notes"
             else "Translate text to " ++ p.TargetLanguage)
            schema
            (GoMap.ofList
              [("target_language", p.TargetLanguage),
               ("include_cultural_notes", if p.IncludeCulturalNotes then "true" else "false")])
            [] = .ok payload ∧
        k.Translate ctx p = k.sendAndExtract ctx payload := by
  unfold compute.Kernel.Translate
  cases hv : p.Validate with
  | some err => exact Or.inl rfl
  | none =>
    simp only []
    cases hs : compute.GetPredefinedSchema "translation" with
    | error err => exact Or.inl rfl
    | ok schema =>
      simp only []
      split
      · exact Or.inl rfl
      · rename_i payload hb
        refine Or.inr ⟨schema, payload, ?_, ?_, ?_, ?_⟩ <;> first | rfl | trivial

/-- A compute call that posted `payload` and whose transport answered `m` extracts the
end point from `m`. -/
theorem posted_reply_extractsEndPoint (k : compute.Kernel) (ctx : Option httpclient.Context)
    (r : Except GoError compute.ComputeResponse × compute.Kernel)
    (payload : apimodels.APIComputeRequest) (m : Option (GoMap Value))
    (hr : r.2 = k ∨ ∃ sent, r = k.sendAndExtract ctx sent)
    (hcalls : r.2.client.postCalls =
      k.client.postCalls ++ [(compute.computeEndpoint, httpclient.Payload.compute payload)])
    (hpost : (k.client.Post ctx compute.computeEndpoint
      (httpclient.Payload.compute payload)).1 = .ok m)
    (hjson : json.serialisable (json.mapValue m) = true)
    (hsorted : GoMap.Sorted (m.getD []))
    (honly : ∀ key ∈ GoMap.keys (m.getD []), json.keyMatches "end_point" key = true →
      key = "end_point") :
    extractsEndPoint m r.1 := by
  rcases hr with hk | ⟨sent, hsent⟩
  · rw [hk] at hcalls
    have hlen := congrArg List.length hcalls
    simp at hlen
  · subst hsent
    rw [sendAndExtract_records_call] at hcalls
    have hsame := List.append_cancel_left hcalls
    simp only [List.cons.injEq, Prod.mk.injEq, httpclient.Payload.compute.injEq, and_true,
      true_and] at hsame
    subst hsame
    exact sendAndExtract_extractsEndPoint k ctx sent m hpost hjson hsorted honly

/-- C5, as stated, fails in both halves.  A response whose only entry is keyed
`End_Point` has no `end_point` entry, yet Analyze returns its content as the result
instead of the missing-field error; and a response with the entries `END_POINT` and
`end_point` yields the two objects merged, not the object under `end_point`. -/
theorem end_point_key_matched_ignoring_case :
    lookupNil (some [("End_Point", Value.obj [("emotion", Value.str "neutral")])])
        "end_point" = none ∧
    (compute.Kernel.Analyze
        { client := fixedClient 200
            (httpclient.RespBody.json
              (Value.obj [("End_Point", Value.obj [("emotion", Value.str "neutral")])])) }
        background
        { Text := "test", Task := "simple analysis", OutputFormat := "basic_analysis",
          CustomFields := [] }).1 =
      .ok { Data := some [("emotion", Value.str "neutral")] } ∧
    lookupNil
        (some [("END_POINT", Value.obj [("emotion", Value.str "neutral")]),
               ("end_point", Value.obj [("theme", Value.str "none")])])
        "end_point" = some (Value.obj [("theme", Value.str "none")]) ∧
    (compute.Kernel.Analyze
        { client := fixedClient 200
            (httpclient.RespBody.json
              (Value.obj
                [("END_POINT", Value.obj [("emotion", Value.str "neutral")]),
                 ("end_point", Value.obj [("theme", Value.str "none")])])) }
        background
        { Text := "test", Task := "simple analysis", OutputFormat := "basic_analysis",
          CustomFields := [] }).1 =
      .ok { Data := some [("emotion", Value.str "neutral"), ("theme", Value.str "none")] } := by
  decide

/-- C5, amended: let a compute entry point (CustomCompute, Analyze, Translate) post
`payload` (which it does exactly when its parameters are valid and the payload could be
assembled) and let the transport answer with a JSON mapping `m` in which `end_point` is
the only key that equals `end_point` up to the case of its letters.  If `m` has no
`end_point` entry, or a null one, the call returns no result and the `APIError`
"API response missing 'end_point' field"; if `m["end_point"]` is an object `e`, the call
returns no error and a result whose `Data` equals `e`. -/
theorem compute_entry_points_extract_end_point (k : compute.Kernel)
    (ctx : Option httpclient.Context) (payload : apimodels.APIComputeRequest)
    (m : Option (GoMap Value))
    (hpost : (k.client.Post ctx compute.computeEndpoint
      (httpclient.Payload.compute payload)).1 = .ok m)
    (hjson : json.serialisable (json.mapValue m) = true)
    (hsorted : GoMap.Sorted (m.getD []))
    (honly : ∀ key ∈ GoMap.keys (m.getD []), json.keyMatches "end_point" key = true →
      key = "end_point") :
    (∀ p : compute.CustomComputeParams,
      (k.CustomCompute ctx p).2.client.postCalls =
          k.client.postCalls ++
            [(compute.computeEndpoint, httpclient.Payload.compute payload)] →
        extractsEndPoint m (k.CustomCompute ctx p).1) ∧
    (∀ p : compute.AnalyzeParams,
      (k.Analyze ctx p).2.client.postCalls =
          k.client.postCalls ++
            [(compute.computeEndpoint, httpclient.Payload.compute payload)] →
        extractsEndPoint m (k.Analyze ctx p).1) ∧
    (∀ p : compute.TranslateParams,
      (k.Translate ctx p).2.client.postCalls =
          k.client.postCalls ++
            [(compute.computeEndpoint, httpclient.Payload.compute payload)] →
        extractsEndPoint m (k.Translate ctx p).1) := by
  refine ⟨?_, ?_, ?_⟩
  · intro p hcalls
    refine posted_reply_extractsEndPoint k ctx _ payload m ?_ hcalls hpost hjson hsorted honly
    rcases CustomCompute_cases k ctx p with h | ⟨sent, _, _, h⟩
    · exact Or.inl h
    · exact Or.inr ⟨sent, h⟩
  · intro p hcalls
    refine posted_reply_extractsEndPoint k ctx _ payload m ?_ hcalls hpost hjson hsorted honly
    rcases Analyze_cases k ctx p with h | ⟨_, sent, _, _, _, h⟩
    · exact Or.inl h
    · exact Or.inr ⟨sent, h⟩
  · intro p hcalls
    refine posted_reply_extractsEndPoint k ctx _ payload m ?_ hcalls hpost hjson hsorted honly
    rcases Translate_cases k ctx p with h | ⟨_, sent, _, _, _, h⟩
    · exact Or.inl h
    · exact Or.inr ⟨sent, h⟩

set_option maxRecDepth 20000 in
/-- Witness of the amended C5, the end-to-end scenario of the specification: Analyze with
text "test", task "simple analysis", format "basic_analysis" against a backend that
echoes the end point `emotion: neutral, theme: none, analysis: ok` returns exactly that
mapping. -/
theorem compute_entry_points_extract_end_point_witness :
    (compute.Kernel.Analyze
        { client := fixedClient 200
            (httpclient.RespBody.json
              (Value.obj
                [("end_point", Value.obj
                    [("analysis", Value.str "ok"), ("emotion", Value.str "neutral"),
                     ("theme", Value.str "none")])])) }
        background
        { Text := "test", Task := "simple analysis", OutputFormat := "basic_analysis",
          CustomFields := [] }).1 =
      .ok
        { Data := some
            [("analysis", Value.str "ok"), ("emotion", Value.str "neutral"),
             ("theme", Value.str "none")] } :=
  ((compute_entry_points_extract_end_point
      { client := fixedClient 200
          (httpclient.RespBody.json
            (Value.obj
              [("end_point", Value.obj
                  [("analysis", Value.str "ok"), ("emotion", Value.str "neutral"),
                   ("theme", Value.str "none")])])) }
      background
      { StartPoint := { StartPoint := "test", Resource := [] }
        Path :=
          basePath "simple analysis"
            (schemaText (GoMap.get compute.PREDEFINED_SCHEMAS "basic_analysis")) }
      (some
        [("end_point", Value.obj
            [("analysis", Value.str "ok"), ("emotion", Value.str "neutral"),
             ("theme", Value.str "none")])])
      (by decide) (by decide) (by decide) (by decide)).2.1
    { Text := "test", Task := "simple analysis", OutputFormat := "basic_analysis",
      CustomFields := [] }
    (by decide)).2
    [("analysis", Value.str "ok"), ("emotion", Value.str "neutral"),
     ("theme", Value.str "none")]
    (by decide) (by decide)

/-! ### Error classification of the transport -/

/-- The fallback message for a parsed body contains "request failed". -/
theorem fallback_message_parsed :
    "request failed".toList <:+: "API request failed".toList := by
  decide

/-- The fallback message for an unparseable body contains "request failed". -/
theorem fallback_message_unparseable :
    "request failed".toList <:+:
      "API request failed with unparseable error response".toList := by
  decide

/-- C6: `handleErrorResponse` returns the fixed `ErrAuthentication` for status 401 and
403 whatever the body; for every other status `s` an `APIError` with `StatusCode = s`,
whose `ResponseData` is the parsed mapping exactly when the body parses as a mapping,
and whose `Message` is the body's string-valued "error" field when there is one and
otherwise a fallback that contains "request failed"; status 500 with the body
`{"error":"boom"}` gives the message "boom". -/
theorem handleErrorResponse_classifies (c : httpclient.Client) (s : Int)
    (body : httpclient.RespBody) :
    ((s = 401 ∨ s = 403) → c.handleErrorResponse s body = sdkerrors.ErrAuthentication) ∧
    (¬ (s = 401 ∨ s = 403) →
      ∃ e, c.handleErrorResponse s body = GoError.apiError e ∧
        e.StatusCode = s ∧
        e.ResponseData = parsesAsMapping body ∧
        (∀ msg, lookupNil (parsesAsMapping body) "error" = some (Value.str msg) →
          e.Message = msg) ∧
        ((∀ msg, lookupNil (parsesAsMapping body) "error" ≠ some (Value.str msg)) →
          "request failed".toList <:+: e.Message.toList)) ∧
    c.handleErrorResponse 500 (httpclient.RespBody.json (Value.obj [("error", Value.str "boom")])) =
      GoError.apiError
        { Message := "boom", StatusCode := 500
          ResponseData := some [("error", Value.str "boom")] } := by
  refine ⟨?_, ?_, ?_⟩
  · intro h
    simp [httpclient.Client.handleErrorResponse, h]
  · intro h
    unfold httpclient.Client.handleErrorResponse
    simp only [h, if_false]
    cases body with
    | invalid =>
      refine ⟨_, rfl, rfl, rfl, ?_, ?_⟩
      · intro msg hmsg
        simp [parsesAsMapping, lookupNil] at hmsg
      · intro _
        exact fallback_message_unparseable
    | json v =>
      cases v with
      | obj kvs =>
        refine ⟨_, rfl, rfl, rfl, ?_, ?_⟩
        · intro msg hmsg
          have hm : (some (GoMap.ofList kvs)).bind (fun m => GoMap.get m "error") =
              some (Value.str msg) := hmsg
          simp only [httpclient.unmarshalBody, json.Unmarshal, json.Unmarshaler.unmarshal,
            json.decodeMap, Option.getD_none]
          have hof : List.foldl (fun m kv => GoMap.set m kv.1 kv.2) [] kvs = GoMap.ofList kvs :=
            rfl
          rw [hof, hm]
        · intro hno
          have hm : ∀ msg, (some (GoMap.ofList kvs)).bind (fun m => GoMap.get m "error") ≠
              some (Value.str msg) := hno
          simp only [httpclient.unmarshalBody, json.Unmarshal, json.Unmarshaler.unmarshal,
            json.decodeMap, Option.getD_none]
          have hof : List.foldl (fun m kv => GoMap.set m kv.1 kv.2) [] kvs = GoMap.ofList kvs :=
            rfl
          rw [hof]
          split
          · rename_i msg heq
            exact absurd heq (hm msg)
          · exact fallback_message_parsed
      | null =>
        refine ⟨_, rfl, rfl, rfl, ?_, ?_⟩
        · intro msg hmsg
          simp [parsesAsMapping, lookupNil] at hmsg
        · intro _
          exact fallback_message_parsed
      | bool b =>
        refine ⟨_, rfl, rfl, rfl, ?_, ?_⟩
        · intro msg hmsg
          simp [parsesAsMapping, lookupNil] at hmsg
        · intro _
          exact fallback_message_unparseable
      | num lit =>
        refine ⟨_, rfl, rfl, rfl, ?_, ?_⟩
        · intro msg hmsg
          simp [parsesAsMapping, lookupNil] at hmsg
        · intro _
          exact fallback_message_unparseable
      | str t =>
        refine ⟨_, rfl, rfl, rfl, ?_, ?_⟩
        · intro msg hmsg
          simp [parsesAsMapping, lookupNil] at hmsg
        · intro _
          exact fallback_message_unparseable
      | arr xs =>
        refine ⟨_, rfl, rfl, rfl, ?_, ?_⟩
        · intro msg hmsg
          simp [parsesAsMapping, lookupNil] at hmsg
        · intro _
          exact fallback_message_unparseable
      | nonJson =>
        refine ⟨_, rfl, rfl, rfl, ?_, ?_⟩
        · intro msg hmsg
          simp [parsesAsMapping, lookupNil] at hmsg
        · intro _
          exact fallback_message_unparseable
  · rfl

/-! ### The schema registry -/

/-- The catalog holds exactly the four written-out templates. -/
theorem PREDEFINED_SCHEMAS_eq :
    compute.PREDEFINED_SCHEMAS =
      [("basic_analysis", (templateOf "basic_analysis").getD []),
       ("poem_creation", (templateOf "poem_creation").getD []),
       ("scene_description", (templateOf "scene_description").getD []),
       ("translation", (templateOf "translation").getD [])] := by
  decide

/-- The lookup in the catalog finds the written-out template of the name, if any. -/
theorem get_PREDEFINED_SCHEMAS (name : String) :
    GoMap.get compute.PREDEFINED_SCHEMAS name = templateOf name := by
  rw [PREDEFINED_SCHEMAS_eq]
  unfold templateOf
  by_cases h1 : name = "basic_analysis"
  · subst h1
    decide
  · by_cases h2 : name = "poem_creation"
    · subst h2
      decide
    · by_cases h3 : name = "scene_description"
      · subst h3
        decide
      · by_cases h4 : name = "translation"
        · subst h4
          decide
        · have g1 : ¬ "basic_analysis" = name := fun e => h1 e.symm
          have g2 : ¬ "poem_creation" = name := fun e => h2 e.symm
          have g3 : ¬ "scene_description" = name := fun e => h3 e.symm
          have g4 : ¬ "translation" = name := fun e => h4 e.symm
          simp [GoMap.get, h1, h2, h3, h4, g1, g2, g3, g4]

/-- A name has a written-out template exactly when it is a catalog name. -/
theorem templateOf_isSome (name : String) :
    (∃ t, templateOf name = some t) ↔ name ∈ catalogNames := by
  unfold templateOf catalogNames
  by_cases h1 : name = "basic_analysis"
  · simp [h1]
  · by_cases h2 : name = "poem_creation"
    · simp [h2]
    · by_cases h3 : name = "scene_description"
      · simp [h3]
      · by_cases h4 : name = "translation"
        · simp [h4]
        · simp [h1, h2, h3, h4]

/-- Every written-out template can be marshalled. -/
theorem templateOf_serialisable (name : String) (t : GoMap Value)
    (h : templateOf name = some t) : json.serialisable (Value.obj t) = true := by
  unfold templateOf at h
  split at h
  · cases h
    decide
  · split at h
    · cases h
      decide
    · split at h
      · cases h
        decide
      · split at h
        · cases h
          decide
        · cases h

/-- Every written-out template is a sorted map. -/
theorem templateOf_sorted (name : String) (t : GoMap Value)
    (h : templateOf name = some t) : GoMap.Sorted t := by
  unfold templateOf at h
  split at h
  · cases h
    decide
  · split at h
    · cases h
      decide
    · split at h
      · cases h
        decide
      · split at h
        · cases h
          decide
        · cases h

/-- The outcome of `GetPredefinedSchema` for every name. -/
theorem GetPredefinedSchema_eq (name : String) :
    compute.GetPredefinedSchema name =
      match templateOf name with
      | some t => .ok (some t)
      | none => .error (GoError.errorString ("unknown schema name: " ++ name)) := by
  unfold compute.GetPredefinedSchema
  rw [get_PREDEFINED_SCHEMAS]
  cases ht : templateOf name with
  | none => rfl
  | some t =>
    have hser := templateOf_serialisable name t ht
    have hfold : t.foldl (fun m kv => GoMap.set m kv.1 kv.2) [] = t := by
      have := GoMap.foldl_set_sorted t [] (by simpa using templateOf_sorted name t ht)
      simpa using this
    simp [json.Marshal, hser, json.Unmarshal, json.Unmarshaler.unmarshal, json.decodeMap, hfold]

/-- Outside the catalog `GetPredefinedSchema` fails with the unknown-schema error, and
inside it succeeds. -/
theorem GetPredefinedSchema_outside_catalog (name : String) :
    (name ∈ catalogNames → ∃ t, compute.GetPredefinedSchema name = .ok (some t)) ∧
    (name ∉ catalogNames →
      compute.GetPredefinedSchema name =
        .error (GoError.errorString ("unknown schema name: " ++ name))) := by
  rw [GetPredefinedSchema_eq]
  constructor
  · intro hin
    obtain ⟨t, ht⟩ := (templateOf_isSome name).2 hin
    exact ⟨t, by rw [ht]⟩
  · intro hnot
    cases ht : templateOf name with
    | none => rfl
    | some t => exact absurd ((templateOf_isSome name).1 ⟨t, ht⟩) hnot

/-- C7: `GetPredefinedSchema(name)` succeeds exactly for the four catalog names
"basic_analysis", "poem_creation", "scene_description", "translation"; for every other
name (the empty string included) it returns no schema and the error
"unknown schema name: " followed by the name; on success the schema is the template of
that name, with type "object", the template's properties each of type "string" with its
description, and the template's required list in order. -/
theorem GetPredefinedSchema_succeeds_iff_in_catalog :
    (∀ name, (∃ schema, compute.GetPredefinedSchema name = .ok schema) ↔
      name ∈ catalogNames) ∧
    (∀ name, name ∉ catalogNames →
      compute.GetPredefinedSchema name =
        .error (GoError.errorString ("unknown schema name: " ++ name))) ∧
    compute.GetPredefinedSchema "" = .error (GoError.errorString "unknown schema name: ") ∧
    compute.GetPredefinedSchema "nonexistent" =
      .error (GoError.errorString "unknown schema name: nonexistent") ∧
    (∀ name schema, compute.GetPredefinedSchema name = .ok schema →
      schema = templateOf name ∧ schema ≠ none) ∧
    compute.GetPredefinedSchema "basic_analysis" =
      .ok (some
        [("properties", Value.obj
            [("analysis", Value.obj
                [("description", Value.str "Detailed analysis"), ("type", Value.str "string")]),
             ("emotion", Value.obj
                [("description", Value.str "Emotion analysis result"),
                 ("type", Value.str "string")]),
             ("theme", Value.obj
                [("description", Value.str "Theme analysis"), ("type", Value.str "string")])]),
         ("required", Value.arr [Value.str "emotion", Value.str "theme", Value.str "analysis"]),
         ("type", Value.str "object")]) := by
  refine ⟨?_, ?_, ?_, ?_, ?_, ?_⟩
  · intro name
    rw [GetPredefinedSchema_eq, ← templateOf_isSome]
    cases templateOf name with
    | none => simp
    | some t => simp
  · intro name hname
    rw [GetPredefinedSchema_eq]
    cases ht : templateOf name with
    | none => rfl
    | some t => exact absurd ((templateOf_isSome name).1 ⟨t, ht⟩) hname
  · decide
  · decide
  · intro name schema h
    rw [GetPredefinedSchema_eq] at h
    cases ht : templateOf name with
    | none =>
      rw [ht] at h
      cases h
    | some t =>
      rw [ht] at h
      cases h
      simp
  · decide

/-! ### Analyze and Translate -/

/-- C9, as stated, fails in its second half: Analyze with the catalog format
"basic_analysis" and the custom field `endpointClass` set to "custom" posts a payload
whose `endpointClass` is "custom", not the serialised predefined schema. -/
theorem endpointClass_overridden_by_custom_field :
    (compute.Kernel.Analyze { client := fixedClient 200 httpclient.RespBody.invalid }
        background
        { Text := "test", Task := "simple analysis", OutputFormat := "basic_analysis",
          CustomFields := [("endpointClass", "custom")] }).2.client.postCalls =
      [(compute.computeEndpoint,
        httpclient.Payload.compute
          { StartPoint := { StartPoint := "test", Resource := [] }
            Path :=
              [("endpointClass", Value.str "custom"),
               ("expectPath", Value.str "simple analysis")] })] ∧
    compute.GetPredefinedSchema "basic_analysis" = .ok (templateOf "basic_analysis") ∧
    GoMap.get
        [("endpointClass", Value.str "custom"), ("expectPath", Value.str "simple analysis")]
        "endpointClass" ≠
      (schemaText (templateOf "basic_analysis")).map Value.str := by
  decide

/-- What Analyze does once its parameters are valid and the format is resolved. -/
theorem Analyze_eq_of_template (k : compute.Kernel) (ctx : Option httpclient.Context)
    (p : compute.AnalyzeParams) (t : GoMap Value)
    (hv : p.Validate = none) (ht : templateOf p.OutputFormat = some t) :
    k.Analyze ctx p =
      k.sendAndExtract ctx
        { StartPoint := { StartPoint := p.Text, Resource := [] }
          Path :=
            p.CustomFields.foldl (fun q kv => GoMap.set q kv.1 (Value.str kv.2))
              (basePath p.Task (schemaText (some t))) } := by
  have hs : compute.GetPredefinedSchema p.OutputFormat = .ok (some t) := by
    rw [GetPredefinedSchema_eq, ht]
  have hb := buildComputePayload_ok k p.Text p.Task (some t) p.CustomFields []
    (by intro sch h; cases h; exact templateOf_serialisable _ _ ht)
  unfold compute.Kernel.Analyze
  simp only [hv, hs, hb]

/-- C9, amended: for every AnalyzeParams with non-empty Text, Task and OutputFormat,
(1) if OutputFormat is not a catalog name, Analyze returns no result and the
`ValidationError` on the field "OutputFormat" that wraps the resolution failure, without
posting; (2) if OutputFormat is a catalog name and no custom field is named
`endpointClass`, Analyze posts one payload whose `endpointClass` is the JSON
serialisation of that name's predefined schema. -/
theorem Analyze_resolves_output_format (k : compute.Kernel)
    (ctx : Option httpclient.Context) (p : compute.AnalyzeParams)
    (hText : p.Text ≠ "") (hTask : p.Task ≠ "") (hFormat : p.OutputFormat ≠ "") :
    (p.OutputFormat ∉ catalogNames →
      k.Analyze ctx p =
        (.error (GoError.validationError
          { Field := "OutputFormat"
            Message :=
              "invalid predefined schema name: unknown schema name: " ++ p.OutputFormat }),
         k)) ∧
    (p.OutputFormat ∈ catalogNames → "endpointClass" ∉ GoMap.keys p.CustomFields →
      ∃ payload schema,
        (k.Analyze ctx p).2.client.postCalls =
          k.client.postCalls ++
            [(compute.computeEndpoint, httpclient.Payload.compute payload)] ∧
        compute.GetPredefinedSchema p.OutputFormat = .ok (some schema) ∧
        GoMap.get payload.Path "endpointClass" =
          some (Value.str (json.JsonText.toString { doc := Value.obj schema }))) := by
  have hv : p.Validate = none := by
    simp [compute.AnalyzeParams.Validate, hText, hTask, hFormat]
  constructor
  · intro hnot
    have hs := (GetPredefinedSchema_outside_catalog p.OutputFormat).2 hnot
    unfold compute.Kernel.Analyze
    simp only [hv, hs]
    rfl
  · intro hin hno
    obtain ⟨t, ht⟩ := (templateOf_isSome p.OutputFormat).2 hin
    refine ⟨{ StartPoint := { StartPoint := p.Text, Resource := [] }
              Path :=
                p.CustomFields.foldl (fun q kv => GoMap.set q kv.1 (Value.str kv.2))
                  (basePath p.Task (schemaText (some t))) }, t, ?_, ?_, ?_⟩
    · rw [Analyze_eq_of_template k ctx p t hv ht, sendAndExtract_records_call]
    · rw [GetPredefinedSchema_eq, ht]
    · have hnone : GoMap.get p.CustomFields.reverse "endpointClass" = none := by
        apply GoMap.get_eq_none_of_not_mem
        simpa [GoMap.keys] using hno
      simp only [get_merge_customFields, hnone, get_basePath, schemaText, Option.map_some',
        Mapping.extend]
      simp

/-- Witness of the amended C9: the format "nonexistent" is rejected on the field
OutputFormat, and the format "basic_analysis" with the custom field `tone` posts a
payload whose `endpointClass` is the serialised schema. -/
theorem Analyze_resolves_output_format_witness :
    compute.Kernel.Analyze { client := fixedClient 200 httpclient.RespBody.invalid } background
        { Text := "test", Task := "simple analysis", OutputFormat := "nonexistent",
          CustomFields := [] } =
      (.error (GoError.validationError
        { Field := "OutputFormat"
          Message := "invalid predefined schema name: unknown schema name: " ++ "nonexistent" }),
       { client := fixedClient 200 httpclient.RespBody.invalid }) ∧
    ∃ payload schema,
      (compute.Kernel.Analyze { client := fixedClient 200 httpclient.RespBody.invalid }
          background
          { Text := "test", Task := "simple analysis", OutputFormat := "basic_analysis",
            CustomFields := [("tone", "formal")] }).2.client.postCalls =
        (fixedClient 200 httpclient.RespBody.invalid).postCalls ++
          [(compute.computeEndpoint, httpclient.Payload.compute payload)] ∧
      compute.GetPredefinedSchema "basic_analysis" = .ok (some schema) ∧
      GoMap.get payload.Path "endpointClass" =
        some (Value.str (json.JsonText.toString { doc := Value.obj schema })) :=
  ⟨(Analyze_resolves_output_format
      { client := fixedClient 200 httpclient.RespBody.invalid } background
      { Text := "test", Task := "simple analysis", OutputFormat := "nonexistent",
        CustomFields := [] }
      (by decide) (by decide) (by decide)).1 (by decide),
    (Analyze_resolves_output_format
      { client := fixedClient 200 httpclient.RespBody.invalid } background
      { Text := "test", Task := "simple analysis", OutputFormat := "basic_analysis",
        CustomFields := [("tone", "formal")] }
      (by decide) (by decide) (by decide)).2 (by decide) (by decide)⟩

/-- A word that does not contain the first letter of a phrase cannot overlap the phrase
from the left. -/
theorem infix_of_infix_append (c : Char) (phrase front back : List Char)
    (hc : c ∉ front) (h : (c :: phrase) <:+: front ++ back) : (c :: phrase) <:+: back := by
  induction front with
  | nil => simpa using h
  | cons a rest ih =>
    have hne : c ≠ a := fun e => hc (by simp [e])
    have hrest : c ∉ rest := fun hm => hc (List.mem_cons_of_mem _ hm)
    rw [List.cons_append, List.infix_cons_iff] at h
    rcases h with hpre | hin
    · obtain ⟨t, ht⟩ := hpre
      simp only [List.cons_append, List.cons.injEq] at ht
      exact absurd ht.1 hne
    · exact ih hrest hin

/-- What Translate does once its parameters are valid. -/
theorem Translate_eq (k : compute.Kernel) (ctx : Option httpclient.Context)
    (p : compute.TranslateParams) (t : GoMap Value) (hv : p.Validate = none)
    (ht : templateOf "translation" = some t) :
    k.Translate ctx p =
      k.sendAndExtract ctx
        { StartPoint := { StartPoint := p.Text, Resource := [] }
          Path :=
            (GoMap.ofList
              [("target_language", p.TargetLanguage),
               ("include_cultural_notes",
                  if p.IncludeCulturalNotes then "true" else "false")]).foldl
              (fun q kv => GoMap.set q kv.1 (Value.str kv.2))
              (basePath
                (if p.IncludeCulturalNotes then
                  "Translate text to " ++ p.TargetLanguage
                    ++ " and provide cultural background notes"
                 else "Translate text to " ++ p.TargetLanguage)
                (schemaText (some t))) } := by
  have hs : compute.GetPredefinedSchema "translation" = .ok (some t) := by
    rw [GetPredefinedSchema_eq, ht]
  have hb := buildComputePayload_ok k p.Text
    (if p.IncludeCulturalNotes then
      "Translate text to " ++ p.TargetLanguage ++ " and provide cultural background notes"
     else "Translate text to " ++ p.TargetLanguage)
    (some t)
    (GoMap.ofList
      [("target_language", p.TargetLanguage),
       ("include_cultural_notes", if p.IncludeCulturalNotes then "true" else "false")])
    []
    (by intro sch h; cases h; exact templateOf_serialisable _ _ ht)
  unfold compute.Kernel.Translate
  simp only [hv, hs, hb]

/-- C10: for every TranslateParams with non-empty Text and TargetLanguage L, Translate
posts one payload whose task `path["expectPath"]` contains L, contains the phrase
"provide cultural background notes" when IncludeCulturalNotes is true and, when it is
false and L does not contain the phrase, does not contain it; the path holds
`target_language` = L and `include_cultural_notes` = "true" or "false" as the flag says,
and `endpointClass` is the serialised predefined "translation" schema. -/
theorem Translate_payload (k : compute.Kernel) (ctx : Option httpclient.Context)
    (p : compute.TranslateParams) (hText : p.Text ≠ "") (hLang : p.TargetLanguage ≠ "") :
    ∃ payload task schema,
      (k.Translate ctx p).2.client.postCalls =
        k.client.postCalls ++
          [(compute.computeEndpoint, httpclient.Payload.compute payload)] ∧
      payload.StartPoint.StartPoint = p.Text ∧
      GoMap.get payload.Path "expectPath" = some (Value.str task) ∧
      p.TargetLanguage.toList <:+: task.toList ∧
      (p.IncludeCulturalNotes = true → culturalNotesPhrase.toList <:+: task.toList) ∧
      (p.IncludeCulturalNotes = false →
        ¬ culturalNotesPhrase.toList <:+: p.TargetLanguage.toList →
        ¬ culturalNotesPhrase.toList <:+: task.toList) ∧
      GoMap.get payload.Path "target_language" = some (Value.str p.TargetLanguage) ∧
      GoMap.get payload.Path "include_cultural_notes" =
        some (Value.str (if p.IncludeCulturalNotes then "true" else "false")) ∧
      compute.GetPredefinedSchema "translation" = .ok (some schema) ∧
      GoMap.get payload.Path "endpointClass" =
        some (Value.str (json.JsonText.toString { doc := Value.obj schema })) := by
  have hv : p.Validate = none := by
    simp [compute.TranslateParams.Validate, hText, hLang]
  obtain ⟨t, ht⟩ := (templateOf_isSome "translation").2 (by decide)
  have hof : ∀ a b : String,
      GoMap.ofList [("target_language", a), ("include_cultural_notes", b)] =
        [("include_cultural_notes", b), ("target_language", a)] := fun _ _ => rfl
  refine ⟨{ StartPoint := { StartPoint := p.Text, Resource := [] }
            Path :=
              (GoMap.ofList
                [("target_language", p.TargetLanguage),
                 ("include_cultural_notes",
                    if p.IncludeCulturalNotes then "true" else "false")]).foldl
                (fun q kv => GoMap.set q kv.1 (Value.str kv.2))
                (basePath
                  (if p.IncludeCulturalNotes then
                    "Translate text to " ++ p.TargetLanguage
                      ++ " and provide cultural background notes"
                   else "Translate text to " ++ p.TargetLanguage)
                  (schemaText (some t))) },
    if p.IncludeCulturalNotes then
      "Translate text to " ++ p.TargetLanguage ++ " and provide cultural background notes"
     else "Translate text to " ++ p.TargetLanguage, t, ?_, ?_, ?_, ?_, ?_, ?_, ?_, ?_, ?_, ?_⟩
  · rw [Translate_eq k ctx p t hv ht, sendAndExtract_records_call]
  · rfl
  · simp only [get_merge_customFields, hof, get_basePath, schemaText, Option.map_some',
      Mapping.extend]
    simp [GoMap.get]
  · cases p.IncludeCulturalNotes
    · simp only [Bool.false_eq_true, if_false, String.toList, String.data_append]
      exact (List.suffix_append _ _).isInfix
    · simp only [if_true, String.toList, String.data_append]
      exact List.infix_append _ _ _
  · intro hflag
    simp only [hflag, if_true, String.toList, String.data_append, culturalNotesPhrase]
    exact ⟨"Translate text to ".data ++ p.TargetLanguage.data ++ " and ".data, [], by
      simp⟩
  · intro hflag hnot
    simp only [hflag, Bool.false_eq_true, if_false, String.toList, String.data_append,
      culturalNotesPhrase] at hnot ⊢
    intro hin
    exact hnot (infix_of_infix_append 'p' "rovide cultural background notes".data
      "Translate text to ".data p.TargetLanguage.data (by decide) hin)
  · simp only [get_merge_customFields, hof, get_basePath, schemaText, Option.map_some',
      Mapping.extend]
    simp [GoMap.get]
  · simp only [get_merge_customFields, hof, get_basePath, schemaText, Option.map_some',
      Mapping.extend]
    simp [GoMap.get]
  · rw [GetPredefinedSchema_eq, ht]
  · simp only [get_merge_customFields, hof, get_basePath, schemaText, Option.map_some',
      Mapping.extend]
    simp [GoMap.get]

/-- Witness of C10 with L = "French" and cultural notes requested. -/
theorem Translate_payload_witness :
    ∃ payload task,
      (compute.Kernel.Translate { client := fixedClient 200 httpclient.RespBody.invalid }
          background
          { Text := "Good morning", TargetLanguage := "French",
            IncludeCulturalNotes := true }).2.client.postCalls =
        [(compute.computeEndpoint, httpclient.Payload.compute payload)] ∧
      GoMap.get payload.Path "expectPath" = some (Value.str task) ∧
      "French".toList <:+: task.toList ∧
      culturalNotesPhrase.toList <:+: task.toList ∧
      GoMap.get payload.Path "target_language" = some (Value.str "French") ∧
      GoMap.get payload.Path "include_cultural_notes" = some (Value.str "true") := by
  obtain ⟨payload, task, _, h1, _, h3, h4, h5, _, h7, h8, _, _⟩ :=
    Translate_payload { client := fixedClient 200 httpclient.RespBody.invalid } background
      { Text := "Good morning", TargetLanguage := "French", IncludeCulturalNotes := true }
      (by decide) (by decide)
  exact ⟨payload, task, h1, h3, h4, h5 rfl, h7, h8⟩

set_option maxRecDepth 20000 in
/-- The payloads Translate posts for "French", with and without cultural notes, written
out. -/
theorem Translate_French_payloads :
    (compute.Kernel.Translate { client := fixedClient 200 httpclient.RespBody.invalid }
        background
        { Text := "Good morning", TargetLanguage := "French",
          IncludeCulturalNotes := true }).2.client.postCalls =
      [(compute.computeEndpoint,
        httpclient.Payload.compute
          { StartPoint := { StartPoint := "Good morning", Resource := [] }
            Path :=
              [("endpointClass", Value.str
                  (json.JsonText.toString
                    { doc := Value.obj ((templateOf "translation").getD []) })),
               ("expectPath",
                  Value.str "Translate text to French and provide cultural background notes"),
               ("include_cultural_notes", Value.str "true"),
               ("target_language", Value.str "French")] })] ∧
    (compute.Kernel.Translate { client := fixedClient 200 httpclient.RespBody.invalid }
        background
        { Text := "Good morning", TargetLanguage := "French",
          IncludeCulturalNotes := false }).2.client.postCalls =
      [(compute.computeEndpoint,
        httpclient.Payload.compute
          { StartPoint := { StartPoint := "Good morning", Resource := [] }
            Path :=
              [("endpointClass", Value.str
                  (json.JsonText.toString
                    { doc := Value.obj ((templateOf "translation").getD []) })),
               ("expectPath", Value.str "Translate text to French"),
               ("include_cultural_notes", Value.str "false"),
               ("target_language", Value.str "French")] })] := by
  decide

/-! ### Independence of the copies returned by the registry -/

section HeapFacts

open heap

/-- Agreement on a range holds on every smaller range. -/
theorem agree_mono {h1 h2 : Heap} {lo hi lo2 hi2 : Nat} (h : Agree h1 h2 lo hi)
    (hlo : lo ≤ lo2) (hhi : hi2 ≤ hi) : Agree h1 h2 lo2 hi2 :=
  fun a ha hb => h a (le_trans hlo ha) (lt_of_lt_of_le hb hhi)

/-- Agreement with an extended heap below the extension is agreement with the heap. -/
theorem agree_append_right {h1 h2 ext : Heap} {lo hi : Nat} (h : Agree h1 (h2 ++ ext) lo hi)
    (hhi : hi ≤ h2.length) : Agree h1 h2 lo hi := by
  intro a ha hb
  rw [h a ha hb, List.getElem?_append_left (lt_of_lt_of_le hb hhi)]

mutual
/-- Storing a value only appends objects, at least as many as the value is deep, and the
reference returned loads as the value in every heap that holds the appended objects. -/
theorem store_load : ∀ (v : Value) (h : Heap),
    (∃ ext, (store v h).2 = h ++ ext ∧ depth v ≤ ext.length) ∧
    (∀ h2 fuel, depth v ≤ fuel → Agree h2 (store v h).2 h.length (store v h).2.length →
      load h2 fuel (store v h).1 = some v)
  | .null, h => ⟨⟨[], by simp [store], by simp [depth]⟩, fun h2 fuel _ _ => by
      cases fuel <;> simp [store, load]⟩
  | .bool b, h => ⟨⟨[], by simp [store], by simp [depth]⟩, fun h2 fuel _ _ => by
      cases fuel <;> simp [store, load]⟩
  | .num lit, h => ⟨⟨[], by simp [store], by simp [depth]⟩, fun h2 fuel _ _ => by
      cases fuel <;> simp [store, load]⟩
  | .str s, h => ⟨⟨[], by simp [store], by simp [depth]⟩, fun h2 fuel _ _ => by
      cases fuel <;> simp [store, load]⟩
  | .nonJson, h => ⟨⟨[], by simp [store], by simp [depth]⟩, fun h2 fuel _ _ => by
      cases fuel <;> simp [store, load]⟩
  | .arr xs, h => by
    obtain ⟨⟨ext, hext, hd⟩, hl⟩ := storeList_load xs h
    refine ⟨⟨ext ++ [Object.slice (storeList xs h).1], ?_, ?_⟩, ?_⟩
    · simp [store, hext]
    · simp [depth, hd]
    · intro h2 fuel hfuel hagree
      cases fuel with
      | zero => simp [depth] at hfuel
      | succ f =>
        have hf : depthList xs ≤ f := by
          simp only [depth] at hfuel
          omega
        have hlen : h.length ≤ (storeList xs h).2.length := by
          rw [hext]; simp
        simp only [store] at hagree ⊢
        have hobj := hagree (storeList xs h).2.length hlen (by simp)
        rw [List.getElem?_concat_length] at hobj
        have hsub : Agree h2 (storeList xs h).2 h.length (storeList xs h).2.length :=
          agree_append_right (agree_mono hagree (le_refl _) (by simp)) (le_refl _)
        simp only [load, hobj, hl h2 f hf hsub, Option.map_some']
  | .obj kvs, h => by
    obtain ⟨⟨ext, hext, hd⟩, hl⟩ := storeEntries_load kvs h
    refine ⟨⟨ext ++ [Object.map (storeEntries kvs h).1], ?_, ?_⟩, ?_⟩
    · simp [store, hext]
    · simp [depth, hd]
    · intro h2 fuel hfuel hagree
      cases fuel with
      | zero => simp [depth] at hfuel
      | succ f =>
        have hf : depthEntries kvs ≤ f := by
          simp only [depth] at hfuel
          omega
        have hlen : h.length ≤ (storeEntries kvs h).2.length := by
          rw [hext]; simp
        simp only [store] at hagree ⊢
        have hobj := hagree (storeEntries kvs h).2.length hlen (by simp)
        rw [List.getElem?_concat_length] at hobj
        have hsub : Agree h2 (storeEntries kvs h).2 h.length (storeEntries kvs h).2.length :=
          agree_append_right (agree_mono hagree (le_refl _) (by simp)) (le_refl _)
        simp only [load, hobj, hl h2 f hf hsub, Option.map_some']
/-- The same for the elements of a slice. -/
theorem storeList_load : ∀ (xs : List Value) (h : Heap),
    (∃ ext, (storeList xs h).2 = h ++ ext ∧ depthList xs ≤ ext.length) ∧
    (∀ h2 fuel, depthList xs ≤ fuel →
      Agree h2 (storeList xs h).2 h.length (storeList xs h).2.length →
      allSome ((storeList xs h).1.map (load h2 fuel)) = some xs)
  | [], h => ⟨⟨[], by simp [storeList], by simp [depthList]⟩, fun h2 fuel _ _ => by
      simp [storeList, allSome]⟩
  | x :: xs, h => by
    obtain ⟨⟨e1, h1, d1⟩, l1⟩ := store_load x h
    obtain ⟨⟨e2, h2e, d2⟩, l2⟩ := storeList_load xs (store x h).2
    refine ⟨⟨e1 ++ e2, ?_, ?_⟩, ?_⟩
    · simp only [storeList]
      rw [h2e, h1, List.append_assoc]
    · simp only [depthList, List.length_append]
      omega
    · intro h2 fuel hfuel hagree
      simp only [depthList] at hfuel
      simp only [storeList] at hagree ⊢
      have hx : load h2 fuel (store x h).1 = some x := by
        apply l1 h2 fuel (by omega)
        rw [h2e] at hagree
        exact agree_append_right (agree_mono hagree (le_refl _) (by simp)) (le_refl _)
      have hrest := l2 h2 fuel (by omega)
        (agree_mono hagree (by rw [h1]; simp) (le_refl _))
      simp [allSome, hx, hrest]
/-- The same for the entries of a map. -/
theorem storeEntries_load : ∀ (kvs : List (String × Value)) (h : Heap),
    (∃ ext, (storeEntries kvs h).2 = h ++ ext ∧ depthEntries kvs ≤ ext.length) ∧
    (∀ h2 fuel, depthEntries kvs ≤ fuel →
      Agree h2 (storeEntries kvs h).2 h.length (storeEntries kvs h).2.length →
      allSome ((storeEntries kvs h).1.map
        (fun kv => (load h2 fuel kv.2).map (fun v => (kv.1, v)))) = some kvs)
  | [], h => ⟨⟨[], by simp [storeEntries], by simp [depthEntries]⟩, fun h2 fuel _ _ => by
      simp [storeEntries, allSome]⟩
  | (k, x) :: rest, h => by
    obtain ⟨⟨e1, h1, d1⟩, l1⟩ := store_load x h
    obtain ⟨⟨e2, h2e, d2⟩, l2⟩ := storeEntries_load rest (store x h).2
    refine ⟨⟨e1 ++ e2, ?_, ?_⟩, ?_⟩
    · simp only [storeEntries]
      rw [h2e, h1, List.append_assoc]
    · simp only [depthEntries, List.length_append]
      omega
    · intro h2 fuel hfuel hagree
      simp only [depthEntries] at hfuel
      simp only [storeEntries] at hagree ⊢
      have hx : load h2 fuel (store x h).1 = some x := by
        apply l1 h2 fuel (by omega)
        rw [h2e] at hagree
        exact agree_append_right (agree_mono hagree (le_refl _) (by simp)) (le_refl _)
      have hrest := l2 h2 fuel (by omega)
        (agree_mono hagree (by rw [h1]; simp) (le_refl _))
      simp [allSome, hx, hrest]
end

/-- What a reference to a slice reaches: the slice, or what one of its elements reaches. -/
theorem reaches_slice {h : Heap} {n a : Nat} (hr : Reaches h (Ref.slice n) a) :
    a = n ∨ ∃ elems r, h[n]? = some (Object.slice elems) ∧ r ∈ elems ∧ Reaches h r a := by
  cases hr with
  | slice => exact Or.inl rfl
  | elem _ elems r _ hobj hmem hrest => exact Or.inr ⟨elems, r, hobj, hmem, hrest⟩

/-- What a reference to a map reaches: the map, or what one of its entry values reaches. -/
theorem reaches_map {h : Heap} {n a : Nat} (hr : Reaches h (Ref.map n) a) :
    a = n ∨ ∃ entries k r, h[n]? = some (Object.map entries) ∧ (k, r) ∈ entries ∧
      Reaches h r a := by
  cases hr with
  | map => exact Or.inl rfl
  | entry _ entries k r _ hobj hmem hrest => exact Or.inr ⟨entries, k, r, hobj, hmem, hrest⟩

mutual
/-- Every object that is part of a stored value, at any nesting depth, is one of the
objects the store allocated, in every heap that holds those objects. -/
theorem store_reach : ∀ (v : Value) (h h2 : Heap) (a : Nat),
    Agree h2 (store v h).2 h.length (store v h).2.length →
    Reaches h2 (store v h).1 a → h.length ≤ a ∧ a < (store v h).2.length
  | .null, h, h2, a, _, hr => by simp only [store] at hr; cases hr
  | .bool b, h, h2, a, _, hr => by simp only [store] at hr; cases hr
  | .num lit, h, h2, a, _, hr => by simp only [store] at hr; cases hr
  | .str s, h, h2, a, _, hr => by simp only [store] at hr; cases hr
  | .nonJson, h, h2, a, _, hr => by simp only [store] at hr; cases hr
  | .arr xs, h, h2, a, hagree, hr => by
    obtain ⟨⟨ext, hext, _⟩, _⟩ := storeList_load xs h
    have hlen : h.length ≤ (storeList xs h).2.length := by
      rw [hext]; simp
    simp only [store] at hagree hr ⊢
    have hobj := hagree (storeList xs h).2.length hlen (by simp)
    rw [List.getElem?_concat_length] at hobj
    have hsub : Agree h2 (storeList xs h).2 h.length (storeList xs h).2.length :=
      agree_append_right (agree_mono hagree (le_refl _) (by simp)) (le_refl _)
    rcases reaches_slice hr with ha | ⟨elems, r, hat, hmem, hrest⟩
    · subst ha
      exact ⟨hlen, by simp⟩
    · rw [hobj] at hat
      simp only [Option.some.injEq, Object.slice.injEq] at hat
      subst hat
      have := storeList_reach xs h h2 r a hsub hmem hrest
      refine ⟨this.1, ?_⟩
      simp only [List.length_append, List.length_singleton]
      omega
  | .obj kvs, h, h2, a, hagree, hr => by
    obtain ⟨⟨ext, hext, _⟩, _⟩ := storeEntries_load kvs h
    have hlen : h.length ≤ (storeEntries kvs h).2.length := by
      rw [hext]; simp
    simp only [store] at hagree hr ⊢
    have hobj := hagree (storeEntries kvs h).2.length hlen (by simp)
    rw [List.getElem?_concat_length] at hobj
    have hsub : Agree h2 (storeEntries kvs h).2 h.length (storeEntries kvs h).2.length :=
      agree_append_right (agree_mono hagree (le_refl _) (by simp)) (le_refl _)
    rcases reaches_map hr with ha | ⟨entries, k, r, hat, hmem, hrest⟩
    · subst ha
      exact ⟨hlen, by simp⟩
    · rw [hobj] at hat
      simp only [Option.some.injEq, Object.map.injEq] at hat
      subst hat
      have := storeEntries_reach kvs h h2 k r a hsub hmem hrest
      refine ⟨this.1, ?_⟩
      simp only [List.length_append, List.length_singleton]
      omega
/-- The same for the elements of a slice. -/
theorem storeList_reach : ∀ (xs : List Value) (h h2 : Heap) (r : Ref) (a : Nat),
    Agree h2 (storeList xs h).2 h.length (storeList xs h).2.length →
    r ∈ (storeList xs h).1 → Reaches h2 r a →
    h.length ≤ a ∧ a < (storeList xs h).2.length
  | [], h, h2, r, a, _, hmem, _ => by simp [storeList] at hmem
  | x :: xs, h, h2, r, a, hagree, hmem, hr => by
    obtain ⟨⟨e1, h1, _⟩, _⟩ := store_load x h
    obtain ⟨⟨e2, h2e, _⟩, _⟩ := storeList_load xs (store x h).2
    simp only [storeList] at hagree hmem ⊢
    have hl1 : h.length ≤ (store x h).2.length := by rw [h1]; simp
    have hl2 : (store x h).2.length ≤ (storeList xs (store x h).2).2.length := by
      rw [h2e]; simp
    rcases List.mem_cons.1 hmem with hfirst | hlater
    · subst hfirst
      have hsub : Agree h2 (store x h).2 h.length (store x h).2.length := by
        rw [h2e] at hagree
        exact agree_append_right (agree_mono hagree (le_refl _) (by simp)) (le_refl _)
      have := store_reach x h h2 a hsub hr
      exact ⟨this.1, lt_of_lt_of_le this.2 hl2⟩
    · have := storeList_reach xs (store x h).2 h2 r a
        (agree_mono hagree hl1 (le_refl _)) hlater hr
      exact ⟨le_trans hl1 this.1, this.2⟩
/-- The same for the entries of a map. -/
theorem storeEntries_reach : ∀ (kvs : List (String × Value)) (h h2 : Heap) (k : String)
    (r : Ref) (a : Nat),
    Agree h2 (storeEntries kvs h).2 h.length (storeEntries kvs h).2.length →
    (k, r) ∈ (storeEntries kvs h).1 → Reaches h2 r a →
    h.length ≤ a ∧ a < (storeEntries kvs h).2.length
  | [], h, h2, k, r, a, _, hmem, _ => by simp [storeEntries] at hmem
  | (k1, x) :: rest, h, h2, k, r, a, hagree, hmem, hr => by
    obtain ⟨⟨e1, h1, _⟩, _⟩ := store_load x h
    obtain ⟨⟨e2, h2e, _⟩, _⟩ := storeEntries_load rest (store x h).2
    simp only [storeEntries] at hagree hmem ⊢
    have hl1 : h.length ≤ (store x h).2.length := by rw [h1]; simp
    have hl2 : (store x h).2.length ≤ (storeEntries rest (store x h).2).2.length := by
      rw [h2e]; simp
    rcases List.mem_cons.1 hmem with hfirst | hlater
    · simp only [Prod.mk.injEq] at hfirst
      obtain ⟨_, hfr⟩ := hfirst
      subst hfr
      have hsub : Agree h2 (store x h).2 h.length (store x h).2.length := by
        rw [h2e] at hagree
        exact agree_append_right (agree_mono hagree (le_refl _) (by simp)) (le_refl _)
      have := store_reach x h h2 a hsub hr
      exact ⟨this.1, lt_of_lt_of_le this.2 hl2⟩
    · have := storeEntries_reach rest (store x h).2 h2 k r a
        (agree_mono hagree hl1 (le_refl _)) hlater hr
      exact ⟨le_trans hl1 this.1, this.2⟩
end

/-- A heap that agrees with `h` on a non-empty top range is at least as long. -/
theorem length_le_of_agree {h2 h : Heap} {lo : Nat} (hagree : Agree h2 h lo h.length)
    (hlo : lo < h.length) : h.length ≤ h2.length := by
  have hlast := hagree (h.length - 1) (by omega) (by omega)
  have hsome : h[h.length - 1]? ≠ none := by
    intro hn
    have := List.getElem?_eq_none_iff.1 hn
    omega
  rw [← hlast] at hsome
  by_contra hcon
  exact hsome (List.getElem?_eq_none (by omega))

/-- The value stored is the value viewed, in every heap that still holds the objects the
store built. -/
theorem view_of_store (v : Value) (h h2 : Heap)
    (hagree : Agree h2 (store v h).2 h.length (store v h).2.length) :
    view h2 (store v h).1 = some v := by
  obtain ⟨⟨ext, hext, hd⟩, hl⟩ := store_load v h
  apply hl h2 (h2.length + 1) _ hagree
  cases ext with
  | nil => simp at hd; omega
  | cons o rest =>
    have hlt : h.length < (store v h).2.length := by rw [hext]; simp
    have := length_le_of_agree hagree hlt
    rw [hext] at this
    simp only [List.length_append] at this
    omega

/-- The lookups of a map whose entry values are transformed. -/
theorem get_map_values {V W : Type} (f : V → W) (m : GoMap V) (k : String) :
    GoMap.get (m.map (fun e => (e.1, f e.2))) k = (GoMap.get m k).map f := by
  induction m with
  | nil => rfl
  | cons e rest ih =>
    obtain ⟨k1, v1⟩ := e
    by_cases hk : k1 = k <;> simp [GoMap.get, hk, ih]

/-- When all stored entries load, an entry of the loaded map comes from the stored entry
of the same key. -/
theorem get_of_allSome (f : Ref → Option Value) (es : GoMap Ref) (kvs : GoMap Value)
    (hall : allSome (es.map (fun kv => (f kv.2).map (fun v => (kv.1, v)))) = some kvs)
    (k : String) (v : Value) (hget : GoMap.get kvs k = some v) :
    ∃ r, GoMap.get es k = some r ∧ f r = some v := by
  induction es generalizing kvs with
  | nil =>
    simp only [List.map_nil, allSome, Option.some.injEq] at hall
    subst hall
    simp [GoMap.get] at hget
  | cons e rest ih =>
    obtain ⟨k1, r1⟩ := e
    simp only [List.map_cons] at hall
    cases hf : f r1 with
    | none => simp [hf, allSome] at hall
    | some v1 =>
      simp only [hf, Option.map_some', allSome] at hall
      cases hrest : allSome (rest.map (fun kv => (f kv.2).map (fun v => (kv.1, v)))) with
      | none => simp [hrest] at hall
      | some tail =>
        simp only [hrest, Option.map_some', Option.some.injEq] at hall
        subst hall
        by_cases hk : k1 = k
        · simp only [GoMap.get, hk, if_true, Option.some.injEq] at hget ⊢
          subst hget
          exact ⟨r1, rfl, hf⟩
        · simp only [GoMap.get, hk, if_false] at hget ⊢
          exact ih tail hrest hget

/-- In an intact registry every catalog name refers to a map that views as its template. -/
theorem intact_catalog_view (st : Program) (name : String) (t : GoMap Value)
    (hst : Intact st) (ht : templateOf name = some t) :
    ∃ ref, GoMap.get st.PREDEFINED_SCHEMAS name = some ref ∧
      view st.heap ref = some (Value.obj t) := by
  obtain ⟨hcat, hagree⟩ := hst
  obtain ⟨⟨ext, hext, hd⟩, hl⟩ :=
    storeEntries_load (compute.PREDEFINED_SCHEMAS.map (fun e => (e.1, Value.obj e.2))) []
  have hinit : initial.heap =
      (storeEntries (compute.PREDEFINED_SCHEMAS.map (fun e => (e.1, Value.obj e.2))) []).2 := rfl
  have hpos : 0 < initial.heap.length := by decide
  have hlen : initial.heap.length ≤ st.heap.length := length_le_of_agree hagree hpos
  have hfuel : depthEntries (compute.PREDEFINED_SCHEMAS.map (fun e => (e.1, Value.obj e.2))) ≤
      st.heap.length + 1 := by
    rw [hinit, hext] at hlen
    simp only [List.nil_append] at hlen
    omega
  have hall := hl st.heap (st.heap.length + 1) hfuel (by
    rw [← hinit]
    simpa using hagree)
  have hget : GoMap.get (compute.PREDEFINED_SCHEMAS.map (fun e => (e.1, Value.obj e.2))) name =
      some (Value.obj t) := by
    rw [get_map_values, get_PREDEFINED_SCHEMAS, ht]
    rfl
  obtain ⟨r, hr, hload⟩ := get_of_allSome _ _ _ hall name _ hget
  refine ⟨r, ?_, hload⟩
  rw [hcat]
  exact hr

/-- Allocation keeps the registry intact. -/
theorem intact_append (st : Program) (ext : Heap) (hst : Intact st) :
    Intact { st with heap := st.heap ++ ext } := by
  obtain ⟨hcat, hagree⟩ := hst
  refine ⟨hcat, ?_⟩
  intro a ha hb
  have hlen : initial.heap.length ≤ st.heap.length := length_le_of_agree hagree (by decide)
  simp only []
  rw [List.getElem?_append_left (by omega)]
  exact hagree a ha hb

/-- Mutating objects outside the registry keeps the registry intact. -/
theorem intact_of_mutatedOnly (before after : Program) (lo hi : Nat)
    (hst : Intact before) (hmut : MutatedOnly before after lo hi)
    (hlo : initial.heap.length ≤ lo) : Intact after := by
  obtain ⟨hcat, hagree⟩ := hst
  obtain ⟨hvar, hlow, _⟩ := hmut
  refine ⟨hvar.trans hcat, ?_⟩
  intro a ha hb
  rw [hlow a ha (by omega)]
  exact hagree a ha hb

/-- On an intact registry `GetPredefinedSchema` of a catalog name allocates at least one
object, returns a reference to the last one, and in every heap that still holds the
allocated objects that reference views as the template and everything that is part of it
is one of the allocated objects. -/
theorem GetPredefinedSchema_intact (st : Program) (name : String) (t : GoMap Value)
    (hst : Intact st) (ht : templateOf name = some t) :
    ∃ ext, ext ≠ [] ∧
      heap.GetPredefinedSchema st name =
        (.ok (Ref.map (st.heap.length + ext.length - 1)), { st with heap := st.heap ++ ext }) ∧
      ∀ h2, Agree h2 (st.heap ++ ext) st.heap.length (st.heap.length + ext.length) →
        view h2 (Ref.map (st.heap.length + ext.length - 1)) = some (Value.obj t) ∧
        ∀ a, Reaches h2 (Ref.map (st.heap.length + ext.length - 1)) a →
          st.heap.length ≤ a ∧ a < st.heap.length + ext.length := by
  obtain ⟨ref, hget, hview⟩ := intact_catalog_view st name t hst ht
  obtain ⟨⟨e, he, _⟩, _⟩ := storeEntries_load t st.heap
  have hser := templateOf_serialisable name t ht
  have hfold : t.foldl (fun m kv => GoMap.set m kv.1 kv.2) [] = t := by
    have := GoMap.foldl_set_sorted t [] (by simpa using templateOf_sorted name t ht)
    simpa using this
  have hstore1 : (store (Value.obj t) st.heap).1 = Ref.map (st.heap.length + e.length) := by
    simp [store, he]
  have hstore2 : (store (Value.obj t) st.heap).2 =
      st.heap ++ (e ++ [Object.map (storeEntries t st.heap).1]) := by
    simp [store, he]
  refine ⟨e ++ [Object.map (storeEntries t st.heap).1], by simp, ?_, ?_⟩
  · unfold heap.GetPredefinedSchema heap.Marshal
    simp only [hget, hview, json.Marshal, hser, if_true, json.Unmarshal,
      json.Unmarshaler.unmarshal, json.decodeMap, Option.getD_none, hfold, json.mapValue,
      hstore1, hstore2]
    simp
  · intro h2 hagree
    have hag : Agree h2 (store (Value.obj t) st.heap).2 st.heap.length
        (store (Value.obj t) st.heap).2.length := by
      rw [hstore2]
      simpa using hagree
    have hv := view_of_store (Value.obj t) st.heap h2 hag
    rw [hstore1] at hv
    refine ⟨by simpa using hv, ?_⟩
    intro a ha
    have hr := store_reach (Value.obj t) st.heap h2 a hag (by
      rw [hstore1]
      simpa using ha)
    rw [hstore2] at hr
    simpa using hr

/-- C8: on a registry that is intact, two calls of `GetPredefinedSchema` for a catalog
name return references to two different maps that both read as the template of that name
(structurally equal, never reference-identical).  Every object that is part of a copy, at
any nesting depth, was allocated by the call that returned the copy: none belongs to the
registry or to the other copy.  So after any mutation of one copy (entries added, removed
or replaced in any of its objects at any nesting depth, new objects allocated) the other
copy still reads as the template, and a later `GetPredefinedSchema` of the same name still
returns a schema that reads as the template. -/
theorem GetPredefinedSchema_copies_independent (st : Program) (name : String)
    (hst : Intact st) (hname : name ∈ catalogNames) :
    ∃ copy1 st1 copy2 st2 t,
      heap.GetPredefinedSchema st name = (.ok copy1, st1) ∧
      heap.GetPredefinedSchema st1 name = (.ok copy2, st2) ∧
      compute.GetPredefinedSchema name = .ok (some t) ∧
      view st2.heap copy1 = some (Value.obj t) ∧
      view st2.heap copy2 = some (Value.obj t) ∧
      copy1 ≠ copy2 ∧
      initial.heap.length ≤ st.heap.length ∧
      (∀ a, Reaches st2.heap copy1 a → st.heap.length ≤ a ∧ a < st1.heap.length) ∧
      (∀ a, Reaches st2.heap copy2 a → st1.heap.length ≤ a ∧ a < st2.heap.length) ∧
      (∀ st3, MutatedThrough st2 st3 copy1 →
        view st3.heap copy2 = some (Value.obj t) ∧
        ∃ copy3, (heap.GetPredefinedSchema st3 name).1 = .ok copy3 ∧
          view (heap.GetPredefinedSchema st3 name).2.heap copy3 = some (Value.obj t)) ∧
      (∀ st3, MutatedThrough st2 st3 copy2 →
        view st3.heap copy1 = some (Value.obj t) ∧
        ∃ copy3, (heap.GetPredefinedSchema st3 name).1 = .ok copy3 ∧
          view (heap.GetPredefinedSchema st3 name).2.heap copy3 = some (Value.obj t)) ∧
      (∀ st3, MutatedOnly st2 st3 st.heap.length st1.heap.length →
        view st3.heap copy2 = some (Value.obj t) ∧
        ∃ copy3, (heap.GetPredefinedSchema st3 name).1 = .ok copy3 ∧
          view (heap.GetPredefinedSchema st3 name).2.heap copy3 = some (Value.obj t)) ∧
      (∀ st3, MutatedOnly st2 st3 st1.heap.length st2.heap.length →
        view st3.heap copy1 = some (Value.obj t) ∧
        ∃ copy3, (heap.GetPredefinedSchema st3 name).1 = .ok copy3 ∧
          view (heap.GetPredefinedSchema st3 name).2.heap copy3 = some (Value.obj t)) := by
  obtain ⟨t, ht⟩ := (templateOf_isSome name).2 hname
  obtain ⟨e1, hne1, hcall1, hfacts1⟩ := GetPredefinedSchema_intact st name t hst ht
  have hst1 : Intact { st with heap := st.heap ++ e1 } := intact_append st e1 hst
  obtain ⟨e2, hne2, hcall2, hfacts2⟩ :=
    GetPredefinedSchema_intact { st with heap := st.heap ++ e1 } name t hst1 ht
  have hl1 : 0 < e1.length := List.length_pos.2 hne1
  have hl2 : 0 < e2.length := List.length_pos.2 hne2
  have hinit : initial.heap.length ≤ st.heap.length := length_le_of_agree hst.2 (by decide)
  have hthird : ∀ st3, Intact st3 →
      ∃ copy3, (heap.GetPredefinedSchema st3 name).1 = .ok copy3 ∧
        view (heap.GetPredefinedSchema st3 name).2.heap copy3 = some (Value.obj t) := by
    intro st3 h3
    obtain ⟨e3, _, hcall3, hfacts3⟩ := GetPredefinedSchema_intact st3 name t h3 ht
    refine ⟨_, by rw [hcall3], ?_⟩
    rw [hcall3]
    exact (hfacts3 _ (fun _ _ _ => rfl)).1
  have hag1 : Agree (st.heap ++ e1 ++ e2) (st.heap ++ e1) st.heap.length
      (st.heap.length + e1.length) := by
    intro a ha hb
    rw [List.getElem?_append_left (by simp; omega)]
  have hag2 : Agree (st.heap ++ e1 ++ e2) (st.heap ++ e1 ++ e2) (st.heap ++ e1).length
      ((st.heap ++ e1).length + e2.length) := fun _ _ _ => rfl
  have hreach1 : ∀ a, Reaches (st.heap ++ e1 ++ e2)
      (Ref.map (st.heap.length + e1.length - 1)) a →
      st.heap.length ≤ a ∧ a < st.heap.length + e1.length := (hfacts1 _ hag1).2
  have hreach2 : ∀ a, Reaches (st.heap ++ e1 ++ e2)
      (Ref.map ((st.heap ++ e1).length + e2.length - 1)) a →
      st.heap.length + e1.length ≤ a ∧ a < st.heap.length + e1.length + e2.length := by
    intro a ha
    simpa using (hfacts2 _ hag2).2 a ha
  have hfirst : ∀ st3 : Program,
      MutatedOnly { st with heap := st.heap ++ e1 ++ e2 } st3 st.heap.length
        (st.heap ++ e1).length →
      view st3.heap (Ref.map ((st.heap ++ e1).length + e2.length - 1)) = some (Value.obj t) ∧
      ∃ copy3, (heap.GetPredefinedSchema st3 name).1 = .ok copy3 ∧
        view (heap.GetPredefinedSchema st3 name).2.heap copy3 = some (Value.obj t) := by
    intro st3 hmut
    obtain ⟨hvar, hlow, hhigh⟩ := hmut
    constructor
    · apply (hfacts2 _ _).1
      intro a ha hb
      simp only [List.length_append] at ha hb hhigh ⊢
      exact hhigh a (by simpa using ha) (by simpa using hb)
    · exact hthird st3
        (intact_of_mutatedOnly _ st3 _ _ (intact_append _ e2 hst1) ⟨hvar, hlow, hhigh⟩ hinit)
  have hsecond : ∀ st3 : Program,
      MutatedOnly { st with heap := st.heap ++ e1 ++ e2 } st3 (st.heap ++ e1).length
        (st.heap ++ e1 ++ e2).length →
      view st3.heap (Ref.map (st.heap.length + e1.length - 1)) = some (Value.obj t) ∧
      ∃ copy3, (heap.GetPredefinedSchema st3 name).1 = .ok copy3 ∧
        view (heap.GetPredefinedSchema st3 name).2.heap copy3 = some (Value.obj t) := by
    intro st3 hmut
    obtain ⟨hvar, hlow, hhigh⟩ := hmut
    constructor
    · apply (hfacts1 _ _).1
      intro a ha hb
      simp only [List.length_append] at ha hb hlow ⊢
      rw [hlow a (Nat.zero_le _) (by simpa using hb)]
      rw [List.getElem?_append_left (by simp; omega)]
    · exact hthird st3
        (intact_of_mutatedOnly _ st3 _ _ (intact_append _ e2 hst1) ⟨hvar, hlow, hhigh⟩
          (by simp only [List.length_append]; omega))
  refine ⟨_, _, _, _, t, hcall1, hcall2, ?_, ?_, ?_, ?_, hinit, ?_, ?_, ?_, ?_, hfirst,
    hsecond⟩
  · rw [GetPredefinedSchema_eq, ht]
  · exact (hfacts1 _ hag1).1
  · exact (hfacts2 _ hag2).1
  · simp only [List.length_append, ne_eq, Ref.map.injEq]
    omega
  · intro a ha
    simpa using hreach1 a ha
  · intro a ha
    simpa [Nat.add_assoc] using hreach2 a ha
  · intro st3 hmut
    apply hfirst st3
    refine ⟨hmut.1, ?_, ?_⟩
    · intro a _ hb
      exact hmut.2 a (by simp only [List.length_append]; omega)
        (fun hr => by have := (hreach1 a hr).1; omega)
    · intro a ha hb
      exact hmut.2 a hb
        (fun hr => by
          have := (hreach1 a hr).2
          simp only [List.length_append] at ha
          omega)
  · intro st3 hmut
    apply hsecond st3
    refine ⟨hmut.1, ?_, ?_⟩
    · intro a _ hb
      exact hmut.2 a (by simp only [List.length_append] at hb ⊢; omega)
        (fun hr => by
          have := (hreach2 a hr).1
          simp only [List.length_append] at hb
          omega)
    · intro a ha hb
      exact hmut.2 a hb
        (fun hr => by
          have := (hreach2 a hr).2
          simp only [List.length_append] at ha
          omega)

/-- Witness of C8 on the memory right after package initialisation, for "translation". -/
theorem GetPredefinedSchema_copies_independent_witness :
    ∃ copy1 st1 copy2 st2 t,
      heap.GetPredefinedSchema initial "translation" = (.ok copy1, st1) ∧
      heap.GetPredefinedSchema st1 "translation" = (.ok copy2, st2) ∧
      compute.GetPredefinedSchema "translation" = .ok (some t) ∧
      view st2.heap copy1 = some (Value.obj t) ∧
      view st2.heap copy2 = some (Value.obj t) ∧
      copy1 ≠ copy2 ∧
      initial.heap.length ≤ initial.heap.length ∧
      (∀ a, Reaches st2.heap copy1 a → initial.heap.length ≤ a ∧ a < st1.heap.length) ∧
      (∀ a, Reaches st2.heap copy2 a → st1.heap.length ≤ a ∧ a < st2.heap.length) ∧
      (∀ st3, MutatedThrough st2 st3 copy1 →
        view st3.heap copy2 = some (Value.obj t) ∧
        ∃ copy3, (heap.GetPredefinedSchema st3 "translation").1 = .ok copy3 ∧
          view (heap.GetPredefinedSchema st3 "translation").2.heap copy3 =
            some (Value.obj t)) ∧
      (∀ st3, MutatedThrough st2 st3 copy2 →
        view st3.heap copy1 = some (Value.obj t) ∧
        ∃ copy3, (heap.GetPredefinedSchema st3 "translation").1 = .ok copy3 ∧
          view (heap.GetPredefinedSchema st3 "translation").2.heap copy3 =
            some (Value.obj t)) ∧
      (∀ st3, MutatedOnly st2 st3 initial.heap.length st1.heap.length →
        view st3.heap copy2 = some (Value.obj t) ∧
        ∃ copy3, (heap.GetPredefinedSchema st3 "translation").1 = .ok copy3 ∧
          view (heap.GetPredefinedSchema st3 "translation").2.heap copy3 =
            some (Value.obj t)) ∧
      (∀ st3, MutatedOnly st2 st3 st1.heap.length st2.heap.length →
        view st3.heap copy1 = some (Value.obj t) ∧
        ∃ copy3, (heap.GetPredefinedSchema st3 "translation").1 = .ok copy3 ∧
          view (heap.GetPredefinedSchema st3 "translation").2.heap copy3 =
            some (Value.obj t)) :=
  GetPredefinedSchema_copies_independent initial "translation" ⟨rfl, fun _ _ _ => rfl⟩
    (by decide)

set_option maxRecDepth 20000 in
/-- A concrete mutation: after two retrievals of "translation" the copies are the maps at
the addresses 35 and 42; emptying the first copy is seen through the first reference and
not through the second. -/
theorem emptying_one_copy_example :
    (heap.GetPredefinedSchema initial "translation").1 = .ok (Ref.map 35) ∧
    (heap.GetPredefinedSchema (heap.GetPredefinedSchema initial "translation").2
      "translation").1 = .ok (Ref.map 42) ∧
    view
        ((heap.GetPredefinedSchema (heap.GetPredefinedSchema initial "translation").2
          "translation").2.heap.set 35 (Object.map []))
        (Ref.map 35) = some (Value.obj []) ∧
    view
        ((heap.GetPredefinedSchema (heap.GetPredefinedSchema initial "translation").2
          "translation").2.heap.set 35 (Object.map []))
        (Ref.map 42) = some (Value.obj ((templateOf "translation").getD [])) := by
  decide

set_option maxRecDepth 40000 in
/-- A concrete mutation at depth: in the first copy the description object of
`cultural_notes` (address 29) is replaced by other entries and the `required` slice
(address 34) is emptied; the first reference no longer reads as the template, the second
one does, and so does a third retrieval made afterwards. -/
theorem mutating_nested_objects_example :
    view
        (((heap.GetPredefinedSchema (heap.GetPredefinedSchema initial "translation").2
          "translation").2.heap.set 29 (Object.map [("type", Ref.str "number")])).set 34
            (Object.slice []))
        (Ref.map 35) ≠ some (Value.obj ((templateOf "translation").getD [])) ∧
    view
        (((heap.GetPredefinedSchema (heap.GetPredefinedSchema initial "translation").2
          "translation").2.heap.set 29 (Object.map [("type", Ref.str "number")])).set 34
            (Object.slice []))
        (Ref.map 42) = some (Value.obj ((templateOf "translation").getD [])) ∧
    (heap.GetPredefinedSchema
        { heap :=
            ((heap.GetPredefinedSchema (heap.GetPredefinedSchema initial "translation").2
              "translation").2.heap.set 29 (Object.map [("type", Ref.str "number")])).set 34
                (Object.slice [])
          PREDEFINED_SCHEMAS := initial.PREDEFINED_SCHEMAS }
        "translation").1 = .ok (Ref.map 49) ∧
    view
        (heap.GetPredefinedSchema
          { heap :=
              ((heap.GetPredefinedSchema (heap.GetPredefinedSchema initial "translation").2
                "translation").2.heap.set 29 (Object.map [("type", Ref.str "number")])).set 34
                  (Object.slice [])
            PREDEFINED_SCHEMAS := initial.PREDEFINED_SCHEMAS }
          "translation").2.heap
        (Ref.map 49) = some (Value.obj ((templateOf "translation").getD [])) := by
  decide

set_option maxRecDepth 40000 in
/-- The mutation of the example above is a mutation of the first copy: the objects at the
addresses 29 and 34 are part of what the first reference stands for, two and one level
below its map. -/
theorem mutating_nested_objects_through_copy :
    MutatedThrough
      (heap.GetPredefinedSchema (heap.GetPredefinedSchema initial "translation").2
        "translation").2
      { heap :=
          ((heap.GetPredefinedSchema (heap.GetPredefinedSchema initial "translation").2
            "translation").2.heap.set 29 (Object.map [("type", Ref.str "number")])).set 34
              (Object.slice [])
        PREDEFINED_SCHEMAS := initial.PREDEFINED_SCHEMAS }
      (Ref.map 35) := by
  have h29 : Reaches
      (heap.GetPredefinedSchema (heap.GetPredefinedSchema initial "translation").2
        "translation").2.heap (Ref.map 35) 29 :=
    Reaches.entry 35
      [("properties", Ref.map 33), ("required", Ref.slice 34), ("type", Ref.str "object")]
      "properties" (Ref.map 33) 29 (by decide) (by decide)
      (Reaches.entry 33
        [("cultural_notes", Ref.map 29), ("original_language", Ref.map 30),
         ("target_language", Ref.map 31), ("translation", Ref.map 32)]
        "cultural_notes" (Ref.map 29) 29 (by decide) (by decide) (Reaches.map 29))
  have h34 : Reaches
      (heap.GetPredefinedSchema (heap.GetPredefinedSchema initial "translation").2
        "translation").2.heap (Ref.map 35) 34 :=
    Reaches.entry 35
      [("properties", Ref.map 33), ("required", Ref.slice 34), ("type", Ref.str "object")]
      "required" (Ref.slice 34) 34 (by decide) (by decide) (Reaches.slice 34)
  refine ⟨by decide, ?_⟩
  intro a _ hnot
  have ha29 : 29 ≠ a := fun h => hnot (h ▸ h29)
  have ha34 : 34 ≠ a := fun h => hnot (h ▸ h34)
  simp only []
  rw [List.getElem?_set_ne ha34, List.getElem?_set_ne ha29]

end HeapFacts

/-! ### The image path -/

/-- What `Generate` returns once the transport has answered its request with `m`. -/
theorem Generate_of_reply (g : image.Generator) (ctx : Option httpclient.Context)
    (p : image.GenerateParams) (m : Option (GoMap Value)) (hv : p.Validate = none)
    (hpost : (g.client.Post ctx image.imageEndpoint
      (httpclient.Payload.image (generateRequest p))).1 = .ok m) :
    (g.Generate ctx p).1 =
      match image.decodeMapToStruct m apimodels.APIImageResponse.zero with
      | .error _ =>
        .error (GoError.apiError
          { Message := "failed to parse API response into ImageResponse"
            StatusCode := 0
            ResponseData := none })
      | .ok apiResponse =>
        .ok
          { Images := apiResponse.EndPoint.Images.elems.map imageRecord
            Count := apiResponse.EndPoint.Count
            Status := apiResponse.EndPoint.Status
            RawData := m } := by
  unfold image.Generator.Generate
  simp only [hv]
  have hreq : ({ StartPoint := { StartPoint := p.Prompt }
                 Path := { Composition := p.Composition, Lighting := p.Lighting,
                           Style := p.Style } } : apimodels.APIImageRequest) =
      generateRequest p := rfl
  rw [hreq]
  rcases hp : g.client.Post ctx image.imageEndpoint
    (httpclient.Payload.image (generateRequest p)) with ⟨r, c⟩
  rw [hp] at hpost
  simp only [] at hpost
  subst hpost
  simp only []
  cases image.decodeMapToStruct m apimodels.APIImageResponse.zero <;> rfl

/-- With valid parameters `Generate` posts exactly once, the request built from them. -/
theorem Generate_records_call (g : image.Generator) (ctx : Option httpclient.Context)
    (p : image.GenerateParams) (hv : p.Validate = none) :
    (g.Generate ctx p).2.client.postCalls =
      g.client.postCalls ++
        [(image.imageEndpoint, httpclient.Payload.image (generateRequest p))] := by
  have hcall := Post_records_call g.client ctx image.imageEndpoint
    (httpclient.Payload.image (generateRequest p))
  unfold image.Generator.Generate
  simp only [hv]
  have hreq : ({ StartPoint := { StartPoint := p.Prompt }
                 Path := { Composition := p.Composition, Lighting := p.Lighting,
                           Style := p.Style } } : apimodels.APIImageRequest) =
      generateRequest p := rfl
  rw [hreq]
  rcases hp : g.client.Post ctx image.imageEndpoint
    (httpclient.Payload.image (generateRequest p)) with ⟨r, c⟩
  rw [hp] at hcall
  cases r with
  | error err => exact hcall
  | ok rawResp =>
    simp only []
    split <;> exact hcall

/-- Members whose keys do not select the field `EndPoint` leave the image response struct
as it is. -/
theorem decodeMembers_image_no_match (kvs : List (String × Value))
    (cur : apimodels.APIImageResponse)
    (h : ∀ key ∈ GoMap.keys kvs, json.keyMatches "end_point" key = false) :
    json.decodeMembers apimodels.APIImageResponse.decodeField kvs cur = .ok cur := by
  induction kvs with
  | nil => rfl
  | cons e rest ih =>
    obtain ⟨k1, v1⟩ := e
    have h1 : json.keyMatches "end_point" k1 = false := h k1 (by simp [GoMap.keys])
    have h2 : ∀ key ∈ GoMap.keys rest, json.keyMatches "end_point" key = false :=
      fun key hk =>
        h key (by simp only [GoMap.keys, List.map_cons, List.mem_cons]; exact Or.inr hk)
    simp [json.decodeMembers, apimodels.APIImageResponse.decodeField, h1, ih h2]

/-- When decoding the members of an image response fails, some member whose key selects
the field `EndPoint` has a value that does not fit `APIImageEndPoint`. -/
theorem decodeMembers_image_error (kvs : List (String × Value))
    (cur : apimodels.APIImageResponse) (err : GoError)
    (h : json.decodeMembers apimodels.APIImageResponse.decodeField kvs cur = .error err) :
    ∃ key v held, (key, v) ∈ kvs ∧ json.keyMatches "end_point" key = true ∧
      json.decodeStruct "apimodels.APIImageEndPoint" "APIImageResponse.end_point"
        apimodels.APIImageEndPoint.decodeField held v = .error err := by
  induction kvs generalizing cur with
  | nil => simp [json.decodeMembers] at h
  | cons e rest ih =>
    obtain ⟨k1, v1⟩ := e
    unfold json.decodeMembers at h
    cases hf : apimodels.APIImageResponse.decodeField cur k1 v1 with
    | error e1 =>
      rw [hf] at h
      simp only [Except.error.injEq] at h
      subst h
      unfold apimodels.APIImageResponse.decodeField at hf
      split at hf
      · rename_i hm
        refine ⟨k1, v1, cur.EndPoint, by simp, hm, ?_⟩
        split at hf
        · rename_i e2 he2
          simp only [Except.error.injEq] at hf
          subst hf
          exact he2
        · cases hf
      · cases hf
    | ok next =>
      rw [hf] at h
      obtain ⟨key, v, held, hmem, hm, hd⟩ := ih next h
      exact ⟨key, v, held, List.mem_cons_of_mem _ hmem, hm, hd⟩

/-- The struct that the image path's `decodeMapToStruct` fills from a JSON mapping is the
result of decoding its members. -/
theorem decodeMapToStruct_image (m : Option (GoMap Value))
    (hjson : json.serialisable (json.mapValue m) = true) :
    image.decodeMapToStruct m apimodels.APIImageResponse.zero =
      match json.decodeMembers apimodels.APIImageResponse.decodeField (m.getD [])
          apimodels.APIImageResponse.zero with
      | .error err => .error (GoError.errorfW "failed to unmarshal into struct: " err)
      | .ok out => .ok out := by
  unfold image.decodeMapToStruct json.Marshal
  simp only [hjson, if_true, json.Unmarshal, json.Unmarshaler.unmarshal]
  cases m with
  | none => simp [json.mapValue, json.decodeStruct, json.decodeMembers]
  | some kvs =>
    simp only [json.mapValue, json.decodeStruct, Option.getD]
    cases json.decodeMembers apimodels.APIImageResponse.decodeField kvs
      apimodels.APIImageResponse.zero <;> rfl

/-- When `end_point` is the only key that selects the field `EndPoint`, decoding the
members of an image response is decoding that one member. -/
theorem decodeMembers_image_only_end_point (kvs : List (String × Value))
    (cur : apimodels.APIImageResponse) (v : Value)
    (hnd : (GoMap.keys kvs).Nodup)
    (honly : ∀ key ∈ GoMap.keys kvs, json.keyMatches "end_point" key = true →
      key = "end_point")
    (hget : GoMap.get kvs "end_point" = some v) :
    json.decodeMembers apimodels.APIImageResponse.decodeField kvs cur =
      apimodels.APIImageResponse.decodeField cur "end_point" v := by
  induction kvs with
  | nil => simp [GoMap.get] at hget
  | cons e rest ih =>
    obtain ⟨k1, v1⟩ := e
    simp only [GoMap.keys, List.map_cons, List.nodup_cons] at hnd
    have honly2 : ∀ key ∈ GoMap.keys rest, json.keyMatches "end_point" key = true →
        key = "end_point" := fun key hk =>
      honly key (by simp only [GoMap.keys, List.map_cons, List.mem_cons]; exact Or.inr hk)
    by_cases hk : k1 = "end_point"
    · subst hk
      simp only [GoMap.get, if_true, Option.some.injEq] at hget
      subst hget
      have hrest : ∀ key ∈ GoMap.keys rest, json.keyMatches "end_point" key = false := by
        intro key hmem
        cases hm : json.keyMatches "end_point" key with
        | false => rfl
        | true =>
          have := honly2 key hmem hm
          subst this
          exact absurd hmem hnd.1
      unfold json.decodeMembers
      cases hd : apimodels.APIImageResponse.decodeField cur "end_point" v1 with
      | error err => rfl
      | ok next => exact decodeMembers_image_no_match rest next hrest
    · have hno : json.keyMatches "end_point" k1 = false := by
        cases hm : json.keyMatches "end_point" k1 with
        | false => rfl
        | true => exact absurd (honly k1 (by simp [GoMap.keys]) hm) hk
      simp only [GoMap.get, hk, if_false] at hget
      unfold json.decodeMembers
      simp only [apimodels.APIImageResponse.decodeField, hno]
      exact ih hnd.2 honly2 hget

/-- The struct that the image path's `decodeMapToStruct` fills from a mapping in which
`end_point` is the only key that selects the field `EndPoint`: the end-point struct is
the entry `e` under `end_point` decoded into a zero value. -/
theorem decodeMapToStruct_image_entry (m : Option (GoMap Value)) (e : Value)
    (hjson : json.serialisable (json.mapValue m) = true)
    (hsorted : GoMap.Sorted (m.getD []))
    (honly : ∀ key ∈ GoMap.keys (m.getD []), json.keyMatches "end_point" key = true →
      key = "end_point")
    (hentry : lookupNil m "end_point" = some e) :
    image.decodeMapToStruct m apimodels.APIImageResponse.zero =
      match json.decodeStruct "apimodels.APIImageEndPoint" "APIImageResponse.end_point"
          apimodels.APIImageEndPoint.decodeField apimodels.APIImageEndPoint.zero e with
      | .error err => .error (GoError.errorfW "failed to unmarshal into struct: " err)
      | .ok ep => .ok { EndPoint := ep } := by
  rw [decodeMapToStruct_image m hjson]
  cases m with
  | none => simp [lookupNil] at hentry
  | some kvs =>
    have hget : GoMap.get kvs "end_point" = some e := hentry
    simp only [Option.getD_some] at hsorted honly ⊢
    rw [decodeMembers_image_only_end_point kvs _ e (GoMap.nodup_of_sorted kvs hsorted) honly
      hget]
    have hself : json.keyMatches "end_point" "end_point" = true := by decide
    simp only [apimodels.APIImageResponse.decodeField, hself, if_true]
    have hz : apimodels.APIImageResponse.zero.EndPoint = apimodels.APIImageEndPoint.zero := rfl
    rw [hz]
    cases json.decodeStruct "apimodels.APIImageEndPoint" "APIImageResponse.end_point"
      apimodels.APIImageEndPoint.decodeField apimodels.APIImageEndPoint.zero e <;> rfl

/-- C11: for every GenerateParams that passes validation, Generate posts exactly one
request, to the endpoint "/sd2is/render", and the JSON document marshalled from it is
exactly the reference payload: a start object holding only `startPoint` = Prompt, and a
path object with exactly the keys `frame_Composition`, `lighting`, `style` carrying
Composition, Lighting and Style unchanged; no key is named `composition` or
`Composition`. -/
theorem Generate_posts_reference_payload (g : image.Generator)
    (ctx : Option httpclient.Context) (p : image.GenerateParams) (hv : p.Validate = none) :
    ∃ payload start path,
      (g.Generate ctx p).2.client.postCalls =
        g.client.postCalls ++ [("/sd2is/render", payload)] ∧
      json.Marshal payload.toValue =
        .ok { doc := referenceImagePayload p.Prompt p.Composition p.Lighting p.Style } ∧
      payload.toValue = Value.obj [("start_point", Value.obj start), ("path", Value.obj path)] ∧
      start = [("startPoint", Value.str p.Prompt)] ∧
      GoMap.keys path = ["frame_Composition", "lighting", "style"] ∧
      GoMap.get path "frame_Composition" = some (Value.str p.Composition) ∧
      GoMap.get path "lighting" = some (Value.str p.Lighting) ∧
      GoMap.get path "style" = some (Value.str p.Style) ∧
      GoMap.get path "composition" = none ∧
      GoMap.get path "Composition" = none := by
  refine ⟨httpclient.Payload.image (generateRequest p),
    [("startPoint", Value.str p.Prompt)],
    [("frame_Composition", Value.str p.Composition), ("lighting", Value.str p.Lighting),
     ("style", Value.str p.Style)], Generate_records_call g ctx p hv, ?_, rfl, rfl, rfl, ?_, ?_,
     ?_, ?_, ?_⟩
  · simp [json.Marshal, httpclient.Payload.toValue, apimodels.APIImageRequest.toValue,
      generateRequest, referenceImagePayload, json.serialisable, json.serialisableEntries]
  · simp [GoMap.get]
  · simp [GoMap.get]
  · simp [GoMap.get]
  · simp [GoMap.get]
  · simp [GoMap.get]

set_option maxRecDepth 20000 in
/-- Witness of C11: the request that reaches the HTTP layer for the prompt "a cat", the
composition "centered", the lighting "soft" and the style "oil". -/
theorem Generate_posts_reference_payload_witness :
    (image.Generator.Generate { client := spyClient } background
        { Prompt := "a cat", Composition := "centered", Lighting := "soft",
          Style := "oil" }).1 =
      .error (GoError.networkError (GoError.errorString
        ("POST https://rck.example/sd2is/render " ++
          "\x7b\"start_point\":\x7b\"startPoint\":\"a cat\"\x7d,\"path\":" ++
          "\x7b\"frame_Composition\":\"centered\",\"lighting\":\"soft\",\"style\":\"oil\"\x7d\x7d"))) ∧
    ∃ payload,
      (image.Generator.Generate { client := spyClient } background
          { Prompt := "a cat", Composition := "centered", Lighting := "soft",
            Style := "oil" }).2.client.postCalls = [("/sd2is/render", payload)] ∧
      payload.toValue = referenceImagePayload "a cat" "centered" "soft" "oil" := by
  refine ⟨by decide, ?_⟩
  obtain ⟨payload, start, path, h1, h2, h3, h4, h5, h6, h7, h8, _, _⟩ :=
    Generate_posts_reference_payload { client := spyClient } background
      { Prompt := "a cat", Composition := "centered", Lighting := "soft", Style := "oil" }
      (by decide)
  refine ⟨payload, h1, ?_⟩
  unfold json.Marshal at h2
  split at h2
  · simp only [Except.ok.injEq, json.JsonText.mk.injEq] at h2
    exact h2
  · cases h2

set_option maxRecDepth 20000 in
/-- C12, as stated, fails when another key of the mapping equals `end_point` up to case.
In a response with the entries `End_Point` (count 1, status "success") and `end_point`
(an empty images array) the `end_point` entry decodes to no image, count 0 and status "",
yet Generate returns Count 1 and Status "success"; in a response with the entries
`END_POINT` (a string) and `end_point` (a well-formed end point) the `end_point` entry
decodes, yet Generate returns the `APIError`. -/
theorem Generate_decodes_more_than_the_end_point_entry :
    lookupNil
        (some [("End_Point", Value.obj
                  [("count", Value.num "1"), ("status", Value.str "success")]),
               ("end_point", Value.obj [("images", Value.arr [])])])
        "end_point" = some (Value.obj [("images", Value.arr [])]) ∧
    json.decodeStruct "apimodels.APIImageEndPoint" "APIImageResponse.end_point"
        apimodels.APIImageEndPoint.decodeField apimodels.APIImageEndPoint.zero
        (Value.obj [("images", Value.arr [])]) =
      .ok { Images := { elems := [], beyond := [] }, Count := 0, Status := "" } ∧
    (image.Generator.Generate
        { client := fixedClient 200
            (httpclient.RespBody.json
              (Value.obj
                [("End_Point", Value.obj
                    [("count", Value.num "1"), ("status", Value.str "success")]),
                 ("end_point", Value.obj [("images", Value.arr [])])])) }
        background
        { Prompt := "a cat", Composition := "centered", Lighting := "soft",
          Style := "oil" }).1.map
        (fun r => (r.Images.length, r.Count, r.Status)) = .ok (0, 1, "success") ∧
    lookupNil
        (some [("END_POINT", Value.str "oops"),
               ("end_point", Value.obj
                  [("count", Value.num "1"),
                   ("images", Value.arr [Value.obj [("url", Value.str "http://x/1.png")]]),
                   ("status", Value.str "success")])])
        "end_point" =
      some (Value.obj
        [("count", Value.num "1"),
         ("images", Value.arr [Value.obj [("url", Value.str "http://x/1.png")]]),
         ("status", Value.str "success")]) ∧
    json.decodeStruct "apimodels.APIImageEndPoint" "APIImageResponse.end_point"
        apimodels.APIImageEndPoint.decodeField apimodels.APIImageEndPoint.zero
        (Value.obj
          [("count", Value.num "1"),
           ("images", Value.arr [Value.obj [("url", Value.str "http://x/1.png")]]),
           ("status", Value.str "success")]) =
      .ok
        { Images :=
            { elems := [{ URL := "http://x/1.png", ImageData := "", Index := 0, Size := 0,
                          MimeType := "" }]
              beyond := [] }
          Count := 1
          Status := "success" } ∧
    (image.Generator.Generate
        { client := fixedClient 200
            (httpclient.RespBody.json
              (Value.obj
                [("END_POINT", Value.str "oops"),
                 ("end_point", Value.obj
                    [("count", Value.num "1"),
                     ("images", Value.arr [Value.obj [("url", Value.str "http://x/1.png")]]),
                     ("status", Value.str "success")])])) }
        background
        { Prompt := "a cat", Composition := "centered", Lighting := "soft",
          Style := "oil" }).1 =
      .error (GoError.apiError
        { Message := "failed to parse API response into ImageResponse"
          StatusCode := 0
          ResponseData := none }) := by
  decide

/-- C12, amended: for every valid GenerateParams and every JSON mapping `m` returned by
the transport in which `end_point` is the only key that equals `end_point` up to the case
of its letters, and whose entry `m["end_point"]` decodes into the end-point struct `ep`,
that is to the images `w1..wn` (`ep.Images.elems`), the count `c` (`ep.Count`) and the
status `s` (`ep.Status`): Generate returns no error and an ImageResponse with exactly `n`
records in the same order, record `i` copying url, imageData, index, size and mimeType of
`wi`, with Count = `c`, Status = `s` and RawData = `m`; on it `Success()` holds iff `s` is
"success" and `c > 0`, and `HasData()` of a record holds iff its URL or its inline data is
non-empty. -/
theorem Generate_translates_end_point (g : image.Generator)
    (ctx : Option httpclient.Context) (p : image.GenerateParams)
    (m : Option (GoMap Value)) (e : Value) (ep : apimodels.APIImageEndPoint)
    (hv : p.Validate = none)
    (hpost : (g.client.Post ctx image.imageEndpoint
      (httpclient.Payload.image (generateRequest p))).1 = .ok m)
    (hjson : json.serialisable (json.mapValue m) = true)
    (hsorted : GoMap.Sorted (m.getD []))
    (honly : ∀ key ∈ GoMap.keys (m.getD []), json.keyMatches "end_point" key = true →
      key = "end_point")
    (hentry : lookupNil m "end_point" = some e)
    (hdec : json.decodeStruct "apimodels.APIImageEndPoint" "APIImageResponse.end_point"
      apimodels.APIImageEndPoint.decodeField apimodels.APIImageEndPoint.zero e = .ok ep) :
    ∃ r, (g.Generate ctx p).1 = .ok r ∧
      r.Images.length = ep.Images.elems.length ∧
      (∀ (i : Nat) (w : apimodels.APIImageInfo), ep.Images.elems[i]? = some w →
        ∃ record : image.ImageInfo, r.Images[i]? = some record ∧
          record.URL = w.URL ∧ record.ImageData = w.ImageData ∧ record.Index = w.Index ∧
          record.Size = w.Size ∧ record.MimeType = w.MimeType) ∧
      r.Count = ep.Count ∧ r.Status = ep.Status ∧ r.RawData = m ∧
      (r.Success = true ↔ ep.Status = "success" ∧ ep.Count > 0) ∧
      (∀ record ∈ r.Images,
        record.HasData = true ↔ record.URL ≠ "" ∨ record.ImageData ≠ "") := by
  refine ⟨{ Images := ep.Images.elems.map imageRecord, Count := ep.Count, Status := ep.Status,
            RawData := m }, ?_, ?_, ?_, rfl, rfl, rfl, ?_, ?_⟩
  · rw [Generate_of_reply g ctx p m hv hpost,
      decodeMapToStruct_image_entry m e hjson hsorted honly hentry, hdec]
  · simp
  · intro i w hw
    refine ⟨imageRecord w, ?_, rfl, rfl, rfl, rfl, rfl⟩
    simp [hw]
  · simp [image.ImageResponse.Success]
  · intro record _
    simp [image.ImageInfo.HasData]

set_option maxRecDepth 20000 in
/-- Witness of the amended C12, the end-to-end scenario of the specification: count 2,
status "success", a first image with only a URL and a second with only inline data give
`Success()` true and two records that both have data. -/
theorem Generate_translates_end_point_witness :
    ∃ r,
      (image.Generator.Generate
          { client := fixedClient 200
              (httpclient.RespBody.json
                (Value.obj
                  [("end_point", Value.obj
                      [("count", Value.num "2"),
                       ("images", Value.arr
                          [Value.obj
                             [("index", Value.num "0"), ("url", Value.str "http://x/1.png")],
                           Value.obj
                             [("imageData", Value.str "aGVsbG8="), ("index", Value.num "1"),
                              ("mimeType", Value.str "image/png")]]),
                       ("status", Value.str "success")])])) }
          background
          { Prompt := "a cat", Composition := "centered", Lighting := "soft",
            Style := "oil" }).1 = .ok r ∧
      r.Success = true ∧
      r.Images.length = 2 ∧
      r.Images.map image.ImageInfo.HasData = [true, true] ∧
      r.Images.map (fun i => i.URL) = ["http://x/1.png", ""] ∧
      r.Images.map (fun i => i.ImageData) = ["", "aGVsbG8="] := by
  obtain ⟨r, h1, h2, h3, h4, h5, h6, h7, h8⟩ :=
    Generate_translates_end_point
      { client := fixedClient 200
          (httpclient.RespBody.json
            (Value.obj
              [("end_point", Value.obj
                  [("count", Value.num "2"),
                   ("images", Value.arr
                      [Value.obj
                         [("index", Value.num "0"), ("url", Value.str "http://x/1.png")],
                       Value.obj
                         [("imageData", Value.str "aGVsbG8="), ("index", Value.num "1"),
                          ("mimeType", Value.str "image/png")]]),
                   ("status", Value.str "success")])])) }
      background
      { Prompt := "a cat", Composition := "centered", Lighting := "soft", Style := "oil" }
      (some
        [("end_point", Value.obj
            [("count", Value.num "2"),
             ("images", Value.arr
                [Value.obj [("index", Value.num "0"), ("url", Value.str "http://x/1.png")],
                 Value.obj
                   [("imageData", Value.str "aGVsbG8="), ("index", Value.num "1"),
                    ("mimeType", Value.str "image/png")]]),
             ("status", Value.str "success")])])
      (Value.obj
        [("count", Value.num "2"),
         ("images", Value.arr
            [Value.obj [("index", Value.num "0"), ("url", Value.str "http://x/1.png")],
             Value.obj
               [("imageData", Value.str "aGVsbG8="), ("index", Value.num "1"),
                ("mimeType", Value.str "image/png")]]),
         ("status", Value.str "success")])
      { Images :=
          { elems :=
              [{ URL := "http://x/1.png", ImageData := "", Index := 0, Size := 0,
                 MimeType := "" },
               { URL := "", ImageData := "aGVsbG8=", Index := 1, Size := 0,
                 MimeType := "image/png" }]
            beyond := [] }
        Count := 2
        Status := "success" }
      (by decide) (by decide) (by decide) (by decide) (by decide) (by decide) (by decide)
  have hr : (image.Generator.Generate
      { client := fixedClient 200
          (httpclient.RespBody.json
            (Value.obj
              [("end_point", Value.obj
                  [("count", Value.num "2"),
                   ("images", Value.arr
                      [Value.obj
                         [("index", Value.num "0"), ("url", Value.str "http://x/1.png")],
                       Value.obj
                         [("imageData", Value.str "aGVsbG8="), ("index", Value.num "1"),
                          ("mimeType", Value.str "image/png")]]),
                   ("status", Value.str "success")])])) }
      background
      { Prompt := "a cat", Composition := "centered", Lighting := "soft",
        Style := "oil" }).1 =
      .ok
        { Images :=
            [{ URL := "http://x/1.png", ImageData := "", Index := 0, Size := 0,
               MimeType := "" },
             { URL := "", ImageData := "aGVsbG8=", Index := 1, Size := 0,
               MimeType := "image/png" }]
          Count := 2
          Status := "success"
          RawData := some
            [("end_point", Value.obj
                [("count", Value.num "2"),
                 ("images", Value.arr
                    [Value.obj
                       [("index", Value.num "0"), ("url", Value.str "http://x/1.png")],
                     Value.obj
                       [("imageData", Value.str "aGVsbG8="), ("index", Value.num "1"),
                        ("mimeType", Value.str "image/png")]]),
                 ("status", Value.str "success")])] } := by
    decide
  rw [hr] at h1
  cases h1
  exact ⟨_, hr, by decide, by decide, by decide, by decide, by decide⟩

/-! ### Decoding a compute result into a caller's struct -/

/-- C13, as stated, fails for the empty mapping: `Decode` of an empty, non-nil `Data`
returns no error and leaves the target as it was, for a zero target and for a filled
one. -/
theorem Decode_accepts_empty_data :
    compute.ComputeResponse.Decode { Data := some [] }
        ({ Emotion := "", Theme := "", Analysis := "" } : AnalysisResult) =
      .ok { Emotion := "", Theme := "", Analysis := "" } ∧
    compute.ComputeResponse.Decode { Data := some [] }
        ({ Emotion := "calm", Theme := "sea", Analysis := "short" } : AnalysisResult) =
      .ok { Emotion := "calm", Theme := "sea", Analysis := "short" } := by
  decide

/-- C13, amended: for every target, `Decode` fails with "response data is nil" when
`Data` is nil; for a non-nil JSON mapping, the empty one included, it succeeds exactly
when `json.Unmarshal` of the mapping's JSON form into the target succeeds, with the same
outcome, and otherwise fails; into a struct target the empty mapping decodes without
error and leaves the target unchanged. -/
theorem Decode_fails_on_nil_and_on_incompatible_shape {α : Type} [json.Unmarshaler α]
    (v : α) :
    compute.ComputeResponse.Decode { Data := none } v =
      .error (GoError.errorString "response data is nil") ∧
    (∀ data, json.serialisable (Value.obj data) = true →
      (∀ out, compute.ComputeResponse.Decode { Data := some data } v = .ok out ↔
        json.Unmarshal { doc := Value.obj data } v = .ok out) ∧
      ((∃ err, compute.ComputeResponse.Decode { Data := some data } v = .error err) ↔
        ∃ err, json.Unmarshal { doc := Value.obj data } v = .error err)) ∧
    (∀ (goType : String) (field : α → String → Value → Except GoError α),
      (∀ (b : json.JsonText) (cur : α),
        json.Unmarshal b cur = json.decodeStruct goType "" field cur b.doc) →
      compute.ComputeResponse.Decode { Data := some [] } v = .ok v) := by
  refine ⟨rfl, ?_, ?_⟩
  · intro data hser
    unfold compute.ComputeResponse.Decode
    simp only [json.Marshal, hser, if_true]
    cases hu : json.Unmarshal { doc := Value.obj data } v with
    | error err => simp
    | ok out => simp
  · intro goType field hstruct
    unfold compute.ComputeResponse.Decode
    have hser : json.serialisable (Value.obj []) = true := by decide
    simp only [json.Marshal, hser, if_true, hstruct, json.decodeStruct, json.decodeMembers]

/-- Witness of the amended C13 on a caller-defined struct: a compatible mapping fills the
struct, a number where a string is expected makes `Decode` fail. -/
theorem Decode_fails_on_nil_and_on_incompatible_shape_witness :
    compute.ComputeResponse.Decode
        { Data := some
            [("analysis", Value.str "ok"), ("emotion", Value.str "neutral"),
             ("theme", Value.str "none")] }
        ({ Emotion := "", Theme := "", Analysis := "" } : AnalysisResult) =
      .ok { Emotion := "neutral", Theme := "none", Analysis := "ok" } ∧
    ∃ err, compute.ComputeResponse.Decode { Data := some [("emotion", Value.num "5")] }
        ({ Emotion := "", Theme := "", Analysis := "" } : AnalysisResult) = .error err :=
  ⟨(((Decode_fails_on_nil_and_on_incompatible_shape
        ({ Emotion := "", Theme := "", Analysis := "" } : AnalysisResult)).2.1
      [("analysis", Value.str "ok"), ("emotion", Value.str "neutral"),
       ("theme", Value.str "none")] (by decide)).1
      { Emotion := "neutral", Theme := "none", Analysis := "ok" }).2 (by decide),
   (((Decode_fails_on_nil_and_on_incompatible_shape
        ({ Emotion := "", Theme := "", Analysis := "" } : AnalysisResult)).2.1
      [("emotion", Value.num "5")] (by decide)).2).2
      ⟨json.typeError "number" "string" "AnalysisResult.emotion", by decide⟩⟩

/-! ### Success and the images of a response -/

/-- What a successful `Generate` returned: the transport answered the one request with
the raw data, and the end point decoded from it gave the count, the status and the
image records. -/
theorem Generate_ok_inv (g : image.Generator) (ctx : Option httpclient.Context)
    (p : image.GenerateParams) (r : image.ImageResponse)
    (h : (g.Generate ctx p).1 = .ok r) :
    p.Validate = none ∧
    (g.client.Post ctx image.imageEndpoint
      (httpclient.Payload.image (generateRequest p))).1 = .ok r.RawData ∧
    ∃ api, image.decodeMapToStruct r.RawData apimodels.APIImageResponse.zero = .ok api ∧
      r.Count = api.EndPoint.Count ∧ r.Status = api.EndPoint.Status ∧
      r.Images = api.EndPoint.Images.elems.map imageRecord := by
  cases hv : p.Validate with
  | some err =>
    unfold image.Generator.Generate at h
    simp [hv] at h
  | none =>
    refine ⟨rfl, ?_⟩
    cases hp : (g.client.Post ctx image.imageEndpoint
        (httpclient.Payload.image (generateRequest p))).1 with
    | error err =>
      unfold image.Generator.Generate at h
      simp only [hv] at h
      have hreq : ({ StartPoint := { StartPoint := p.Prompt }
                     Path := { Composition := p.Composition, Lighting := p.Lighting,
                               Style := p.Style } } : apimodels.APIImageRequest) =
          generateRequest p := rfl
      rw [hreq] at h
      rcases hq : g.client.Post ctx image.imageEndpoint
        (httpclient.Payload.image (generateRequest p)) with ⟨res, c⟩
      rw [hq] at h hp
      simp only [] at hp
      subst hp
      simp at h
    | ok m =>
      rw [Generate_of_reply g ctx p m hv hp] at h
      cases hd : image.decodeMapToStruct m apimodels.APIImageResponse.zero with
      | error err =>
        rw [hd] at h
        simp at h
      | ok api =>
        rw [hd] at h
        simp only [Except.ok.injEq] at h
        subst h
        exact ⟨rfl, api, hd, rfl, rfl, rfl⟩

set_option maxRecDepth 20000 in
/-- C14, as stated, fails: a response with count 1, status "success" and an empty images
array gives `Success()` true with no image record; a response with count 2 and one image
gives `Success()` true with a Count that is not the number of records. -/
theorem Success_with_count_unrelated_to_images :
    (image.Generator.Generate
        { client := fixedClient 200
            (httpclient.RespBody.json
              (Value.obj
                [("end_point", Value.obj
                    [("count", Value.num "1"), ("images", Value.arr []),
                     ("status", Value.str "success")])])) }
        background
        { Prompt := "a cat", Composition := "centered", Lighting := "soft",
          Style := "oil" }).1.map
        (fun r => (r.Success, r.Images.length, r.Count)) = .ok (true, 0, 1) ∧
    (image.Generator.Generate
        { client := fixedClient 200
            (httpclient.RespBody.json
              (Value.obj
                [("end_point", Value.obj
                    [("count", Value.num "2"),
                     ("images", Value.arr [Value.obj [("url", Value.str "http://x/1.png")]]),
                     ("status", Value.str "success")])])) }
        background
        { Prompt := "a cat", Composition := "centered", Lighting := "soft",
          Style := "oil" }).1.map
        (fun r => (r.Success, r.Images.length, r.Count)) = .ok (true, 1, 2) := by
  decide

/-- C14, amended: for every ImageResponse returned without error by Generate,
`Success()` is true exactly when Status is "success" and Count is positive, where Count
and Status are the count and status of the end point decoded from the raw response, and
Images has one record for each entry of the end point's images array, in order; Count is
the figure the backend reported, whatever the number of records. -/
theorem Success_reflects_reported_count (g : image.Generator)
    (ctx : Option httpclient.Context) (p : image.GenerateParams) (r : image.ImageResponse)
    (h : (g.Generate ctx p).1 = .ok r) :
    (r.Success = true ↔ r.Status = "success" ∧ r.Count > 0) ∧
    ∃ api, image.decodeMapToStruct r.RawData apimodels.APIImageResponse.zero = .ok api ∧
      r.Count = api.EndPoint.Count ∧ r.Status = api.EndPoint.Status ∧
      r.Images.length = api.EndPoint.Images.elems.length ∧
      r.Images = api.EndPoint.Images.elems.map imageRecord := by
  obtain ⟨_, _, api, hd, hc, hs, hi⟩ := Generate_ok_inv g ctx p r h
  refine ⟨?_, api, hd, hc, hs, ?_, hi⟩
  · simp [image.ImageResponse.Success]
  · rw [hi]
    simp

set_option maxRecDepth 20000 in
/-- Witness of the amended C14: a response with count 1, status "success" and one image. -/
theorem Success_reflects_reported_count_witness :
    (image.ImageResponse.Success
        { Images := [{ URL := "http://x/1.png", ImageData := "", Index := 0, Size := 0,
                       MimeType := "" }]
          Count := 1
          Status := "success"
          RawData := some
            [("end_point", Value.obj
                [("count", Value.num "1"),
                 ("images", Value.arr [Value.obj [("url", Value.str "http://x/1.png")]]),
                 ("status", Value.str "success")])] } = true ↔
      "success" = "success" ∧ (1 : Int) > 0) :=
  (Success_reflects_reported_count
    { client := fixedClient 200
        (httpclient.RespBody.json
          (Value.obj
            [("end_point", Value.obj
                [("count", Value.num "1"),
                 ("images", Value.arr [Value.obj [("url", Value.str "http://x/1.png")]]),
                 ("status", Value.str "success")])])) }
    background
    { Prompt := "a cat", Composition := "centered", Lighting := "soft", Style := "oil" }
    { Images := [{ URL := "http://x/1.png", ImageData := "", Index := 0, Size := 0,
                   MimeType := "" }]
      Count := 1
      Status := "success"
      RawData := some
        [("end_point", Value.obj
            [("count", Value.num "1"),
             ("images", Value.arr [Value.obj [("url", Value.str "http://x/1.png")]]),
             ("status", Value.str "success")])] }
    (by decide)).1

/-! ### A response without end point on the image path -/

set_option maxRecDepth 20000 in
/-- C15, as stated, fails: a response whose only entry is keyed `End_Point` has no
`end_point` entry, yet Generate returns its count and status, and `Success()` is true;
and a response whose only entry is `END_POINT` with a string value has no `end_point`
entry, yet Generate returns the `APIError`. -/
theorem Generate_matches_end_point_key_ignoring_case :
    lookupNil
        (some [("End_Point", Value.obj
            [("count", Value.num "1"), ("status", Value.str "success")])])
        "end_point" = none ∧
    (image.Generator.Generate
        { client := fixedClient 200
            (httpclient.RespBody.json
              (Value.obj
                [("End_Point", Value.obj
                    [("count", Value.num "1"), ("status", Value.str "success")])])) }
        background
        { Prompt := "a cat", Composition := "centered", Lighting := "soft",
          Style := "oil" }).1.map
        (fun r => (r.Success, r.Images.length, r.Count, r.Status)) =
      .ok (true, 0, 1, "success") ∧
    lookupNil (some [("END_POINT", Value.str "oops")]) "end_point" = none ∧
    (image.Generator.Generate
        { client := fixedClient 200
            (httpclient.RespBody.json (Value.obj [("END_POINT", Value.str "oops")])) }
        background
        { Prompt := "a cat", Composition := "centered", Lighting := "soft",
          Style := "oil" }).1 =
      .error (GoError.apiError
        { Message := "failed to parse API response into ImageResponse"
          StatusCode := 0
          ResponseData := none }) := by
  decide

/-- C15, amended: for every valid GenerateParams and every JSON mapping `m` returned by
the transport, (1) if no key of `m` equals `end_point` up to the case of its letters
(the empty and the nil mapping included), Generate returns no error and an ImageResponse
with no image record, Count 0, Status "" and RawData `m`, so `Success()` is false;
(2) if Generate returns an error, it is the `APIError`
"failed to parse API response into ImageResponse", and some entry of `m` whose key equals
`end_point` up to case has a value that does not decode into the end-point struct. -/
theorem Generate_without_end_point (g : image.Generator) (ctx : Option httpclient.Context)
    (p : image.GenerateParams) (m : Option (GoMap Value)) (hv : p.Validate = none)
    (hpost : (g.client.Post ctx image.imageEndpoint
      (httpclient.Payload.image (generateRequest p))).1 = .ok m)
    (hjson : json.serialisable (json.mapValue m) = true) :
    ((∀ key ∈ GoMap.keys (m.getD []), json.keyMatches "end_point" key = false) →
      ∃ r, (g.Generate ctx p).1 = .ok r ∧ r.Images = [] ∧ r.Count = 0 ∧ r.Status = "" ∧
        r.RawData = m ∧ r.Success = false) ∧
    (∀ e, (g.Generate ctx p).1 = .error e →
      e = GoError.apiError
        { Message := "failed to parse API response into ImageResponse"
          StatusCode := 0
          ResponseData := none } ∧
      ∃ key v held err, (key, v) ∈ m.getD [] ∧ json.keyMatches "end_point" key = true ∧
        json.decodeStruct "apimodels.APIImageEndPoint" "APIImageResponse.end_point"
          apimodels.APIImageEndPoint.decodeField held v = .error err) := by
  have hgen := Generate_of_reply g ctx p m hv hpost
  have hdec := decodeMapToStruct_image m hjson
  constructor
  · intro hnone
    rw [decodeMembers_image_no_match _ _ hnone] at hdec
    rw [hdec] at hgen
    exact ⟨_, hgen, rfl, rfl, rfl, rfl, rfl⟩
  · intro e he
    cases hm : json.decodeMembers apimodels.APIImageResponse.decodeField (m.getD [])
        apimodels.APIImageResponse.zero with
    | error err =>
      rw [hm] at hdec
      rw [hdec] at hgen
      rw [hgen] at he
      simp only [Except.error.injEq] at he
      obtain ⟨key, v, held, hmem, hmatch, hd⟩ := decodeMembers_image_error _ _ _ hm
      exact ⟨he.symm, key, v, held, err, hmem, hmatch, hd⟩
    | ok out =>
      rw [hm] at hdec
      rw [hdec] at hgen
      rw [hgen] at he
      cases he

set_option maxRecDepth 20000 in
/-- Witness of the amended C15: the empty mapping `{}` as response. -/
theorem Generate_without_end_point_witness :
    ∃ r,
      (image.Generator.Generate
          { client := fixedClient 200 (httpclient.RespBody.json (Value.obj [])) } background
          { Prompt := "a cat", Composition := "centered", Lighting := "soft",
            Style := "oil" }).1 = .ok r ∧
      r.Images = [] ∧ r.Count = 0 ∧ r.Status = "" ∧ r.RawData = some [] ∧
      r.Success = false :=
  (Generate_without_end_point
    { client := fixedClient 200 (httpclient.RespBody.json (Value.obj [])) } background
    { Prompt := "a cat", Composition := "centered", Lighting := "soft", Style := "oil" }
    (some []) (by decide) (by decide) (by decide)).1 (by decide)

end RckSdk
